import Mathlib

/-!
# hot-coffee: order fulfilment and inventory consistency

A shallow embedding of the service layer of the hot-coffee server
(`internal/service/order_service.go`, `internal/service/inventory_service.go`,
`utils/util.go`) together with theorems about it.

Conventions of the embedding.

* Go `float64` quantities are elements of an arbitrary linearly ordered
  commutative ring `Q` (exact arithmetic: `ℤ`, `ℚ`, `ℝ` are instances); Go `int`
  order quantities are `Int` and are cast into `Q` where the source converts
  with `float64(..)`.
* The three JSON files are the fields of `Store`. A load returns the stored
  collection unless the environment makes it fail; a save replaces the stored
  collection unless the environment makes it fail, in which case the stored
  collection is left as it was.
* A Go function returning `error` returns `Option String` (`none` is `nil`)
  paired with the store it leaves behind.
* A Go `map[string]T` is a function `String → Option T`; a pointer into a slice
  is the index of the element.
-/

namespace HotCoffee

/-! ## Data model (package `models`) -/

/-- Modelled from the spec: the declaration of `models.OrderItem` is not among the
sources; one line of an order, a product ID and an ordered quantity (a Go `int`,
as `float64(orderItem.Quantity)` and the `map[string]int` sales count require). -/
structure OrderItem where
  ProductID : String
  Quantity : Int
deriving DecidableEq

/-- Modelled from the spec: the declaration of `models.Order` is not among the
sources; a customer order with the fields the service layer reads and writes
(section 3 of the specification). -/
structure Order where
  ID : String
  CustomerName : String
  Items : List OrderItem
  Status : String
  CreatedAt : String
deriving DecidableEq

/-- Modelled from the spec: the declaration of `models.MenuItemIngredient` is not
among the sources; one recipe entry, an ingredient ID and the quantity needed
per unit of the product. -/
structure MenuItemIngredient (Q : Type) where
  IngredientID : String
  Quantity : Q
deriving DecidableEq

/-- Modelled from the spec: the declaration of `models.MenuItem` is not among the
sources; a product of the menu with its price and recipe. -/
structure MenuItem (Q : Type) where
  ID : String
  Name : String
  Description : String
  Price : Q
  Ingredients : List (MenuItemIngredient Q)
deriving DecidableEq

/-- Modelled from the spec: the declaration of `models.InventoryItem` is not among
the sources; a stock record. -/
structure InventoryItem (Q : Type) where
  IngredientID : String
  Name : String
  Quantity : Q
  Unit : String
deriving DecidableEq

instance : Inhabited Order := ⟨⟨"", "", [], "", ""⟩⟩

instance {Q : Type} [Zero Q] : Inhabited (InventoryItem Q) := ⟨⟨"", "", 0, ""⟩⟩

instance {Q : Type} [Zero Q] : Inhabited (MenuItem Q) := ⟨⟨"", "", "", 0, []⟩⟩

/-- The persisted collections: orders file, inventory file, menu file. -/
structure Store (Q : Type) where
  orders : List Order
  inventory : List (InventoryItem Q)
  menu : List (MenuItem Q)
deriving DecidableEq

/-- What the outside world decides during one call: the clock and which
persistence operations fail (`some e` is the I/O error returned). A save
(`SaveItem`, `SaveItems`) marshals, opens the file with `O_TRUNC`, then writes:
when it fails, `saveInventoryTruncates` (`saveOrdersTruncates`) tells whether it
is `file.Write` that failed, after the file was truncated, or an earlier step
(`json.MarshalIndent`, `os.OpenFile`), with the file untouched. -/
structure Env where
  now : String
  almatyNow : String
  loadLocation : Option String
  readOrders : Option String
  readMenu : Option String
  readInventory : Option String
  saveInventory : Option String
  saveOrders : Option String
  saveInventoryTruncates : Bool
  saveOrdersTruncates : Bool
deriving DecidableEq

/-- An environment in which no persistence operation fails. -/
def Env.calm (now : String) : Env :=
  ⟨now, now, none, none, none, none, none, none, false, false⟩

/-- What a file holds after a save that failed (`order_repository.go`, lines
64-81, `inventory_repository.go`, lines 52-69). A save that fails before the
file is opened leaves the stored records as they were. A failed `file.Write`
leaves a strict prefix of the JSON text in the truncated file, which holds no
record: `ReadItems` returns no order for it, and `ReadItem` and
`ReadClosedOrders` fail on it, which is the read failure of a later call. -/
def afterFailedSave {α : Type} (truncated : Bool) (stored : List α) : List α :=
  if truncated then [] else stored

/-! ## CloseOrder (`order_service.go`, lines 220-327) -/

/-- The loop of lines 234-239: index of the first order whose ID is `orderID`. -/
def findOrderIndex (orderID : String) : List Order → Option Nat
  | [] => none
  | order :: rest =>
    if order.ID = orderID then some 0
    else (findOrderIndex orderID rest).map (· + 1)

/-- The order the search loop selects (`orderToUpdate`, and the result of
`FindOrderByID`): the first order whose ID is `orderID`. -/
def findOrder (orderID : String) (orders : List Order) : Option Order :=
  (findOrderIndex orderID orders).map (fun i => orders.getD i default)

/-- Lines 264-267: `menuItemMap[menuItem.ID] = menuItem` for each menu item in
turn, so a later item with the same ID replaces an earlier one. -/
def buildMenuItemMap {Q : Type} (menuItems : List (MenuItem Q)) :
    String → Option (MenuItem Q) :=
  menuItems.foldl (fun m menuItem k => if k = menuItem.ID then some menuItem else m k)
    (fun _ => none)

/-- The first `n` rounds of the loop of lines 277-280:
`inventoryMap[inventoryItems[i].IngredientID] = &inventoryItems[i]`. -/
def inventoryMapUpTo {Q : Type} [Zero Q] (inventoryItems : List (InventoryItem Q)) :
    Nat → String → Option Nat
  | 0 => fun _ => none
  | n + 1 => fun k =>
    if k = (inventoryItems.getD n default).IngredientID then some n
    else inventoryMapUpTo inventoryItems n k

/-- Lines 277-280: the map from ingredient ID to the slice element holding it. -/
def buildInventoryMap {Q : Type} [Zero Q] (inventoryItems : List (InventoryItem Q)) :
    String → Option Nat :=
  inventoryMapUpTo inventoryItems inventoryItems.length

/-- Lines 291-306: the inner loop over the ingredients of one ordered product,
checking and deducting in the in-memory inventory slice. -/
def deductIngredients {Q : Type} [LinearOrderedCommRing Q]
    (inventoryMap : String → Option Nat) (orderQuantity : Int) :
    List (MenuItemIngredient Q) → List (InventoryItem Q) →
      Except String (List (InventoryItem Q))
  | [], inventoryItems => .ok inventoryItems
  | ingredient :: rest, inventoryItems =>
    match inventoryMap ingredient.IngredientID with
    | none => .error ("ingredient not found in inventory: " ++ ingredient.IngredientID)
    | some i =>
      let inventoryItem := inventoryItems.getD i default
      let requiredQty := ingredient.Quantity * (orderQuantity : Q)
      if inventoryItem.Quantity < requiredQty then
        .error ("insufficient inventory for ingredient: " ++ ingredient.IngredientID)
      else
        deductIngredients inventoryMap orderQuantity rest
          (inventoryItems.set i
            { inventoryItem with Quantity := inventoryItem.Quantity - requiredQty })

/-- Lines 283-307: the outer loop over the lines of the order. -/
def processOrderItems {Q : Type} [LinearOrderedCommRing Q]
    (menuItemMap : String → Option (MenuItem Q)) (inventoryMap : String → Option Nat) :
    List OrderItem → List (InventoryItem Q) → Except String (List (InventoryItem Q))
  | [], inventoryItems => .ok inventoryItems
  | orderItem :: rest, inventoryItems =>
    match menuItemMap orderItem.ProductID with
    | none => .error ("product not found in menu: " ++ orderItem.ProductID)
    | some menuItem =>
      match deductIngredients inventoryMap orderItem.Quantity menuItem.Ingredients
          inventoryItems with
      | .error e => .error e
      | .ok inventoryItems' =>
        processOrderItems menuItemMap inventoryMap rest inventoryItems'

/-- The order record written by lines 316-317. -/
def closedAt (now : String) (order : Order) : Order :=
  { order with Status := "closed", CreatedAt := now }

/-- `orderService.CloseOrder`. -/
def CloseOrder {Q : Type} [LinearOrderedCommRing Q]
    (env : Env) (s : Store Q) (orderID : String) : Option String × Store Q :=
  match env.readOrders with
  | some e => (some e, s)
  | none =>
    match findOrderIndex orderID s.orders with
    | none => (some "order not found", s)
    | some i =>
      let orderToUpdate := s.orders.getD i default
      if orderToUpdate.Status = "closed" then (some "order is already closed", s)
      else
        match env.readMenu with
        | some e => (some e, s)
        | none =>
          match env.readInventory with
          | some e => (some e, s)
          | none =>
            match processOrderItems (buildMenuItemMap s.menu)
                (buildInventoryMap s.inventory) orderToUpdate.Items s.inventory with
            | .error e => (some e, s)
            | .ok inventoryItems =>
              match env.saveInventory with
              | some e =>
                (some e, { s with
                  inventory := afterFailedSave env.saveInventoryTruncates s.inventory })
              | none =>
                match env.saveOrders with
                | some e =>
                  (some e, { s with
                    inventory := inventoryItems
                    orders := afterFailedSave env.saveOrdersTruncates s.orders })
                | none =>
                  (none, { s with
                    inventory := inventoryItems
                    orders := s.orders.set i (closedAt env.now orderToUpdate) })

/-! ## ValidateUpdatedOrder and friends (`utils/util.go`) -/

/-- `contains` of `utils/util.go`. -/
def contains (validStatuses : List String) (status : String) : Bool :=
  match validStatuses with
  | [] => false
  | validStatus :: rest => if validStatus = status then true else contains rest status

/-- The item loop of `ValidateUpdatedOrder` (lines 30-37). -/
def validateOrderItems : List OrderItem → Option String
  | [] => none
  | item :: rest =>
    if item.ProductID = "" then some "item product ID cannot be empty"
    else if item.Quantity ≤ 0 then some "item quantity must be greater than zero"
    else validateOrderItems rest

/-- `utils.ValidateUpdatedOrder`. -/
def ValidateUpdatedOrder (order : Order) : Option String :=
  if order.ID = "" then some "order ID cannot be empty"
  else if order.CustomerName = "" then some "customer name cannot be empty"
  else if order.Items.length = 0 then some "order must have at least one item"
  else
    match validateOrderItems order.Items with
    | some e => some e
    | none =>
      if !contains ["open", "closed"] order.Status then
        some ("invalid order status: " ++ order.Status)
      else if order.CreatedAt = "" then some "order creation date cannot be empty"
      else none

/-- `utils.ValidateUpdatedInventoryItem`. -/
def ValidateUpdatedInventoryItem {Q : Type} [LinearOrderedCommRing Q]
    (item : InventoryItem Q) : Option String :=
  if item.IngredientID = "" then some "ingredient ID cannot be empty"
  else if item.Name = "" then some "ingredient name cannot be empty"
  else if item.Quantity < 0 then some "ingredient quantity cannot be negative"
  else if item.Unit = "" then some "ingredient unit cannot be empty"
  else none

/-! ## CreateOrder (`order_service.go`, lines 34-92) -/

/-- The space table of package `fmt` (`isSpace`). -/
def isSpace (c : Char) : Bool :=
  let n := c.toNat
  decide ((0x09 ≤ n ∧ n ≤ 0x0d) ∨ n = 0x20 ∨ n = 0x85 ∨ n = 0xa0 ∨ n = 0x1680 ∨
    (0x2000 ≤ n ∧ n ≤ 0x200a) ∨ n = 0x2028 ∨ n = 0x2029 ∨ n = 0x202f ∨ n = 0x205f ∨
    n = 0x3000)

/-- `SkipSpace` of a `Sscanf` scan state: a newline is an error, other spaces
are dropped. -/
def skipSpace : List Char → Except String (List Char)
  | [] => .ok []
  | c :: rest =>
    if c = '\n' then .error "unexpected newline"
    else if isSpace c then skipSpace rest
    else .ok (c :: rest)

/-- The characters `scanNumber` accepts for the verb `%d`. -/
def isScanDigit (c : Char) : Bool := c.isDigit || c = '_'

/-- Value of a string of decimal digits. -/
def decimalValue (digits : List Char) : Nat :=
  digits.foldl (fun acc c => acc * 10 + (c.toNat - '0'.toNat)) 0

/-- `strconv.ParseInt(tok, 10, 64)` on a token made of an optional sign followed
by digits and underscores. -/
def parseInt64 (negative : Bool) (signText : String) (body : List Char) : Except String Int :=
  let tok := signText ++ String.mk body
  if body.any (· = '_') then
    .error ("strconv.ParseInt: parsing \"" ++ tok ++ "\": invalid syntax")
  else
    let v : Int := decimalValue body
    let i : Int := if negative then -v else v
    if i < -(2 : Int) ^ 63 ∨ (2 : Int) ^ 63 ≤ i then
      .error ("strconv.ParseInt: parsing \"" ++ tok ++ "\": value out of range")
    else .ok i

/-- The verb `%d` of `fmt.Sscanf` applied to the rest of the input. -/
def scanInt (input : List Char) : Except String Int :=
  match skipSpace input with
  | .error e => .error e
  | .ok [] => .error "EOF"
  | .ok (c :: rest) =>
    let negative := decide (c = '-')
    let signed := decide (c = '+' ∨ c = '-')
    let signText := if signed then String.singleton c else ""
    let afterSign := if signed then rest else c :: rest
    match afterSign with
    | [] => .error "EOF"
    | d :: _ =>
      if !isScanDigit d then .error "expected integer"
      else parseInt64 negative signText (afterSign.takeWhile isScanDigit)

/-- Matching the literal part of a `Sscanf` format against the input. -/
def matchLiteral : List Char → List Char → Except String (List Char)
  | [], input => .ok input
  | _ :: _, [] => .error "unexpected EOF"
  | f :: fmt, c :: input =>
    if f = c then matchLiteral fmt input else .error "input does not match format"

/-- Line 52: `fmt.Sscanf(lastOrder.ID, "order%d", &lastOrderID)`. -/
def sscanfOrderID (id : String) : Except String Int :=
  match matchLiteral "order".data id.data with
  | .error e => .error e
  | .ok rest => scanInt rest

/-- Addition of Go `int` values on a 64-bit platform (two's complement). -/
def addInt64 (a b : Int) : Int :=
  (a + b + 2 ^ 63) % 2 ^ 64 - 2 ^ 63

/-- Line 59: `fmt.Sprintf("order%d", lastOrderID+1)`. -/
def nextOrderID (lastOrderID : Int) : String :=
  "order" ++ toString (addInt64 lastOrderID 1)

/-- `orderService.CreateOrder`. -/
def CreateOrder {Q : Type} (env : Env) (s : Store Q) (order : Order) :
    Option String × Store Q :=
  match env.readOrders with
  | some e => (some e, s)
  | none =>
    let assigned : Except String String :=
      match s.orders.getLast? with
      | some lastOrder =>
        match sscanfOrderID lastOrder.ID with
        | .error e => .error e
        | .ok lastOrderID => .ok (nextOrderID lastOrderID)
      | none => .ok "order1"
    match assigned with
    | .error e => (some e, s)
    | .ok newID =>
      let order1 := { order with ID := newID }
      let order2 := if order1.Status = "" then { order1 with Status := "open" } else order1
      let stamped : Except String Order :=
        if order2.CreatedAt = "" then
          match env.loadLocation with
          | some e => .error e
          | none => .ok { order2 with CreatedAt := env.almatyNow }
        else .ok order2
      match stamped with
      | .error e => (some e, s)
      | .ok order3 =>
        match env.saveOrders with
        | some e => (some e, { s with orders := afterFailedSave env.saveOrdersTruncates s.orders })
        | none => (none, { s with orders := s.orders ++ [order3] })

/-! ## UpdateOrderByID and DeleteOrderByID (`order_service.go`, lines 134-218) -/

/-- `orderService.UpdateOrderByID`. -/
def UpdateOrderByID {Q : Type} (env : Env) (s : Store Q) (id : String)
    (updatedOrder : Order) : Option String × Store Q :=
  match ValidateUpdatedOrder updatedOrder with
  | some e => (some e, s)
  | none =>
    match env.readOrders with
    | some e => (some e, s)
    | none =>
      match findOrderIndex id s.orders with
      | some i =>
        if (s.orders.getD i default).Status = "closed" then
          (some "order is already closed and cannot be modified", s)
        else
          match env.saveOrders with
          | some e =>
            (some e, { s with orders := afterFailedSave env.saveOrdersTruncates s.orders })
          | none => (none, { s with orders := s.orders.set i updatedOrder })
      | none => (some "order not found", s)

/-- `orderService.DeleteOrderByID`. -/
def DeleteOrderByID {Q : Type} (env : Env) (s : Store Q) (id : String) :
    Option String × Store Q :=
  match env.readOrders with
  | some e => (some e, s)
  | none =>
    if s.orders.any (fun order => order.ID = id ∧ order.Status = "closed") then
      (some "order is already closed and cannot be deleted", s)
    else
      let newOrders := s.orders.filter (fun order => order.ID ≠ id)
      if newOrders.length = s.orders.length then (some "order not found", s)
      else
        match env.saveOrders with
        | some e => (some e, { s with orders := afterFailedSave env.saveOrdersTruncates s.orders })
        | none => (none, { s with orders := newOrders })

/-! ## Inventory service (`inventory_service.go`) -/

/-- `strings.EqualFold` on ASCII letters: equality after lower-casing `A`-`Z`.
(The library folds every Unicode letter; the two agree whenever both strings
are ASCII.) -/
def EqualFold (a b : String) : Bool :=
  a.data.map Char.toLower = b.data.map Char.toLower

/-- `inventoryService.AddInventoryItem`. -/
def AddInventoryItem {Q : Type} [LinearOrderedCommRing Q] (env : Env) (s : Store Q)
    (item : InventoryItem Q) : Option String × Store Q :=
  match env.readInventory with
  | some e => (some e, s)
  | none =>
    if s.inventory.any (fun existingItem => existingItem.IngredientID = item.IngredientID) then
      (some "inventory item with this IngredientID already exists", s)
    else
      match ValidateUpdatedInventoryItem item with
      | some e => (some e, s)
      | none =>
        match env.saveInventory with
        | some e =>
          (some e, { s with
            inventory := afterFailedSave env.saveInventoryTruncates s.inventory })
        | none => (none, { s with inventory := s.inventory ++ [item] })

/-- The search loop of `UpdateInventoryItem` (lines 128-130): index of the first
item whose ingredient ID is `id`. -/
def findInventoryIndex {Q : Type} (id : String) : List (InventoryItem Q) → Option Nat
  | [] => none
  | item :: rest =>
    if item.IngredientID = id then some 0
    else (findInventoryIndex id rest).map (· + 1)

/-- `inventoryService.UpdateInventoryItem`. -/
def UpdateInventoryItem {Q : Type} [LinearOrderedCommRing Q] (env : Env) (s : Store Q)
    (id : String) (updatedItem : InventoryItem Q) : Option String × Store Q :=
  match ValidateUpdatedInventoryItem updatedItem with
  | some e => (some e, s)
  | none =>
    match env.readInventory with
    | some e => (some e, s)
    | none =>
      match findInventoryIndex id s.inventory with
      | some i =>
        match env.saveInventory with
        | some e =>
          (some e, { s with
            inventory := afterFailedSave env.saveInventoryTruncates s.inventory })
        | none => (none, { s with inventory := s.inventory.set i updatedItem })
      | none => (some "inventory item not found", s)

/-- `inventoryService.DeleteInventoryItem`. -/
def DeleteInventoryItem {Q : Type} (env : Env) (s : Store Q) (id : String) :
    Option String × Store Q :=
  match env.readInventory with
  | some e => (some e, s)
  | none =>
    if s.inventory.length = 0 then (some "inventory is empty", s)
    else
      let updatedItems := s.inventory.filter (fun item => !EqualFold item.IngredientID id)
      if updatedItems.length = s.inventory.length then (some "inventory item not found", s)
      else
        match env.saveInventory with
        | some e =>
          (some e, { s with
            inventory := afterFailedSave env.saveInventoryTruncates s.inventory })
        | none => (none, { s with inventory := updatedItems })

/-! ## The aggregated demand of the specification -/

/-- Demand of one order line for the ingredient `g`: per-unit quantity times
ordered quantity, summed over the recipe entries naming `g`; a line whose
product is not on the menu demands nothing. -/
def lineDemand {Q : Type} [LinearOrderedCommRing Q]
    (menuItemMap : String → Option (MenuItem Q)) (g : String) (orderItem : OrderItem) : Q :=
  match menuItemMap orderItem.ProductID with
  | none => 0
  | some menuItem =>
    ((menuItem.Ingredients.filter (fun ingredient => ingredient.IngredientID = g)).map
      (fun ingredient => ingredient.Quantity * (orderItem.Quantity : Q))).sum

/-- The demand map of the specification: for each ingredient ID the sum, across
all lines of the order, of per-unit quantity times ordered quantity. -/
def aggregatedDemand {Q : Type} [LinearOrderedCommRing Q]
    (menu : List (MenuItem Q)) (order : Order) (g : String) : Q :=
  (order.Items.map (lineDemand (buildMenuItemMap menu) g)).sum

/-- The ingredient `g` occurs in the recipe of some line of the order. -/
def Demands {Q : Type} (menu : List (MenuItem Q)) (order : Order) (g : String) : Prop :=
  ∃ orderItem ∈ order.Items, ∃ menuItem,
    buildMenuItemMap menu orderItem.ProductID = some menuItem ∧
      ∃ ingredient ∈ menuItem.Ingredients, ingredient.IngredientID = g

/-- Available quantity of the ingredient `g`: the quantity of the inventory
record the inventory map points to, if any. -/
def available {Q : Type} [Zero Q] (inventory : List (InventoryItem Q)) (g : String) :
    Option Q :=
  (buildInventoryMap inventory g).map (fun i => (inventory.getD i default).Quantity)

/-! ## Bookkeeping for the check-and-deduct loop -/

section Loop

variable {Q : Type} [LinearOrderedCommRing Q]

/-- Demand of one recipe, ordered `orderQuantity` times, on the inventory slot `j`:
the sum of the required quantities of the recipe entries the inventory map
sends to `j`. -/
def recipeDemandAt (inventoryMap : String → Option Nat) (orderQuantity : Int)
    (ingredients : List (MenuItemIngredient Q)) (j : Nat) : Q :=
  ((ingredients.filter (fun ingredient => inventoryMap ingredient.IngredientID = some j)).map
    (fun ingredient => ingredient.Quantity * (orderQuantity : Q))).sum

/-- Demand of a list of order lines on the inventory slot `j`. -/
def orderDemandAt (menuItemMap : String → Option (MenuItem Q))
    (inventoryMap : String → Option Nat) (items : List OrderItem) (j : Nat) : Q :=
  (items.map (fun orderItem =>
    match menuItemMap orderItem.ProductID with
    | none => 0
    | some menuItem => recipeDemandAt inventoryMap orderItem.Quantity menuItem.Ingredients j)).sum

/-- The inventory record after `Quantity -= d`. -/
def deduct (d : Q) (item : InventoryItem Q) : InventoryItem Q :=
  { item with Quantity := item.Quantity - d }

/-- Some recipe entry of `ings` points at the inventory slot `j`. -/
def TouchesAt (m : String → Option Nat) (ings : List (MenuItemIngredient Q)) (j : Nat) : Prop :=
  ∃ ing ∈ ings, m ing.IngredientID = some j

/-- Some resolved line of `items` has a recipe entry pointing at slot `j`. -/
def OrderTouchesAt (mm : String → Option (MenuItem Q)) (m : String → Option Nat)
    (items : List OrderItem) (j : Nat) : Prop :=
  ∃ orderItem ∈ items, ∃ menuItem, mm orderItem.ProductID = some menuItem ∧
    TouchesAt m menuItem.Ingredients j

end Loop

/-! ## Order IDs, the record CreateOrder stores, and sequences of calls -/

/-- The ID of the form `order<N>`: what `fmt.Sprintf("order%d", n)` prints. -/
def orderIDOf (n : Nat) : String := "order" ++ toString n

/-- Lines 46-63 of CreateOrder: the ID given to the new order, computed from the
last stored order. -/
def assignOrderID (orders : List Order) : Except String String :=
  match orders.getLast? with
  | some lastOrder =>
    match sscanfOrderID lastOrder.ID with
    | .error e => .error e
    | .ok lastOrderID => .ok (nextOrderID lastOrderID)
  | none => .ok "order1"

/-- Lines 59-79 of CreateOrder: the record that is appended, once the ID is
assigned and the defaults for status and creation time are filled in. -/
def storedOrder (env : Env) (newID : String) (order : Order) : Order :=
  { ID := newID
    CustomerName := order.CustomerName
    Items := order.Items
    Status := if order.Status = "" then "open" else order.Status
    CreatedAt := if order.CreatedAt = "" then env.almatyNow else order.CreatedAt }

/-- One call in a sequence of creations and deletions, with the environment it
runs in. -/
inductive OrderCall where
  | create (env : Env) (order : Order)
  | delete (env : Env) (id : String)

/-- The store a call leaves behind. -/
def runCall {Q : Type} (s : Store Q) : OrderCall → Store Q
  | .create env order => (CreateOrder env s order).2
  | .delete env id => (DeleteOrderByID env s id).2

/-- The store a sequence of calls leaves behind. -/
def runCalls {Q : Type} (s : Store Q) (calls : List OrderCall) : Store Q :=
  calls.foldl runCall s

/-- The stored IDs are `order<n>` for strictly increasing numbers between 1 and `k`. -/
def SuffixesUpTo (orders : List Order) (k : Nat) (ns : List Nat) : Prop :=
  ns.Pairwise (· < ·) ∧ (∀ n ∈ ns, 1 ≤ n ∧ n ≤ k) ∧
    orders.map (fun order => order.ID) = ns.map orderIDOf

/-- The loop of lines 283-307 stops at its first failed check with the error `e`:
the lines before some line `bad` pass all their checks, and either `bad` names a
product that is not on the menu and `e` is the product-not-found error naming it,
or the recipe entries before some entry of its recipe pass and that entry names
an ingredient absent from the inventory (`e` is the ingredient-not-found error
naming it) or an ingredient whose stock, as left by the deductions so far, is
below the required quantity (`e` is the insufficient-inventory error naming
it). -/
def FirstFailedCheck {Q : Type} [LinearOrderedCommRing Q]
    (menuItemMap : String → Option (MenuItem Q)) (inventoryMap : String → Option Nat)
    (items : List OrderItem) (inventoryItems : List (InventoryItem Q)) (e : String) : Prop :=
  ∃ pre bad post inv1, items = pre ++ bad :: post ∧
    processOrderItems menuItemMap inventoryMap pre inventoryItems = .ok inv1 ∧
    ((menuItemMap bad.ProductID = none ∧ e = "product not found in menu: " ++ bad.ProductID) ∨
      ∃ menuItem before ingredient after inv2,
        menuItemMap bad.ProductID = some menuItem ∧
        menuItem.Ingredients = before ++ ingredient :: after ∧
        deductIngredients inventoryMap bad.Quantity before inv1 = .ok inv2 ∧
        ((inventoryMap ingredient.IngredientID = none ∧
            e = "ingredient not found in inventory: " ++ ingredient.IngredientID) ∨
          ∃ i, inventoryMap ingredient.IngredientID = some i ∧
            (inv2.getD i default).Quantity < ingredient.Quantity * (bad.Quantity : Q) ∧
            e = "insufficient inventory for ingredient: " ++ ingredient.IngredientID))

/-! ## float64 arithmetic (`order_service.go`, lines 298-305) -/

/-- A float64 value: a finite value `(-1)^negative * significand * 2^exponent` in
the form IEEE 754 stores it (`significand < 2^53` and `-1074 <= exponent <= 971`,
with `2^52 <= significand` unless `exponent = -1074`; a zero has significand 0
and exponent -1074), an infinity, or NaN. -/
inductive F64 where
  | finite (negative : Bool) (significand : Nat) (exponent : Int)
  | inf (negative : Bool)
  | nan
deriving DecidableEq

instance : Zero F64 := ⟨.finite false 0 (-1074)⟩

/-- The number of binary digits of `n` (`fuel` bounds the recursion; `n` itself
is enough). -/
def bitLength : Nat → Nat → Nat
  | 0, _ => 0
  | fuel + 1, n => if n = 0 then 0 else bitLength fuel (n / 2) + 1

/-- The integer nearest to `a / d`, the even one of the two when `a / d` lies
half-way. -/
def roundHalfEven (a d : Nat) : Nat :=
  if 2 * (a % d) < d then a / d
  else if d < 2 * (a % d) then a / d + 1
  else if (a / d) % 2 = 0 then a / d else a / d + 1

/-- The float64 nearest to the real number `(-1)^negative * n * 2^e` (IEEE 754
round to nearest, ties to even): the result is a multiple of `2^q` with at most
53 significant bits, `q` being at least -1074, and a magnitude of `2^1024` or
more after rounding is an infinity. -/
def F64.round (negative : Bool) (n : Nat) (e : Int) : F64 :=
  if n = 0 then .finite negative 0 (-1074)
  else
    let q : Int := max ((bitLength n n : Int) + e - 53) (-1074)
    let m : Nat :=
      if q ≤ e then n * 2 ^ (e - q).toNat else roundHalfEven n (2 ^ (q - e).toNat)
    if m = 2 ^ 53 then
      if 971 ≤ q then .inf negative else .finite negative (2 ^ 52) (q + 1)
    else if 971 < q then .inf negative
    else .finite negative m q

/-- The integer `(-1)^negative * significand * 2^(exponent - e)`, for `e` at most
`exponent`. -/
def F64.scaled (negative : Bool) (significand : Nat) (exponent e : Int) : Int :=
  if negative then -((significand * 2 ^ (exponent - e).toNat : Nat) : Int)
  else ((significand * 2 ^ (exponent - e).toNat : Nat) : Int)

/-- The conversion `float64(i)` of an integer. -/
def F64.ofInt (i : Int) : F64 :=
  F64.round (decide (i < 0)) i.natAbs 0

/-- The float64 product `x * y`. -/
def F64.mul : F64 → F64 → F64
  | .finite s1 m1 e1, .finite s2 m2 e2 => F64.round (xor s1 s2) (m1 * m2) (e1 + e2)
  | .finite s1 m1 _, .inf s2 => if m1 = 0 then .nan else .inf (xor s1 s2)
  | .inf s1, .finite s2 m2 _ => if m2 = 0 then .nan else .inf (xor s1 s2)
  | .inf s1, .inf s2 => .inf (xor s1 s2)
  | _, _ => .nan

/-- The float64 difference `x - y`; an exact zero is `+0`, except for `-0 - +0`. -/
def F64.sub : F64 → F64 → F64
  | .finite s1 m1 e1, .finite s2 m2 e2 =>
    let d : Int := F64.scaled s1 m1 e1 (min e1 e2) - F64.scaled s2 m2 e2 (min e1 e2)
    if d = 0 then .finite (s1 && !s2) 0 (-1074)
    else F64.round (decide (d < 0)) d.natAbs (min e1 e2)
  | .finite _ _ _, .inf s2 => .inf (!s2)
  | .inf s1, .finite _ _ _ => .inf s1
  | .inf s1, .inf s2 => if s1 = s2 then .nan else .inf s1
  | _, _ => .nan

/-- The float64 comparison `x < y` (false as soon as one side is NaN). -/
def F64.lt : F64 → F64 → Bool
  | .finite s1 m1 e1, .finite s2 m2 e2 =>
    decide (F64.scaled s1 m1 e1 (min e1 e2) < F64.scaled s2 m2 e2 (min e1 e2))
  | .finite _ _ _, .inf s2 => !s2
  | .inf s1, .finite _ _ _ => s1
  | .inf s1, .inf s2 => s1 && !s2
  | _, _ => false

/-! ## CloseOrder in float64 arithmetic -/

/-- Lines 291-306 with the float64 operations the code executes: the product
`ingredient.Quantity * float64(orderItem.Quantity)`, the comparison `<` and the
deduction `-=`, each rounded on its own (a platform that fuses the product into
the deduction gives the same result whenever the product is exact). -/
def deductIngredientsF64 (inventoryMap : String → Option Nat) (orderQuantity : Int) :
    List (MenuItemIngredient F64) → List (InventoryItem F64) →
      Except String (List (InventoryItem F64))
  | [], inventoryItems => .ok inventoryItems
  | ingredient :: rest, inventoryItems =>
    match inventoryMap ingredient.IngredientID with
    | none => .error ("ingredient not found in inventory: " ++ ingredient.IngredientID)
    | some i =>
      let inventoryItem := inventoryItems.getD i default
      let requiredQty := F64.mul ingredient.Quantity (F64.ofInt orderQuantity)
      if F64.lt inventoryItem.Quantity requiredQty then
        .error ("insufficient inventory for ingredient: " ++ ingredient.IngredientID)
      else
        deductIngredientsF64 inventoryMap orderQuantity rest
          (inventoryItems.set i
            { inventoryItem with Quantity := F64.sub inventoryItem.Quantity requiredQty })

/-- Lines 283-307 with float64 quantities. -/
def processOrderItemsF64 (menuItemMap : String → Option (MenuItem F64))
    (inventoryMap : String → Option Nat) :
    List OrderItem → List (InventoryItem F64) → Except String (List (InventoryItem F64))
  | [], inventoryItems => .ok inventoryItems
  | orderItem :: rest, inventoryItems =>
    match menuItemMap orderItem.ProductID with
    | none => .error ("product not found in menu: " ++ orderItem.ProductID)
    | some menuItem =>
      match deductIngredientsF64 inventoryMap orderItem.Quantity menuItem.Ingredients
          inventoryItems with
      | .error e => .error e
      | .ok inventoryItems' =>
        processOrderItemsF64 menuItemMap inventoryMap rest inventoryItems'

/-- The text of `strconv.FormatFloat` for a value that JSON cannot carry. -/
def F64.unsupported : F64 → Option String
  | .finite _ _ _ => none
  | .inf false => some "+Inf"
  | .inf true => some "-Inf"
  | .nan => some "NaN"

/-- The failure of `json.MarshalIndent` in `SaveItem` (`inventory_repository.go`,
lines 52-56): the first quantity that is an infinity or NaN is unsupported, and
the error is wrapped by `models.NewErrorResponse`. -/
def marshalInventoryError (inventoryItems : List (InventoryItem F64)) : Option String :=
  (inventoryItems.findSome? (fun item => item.Quantity.unsupported)).map (fun value =>
    "\x7b\"status_code\": 500, \"message\": \"Failed to marshal inventory items\", " ++
      "\"error\": json: unsupported value: " ++ value ++ "\x7d")

/-- `orderService.CloseOrder` with float64 quantities, as the code computes. -/
def CloseOrderF64 (env : Env) (s : Store F64) (orderID : String) :
    Option String × Store F64 :=
  match env.readOrders with
  | some e => (some e, s)
  | none =>
    match findOrderIndex orderID s.orders with
    | none => (some "order not found", s)
    | some i =>
      let orderToUpdate := s.orders.getD i default
      if orderToUpdate.Status = "closed" then (some "order is already closed", s)
      else
        match env.readMenu with
        | some e => (some e, s)
        | none =>
          match env.readInventory with
          | some e => (some e, s)
          | none =>
            match processOrderItemsF64 (buildMenuItemMap s.menu)
                (buildInventoryMap s.inventory) orderToUpdate.Items s.inventory with
            | .error e => (some e, s)
            | .ok inventoryItems =>
              match marshalInventoryError inventoryItems with
              | some e => (some e, s)
              | none =>
                match env.saveInventory with
                | some e =>
                  (some e, { s with
                    inventory := afterFailedSave env.saveInventoryTruncates s.inventory })
                | none =>
                  match env.saveOrders with
                  | some e =>
                    (some e, { s with
                      inventory := inventoryItems
                      orders := afterFailedSave env.saveOrdersTruncates s.orders })
                  | none =>
                    (none, { s with
                      inventory := inventoryItems
                      orders := s.orders.set i (closedAt env.now orderToUpdate) })

/-- The exact value of a finite float64 as a multiple of `2^e`, for `e` at most
its exponent (0 for an infinity or NaN). -/
def F64.exact (e : Int) : F64 → Int
  | .finite negative significand exponent => F64.scaled negative significand exponent e
  | _ => 0

/-- The store with every float64 quantity replaced by its exact value as a
multiple of `2^e`, for `e` at most every exponent in the store. -/
def exactStore (e : Int) (s : Store F64) : Store Int :=
  { orders := s.orders
    inventory := s.inventory.map (fun item =>
      { IngredientID := item.IngredientID, Name := item.Name,
        Quantity := item.Quantity.exact e, Unit := item.Unit })
    menu := s.menu.map (fun menuItem =>
      { ID := menuItem.ID, Name := menuItem.Name, Description := menuItem.Description,
        Price := menuItem.Price.exact e
        Ingredients := menuItem.Ingredients.map (fun ingredient =>
          { IngredientID := ingredient.IngredientID, Quantity := ingredient.Quantity.exact e }) }) }

/-! ## Example data (the scenarios of section 8 of the specification) -/

/-- The latte of the example scenario: one espresso shot and 200 of milk. -/
def exLatte : MenuItem Int :=
  ⟨"latte", "Latte", "espresso with steamed milk", 5,
    [⟨"espresso_shot", 1⟩, ⟨"milk", 200⟩]⟩

/-- An open order of two lattes. -/
def exOrder : Order := ⟨"order1", "Aigerim", [⟨"latte", 2⟩], "open", "2024-01-01T10:00:00Z"⟩

/-- The same order once closed at `"2024-01-01T11:00:00Z"`. -/
def exOrderClosed : Order :=
  ⟨"order1", "Aigerim", [⟨"latte", 2⟩], "closed", "2024-01-01T11:00:00Z"⟩

/-- An open order whose second line names a product that is not on the menu. -/
def exOrderGhost : Order :=
  ⟨"order1", "Aigerim", [⟨"latte", 2⟩, ⟨"ghost", 1⟩], "open", "2024-01-01T10:00:00Z"⟩

/-- Stock too short for two lattes: 2 shots, 150 of milk. -/
def exInventoryShort : List (InventoryItem Int) :=
  [⟨"espresso_shot", "Espresso shot", 2, "shots"⟩, ⟨"milk", "Milk", 150, "ml"⟩]

/-- Ten espresso shots in stock. -/
def exEspresso : InventoryItem Int := ⟨"espresso_shot", "Espresso shot", 10, "shots"⟩

/-- Stock sufficient for two lattes: 10 shots, 1000 of milk. -/
def exInventoryFull : List (InventoryItem Int) :=
  [exEspresso, ⟨"milk", "Milk", 1000, "ml"⟩]

/-- The stock left after two lattes were deducted from `exInventoryFull`. -/
def exInventoryAfter : List (InventoryItem Int) :=
  [⟨"espresso_shot", "Espresso shot", 8, "shots"⟩, ⟨"milk", "Milk", 600, "ml"⟩]

/-- First scenario: the order cannot be served. -/
def exStoreShort : Store Int := ⟨[exOrder], exInventoryShort, [exLatte]⟩

/-- Second scenario: the order can be served. -/
def exStoreFull : Store Int := ⟨[exOrder], exInventoryFull, [exLatte]⟩

/-- The second scenario after the close. -/
def exStoreClosed : Store Int := ⟨[exOrderClosed], exInventoryAfter, [exLatte]⟩

/-- The first scenario with the order that names an unknown product. -/
def exStoreGhost : Store Int := ⟨[exOrderGhost], exInventoryShort, [exLatte]⟩

/-- The second scenario with the order that names an unknown product. -/
def exStoreGhostFull : Store Int := ⟨[exOrderGhost], exInventoryFull, [exLatte]⟩

/-- A quiet environment whose clock shows `"2024-01-01T11:00:00Z"`. -/
def exEnv : Env := Env.calm "2024-01-01T11:00:00Z"

/-- The same environment, except that saving the order collection fails when the
file is written, after it was truncated. -/
def exEnvOrdersSaveFails : Env :=
  { exEnv with
    saveOrders := some "write orders.json: no space left on device"
    saveOrdersTruncates := true }

/-- The same environment, except that saving the order collection fails when the
file is opened. -/
def exEnvOrdersOpenFails : Env :=
  { exEnv with saveOrders := some "open orders.json: permission denied" }

/-- The same environment, except that saving the inventory fails when the file is
written, after it was truncated. -/
def exEnvInventorySaveFails : Env :=
  { exEnv with
    saveInventory := some "write inventory.json: no space left on device"
    saveInventoryTruncates := true }

/-- A new stock record. -/
def exSugar : InventoryItem Int := ⟨"sugar", "Sugar", 40, "g"⟩

/-- A new order as it arrives in a request, without ID, status or timestamp. -/
def exInput : Order := ⟨"", "Dana", [⟨"latte", 1⟩], "", ""⟩

/-- The order `exInput` as CreateOrder stores it after `exOrder`. -/
def exOrderSecond : Order :=
  ⟨"order2", "Dana", [⟨"latte", 1⟩], "open", "2024-01-01T11:00:00Z"⟩

/-- A store with nothing in it. -/
def exStoreEmpty : Store Int := ⟨[], [], []⟩

/-- The order `exInput` as CreateOrder stores it in an empty collection. -/
def exOrderFirst : Order :=
  ⟨"order1", "Dana", [⟨"latte", 1⟩], "open", "2024-01-01T11:00:00Z"⟩

/-- The order `exInput` as CreateOrder stores it after an order numbered 2. -/
def exOrderThird : Order :=
  ⟨"order3", "Dana", [⟨"latte", 1⟩], "open", "2024-01-01T11:00:00Z"⟩

/-- An open order numbered 5. -/
def exOrderFive : Order :=
  ⟨"order5", "Aigerim", [⟨"latte", 2⟩], "open", "2024-01-01T09:00:00Z"⟩

/-- A collection whose last order does not carry the largest number. -/
def exStoreUnsorted : Store Int := ⟨[exOrderFive, exOrderSecond], exInventoryFull, [exLatte]⟩

/-- A collection of two open orders, numbered 1 and 2. -/
def exStoreTwo : Store Int := ⟨[exOrder, exOrderSecond], exInventoryFull, [exLatte]⟩

/-- One espresso shot in stock, and no milk at all. -/
def exStoreNoMilkShort : Store Int :=
  ⟨[exOrder], [⟨"espresso_shot", "Espresso shot", 1, "shots"⟩], [exLatte]⟩

/-- Ten espresso shots in stock, and no milk at all. -/
def exStoreNoMilk : Store Int := ⟨[exOrder], [exEspresso], [exLatte]⟩

/-- A request body without customer name and without items. -/
def exInputBlank : Order := ⟨"", "", [], "", ""⟩

/-- A request body whose only item has no product and a quantity of zero. -/
def exInputBadItem : Order := ⟨"", "Dana", [⟨"", 0⟩], "", ""⟩

/-- An update payload that is valid except for its empty customer name. -/
def exPayloadNoName : Order :=
  ⟨"order1", "", [⟨"latte", 1⟩], "open", "2024-01-01T10:00:00Z"⟩

/-- A valid update payload for the order numbered 1. -/
def exPayload : Order :=
  ⟨"order1", "Dana", [⟨"latte", 3⟩], "open", "2024-01-01T10:00:00Z"⟩

/-- Two creations, the deletion of the second order, and a third creation. -/
def exCalls : List OrderCall :=
  [.create exEnv exInput, .create exEnv exInput, .delete exEnv "order2", .create exEnv exInput]

/-! ## GetInventoryItemByID (`inventory_service.go`, lines 86-108) -/

/-- `inventoryService.GetInventoryItemByID`: the item found and the error. -/
def GetInventoryItemByID {Q : Type} [Zero Q] (env : Env) (s : Store Q) (id : String) :
    InventoryItem Q × Option String :=
  match env.readInventory with
  | some e => (default, some e)
  | none =>
    match s.inventory.find? (fun item => item.IngredientID = id) with
    | some item => (item, none)
    | none => (default, some "inventory item not found")

/-! ## Reports (`aggregation_service.go`) -/

/-- `OrderService.ReadClosedOrders` (`order_repository.go`, lines 87-114): the
stored orders whose status is closed, in collection order. -/
def ReadClosedOrders {Q : Type} (env : Env) (s : Store Q) : Except String (List Order) :=
  match env.readOrders with
  | some e => .error e
  | none => .ok (s.orders.filter (fun order => order.Status = "closed"))

/-- Lines 57-66 of `TotalSalesAmount`: the loop over the lines of one order. -/
def addLineSales {Q : Type} [LinearOrderedCommRing Q]
    (menuItemMap : String → Option (MenuItem Q)) (totalSalesAmount : Q) : List OrderItem → Q
  | [] => totalSalesAmount
  | orderItem :: rest =>
    match menuItemMap orderItem.ProductID with
    | none => addLineSales menuItemMap totalSalesAmount rest
    | some menuItem =>
      addLineSales menuItemMap
        (totalSalesAmount + (orderItem.Quantity : Q) * menuItem.Price) rest

/-- Lines 56-67 of `TotalSalesAmount`: the loop over the closed orders. -/
def addOrderSales {Q : Type} [LinearOrderedCommRing Q]
    (menuItemMap : String → Option (MenuItem Q)) (totalSalesAmount : Q) : List Order → Q
  | [] => totalSalesAmount
  | order :: rest =>
    addOrderSales menuItemMap (addLineSales menuItemMap totalSalesAmount order.Items) rest

/-- `reportService.TotalSalesAmount`: the amount and the error. -/
def TotalSalesAmount {Q : Type} [LinearOrderedCommRing Q] (env : Env) (s : Store Q) :
    Q × Option String :=
  match ReadClosedOrders env s with
  | .error e => (0, some e)
  | .ok orders =>
    match env.readMenu with
    | some e => (0, some e)
    | none => (addOrderSales (buildMenuItemMap s.menu) 0 orders, none)

/-- Lines 89-91 of `GetMostPopularItem`: `productFrequency[orderItem.ProductID]++`
for the lines of one order. -/
def countLines (productFrequency : String → Option Nat) :
    List OrderItem → String → Option Nat
  | [] => productFrequency
  | orderItem :: rest =>
    countLines (fun k =>
      if k = orderItem.ProductID then some ((productFrequency k).getD 0 + 1)
      else productFrequency k) rest

/-- Lines 88-92 of `GetMostPopularItem`: the frequency map of the closed orders. -/
def countOrders (productFrequency : String → Option Nat) :
    List Order → String → Option Nat
  | [] => productFrequency
  | order :: rest => countOrders (countLines productFrequency order.Items) rest

/-- Lines 95-102 of `GetMostPopularItem`: the `range` loop over the frequency
map, run over the keys in the order `iteration` in which the runtime happens to
enumerate them (the language leaves that order open). A key that is not in the
map has frequency 0 here and never changes the state. -/
def findHighest (productFrequency : String → Option Nat) :
    List String → String × Nat → String × Nat
  | [], best => best
  | productID :: rest, (mostPopularProductID, highestFrequency) =>
    let frequency := (productFrequency productID).getD 0
    if frequency > highestFrequency then
      findHighest productFrequency rest (productID, frequency)
    else findHighest productFrequency rest (mostPopularProductID, highestFrequency)

/-- `reportService.GetMostPopularItem`: the item and the error, for the
enumeration order `iteration` of the frequency map. -/
def GetMostPopularItem {Q : Type} [Zero Q] (env : Env) (s : Store Q)
    (iteration : List String) : MenuItem Q × Option String :=
  match ReadClosedOrders env s with
  | .error e => (default, some e)
  | .ok orders =>
    let productFrequency := countOrders (fun _ => none) orders
    let mostPopularProductID := (findHighest productFrequency iteration ("", 0)).1
    if mostPopularProductID ≠ "" then
      match env.readMenu with
      | some e => (default, some e)
      | none =>
        match s.menu.find? (fun menuItem => menuItem.ID = mostPopularProductID) with
        | some menuItem => (menuItem, none)
        | none => (default, none)
    else (default, none)

/-- A Go `int` result on a 64-bit platform: the value reduced to two's
complement. -/
def wrapInt64 (x : Int) : Int :=
  (x + 2 ^ 63) % 2 ^ 64 - 2 ^ 63

/-- `rand.Intn(n)` when the generator draws the raw number `r`: a panic (`none`)
for `n <= 0`, otherwise a value in `[0, n)`; every such value occurs for some
draw. -/
def Intn (r : Nat) (n : Int) : Option Int :=
  if n ≤ 0 then none else some ((r : Int) % n)

/-- `utils.RandomInt` (`util.go`, lines 98-105): `rand.Intn(max-min+1) + min`. -/
def RandomInt (r : Nat) (min max : Int) : Option Int :=
  match Intn r (wrapInt64 (wrapInt64 (max - min) + 1)) with
  | none => none
  | some v => some (wrapInt64 (v + min))

/-- `reportService.GetDailyItem` for the raw draw `r`: the item and the error.
A panic (of `rand.Intn` or of the slice index) is caught by the deferred
`CatchCriticalPoint`, and the function then returns its zero values. -/
def GetDailyItem {Q : Type} [Zero Q] (env : Env) (s : Store Q) (r : Nat) :
    MenuItem Q × Option String :=
  match env.readMenu with
  | some e => (default, some e)
  | none =>
    if s.menu.length = 0 then (default, some "no menu items available")
    else
      match RandomInt r 0 ((s.menu.length : Int) - 1) with
      | none => (default, none)
      | some i =>
        if 0 ≤ i ∧ i < (s.menu.length : Int) then (s.menu.getD i.toNat default, none)
        else (default, none)

/-! ## Handlers (`order_handler.go`, `aggregation_handler.go`) -/

/-- The JSON value a handler encodes into the response. -/
inductive ResponseBody (Q : Type) where
  | order (order : Order)
  | menuItem (menuItem : MenuItem Q)
  | totalSales (totalSales : Q)
  | error (message : String)
deriving DecidableEq

/-- What a handler writes: the status code and the body. -/
structure HTTPResponse (Q : Type) where
  status : Nat
  body : ResponseBody Q
deriving DecidableEq

/-- `writeJSONError` (`menu_handler.go`, lines 172-177). -/
def writeJSONError {Q : Type} (statusCode : Nat) (message : String) : HTTPResponse Q :=
  ⟨statusCode, .error message⟩

/-- `handlePostOrder` (`order_handler.go`, lines 77-101); `decoded` is the result
of decoding the request body into `newOrder` (`none` when decoding fails). The
service receives a copy of `newOrder`, and `newOrder` is what the handler
encodes. -/
def handlePostOrder {Q : Type} (env : Env) (s : Store Q) (decoded : Option Order) :
    HTTPResponse Q × Store Q :=
  match decoded with
  | none => (writeJSONError 400 "Failed to decode request body", s)
  | some newOrder =>
    match CreateOrder env s newOrder with
    | (some _, s') => (writeJSONError 500 "Failed to create order", s')
    | (none, s') => (⟨201, .order newOrder⟩, s')

/-- `handleTotalSales` (`aggregation_handler.go`, lines 47-61). -/
def handleTotalSales {Q : Type} [LinearOrderedCommRing Q] (env : Env) (s : Store Q) :
    HTTPResponse Q :=
  match TotalSalesAmount env s with
  | (_, some _) => writeJSONError 500 "Failed to fetch total sales"
  | (totalSales, none) => ⟨200, .totalSales totalSales⟩

/-- `handlePopularItems` (`aggregation_handler.go`, lines 63-77). -/
def handlePopularItems {Q : Type} [Zero Q] (env : Env) (s : Store Q)
    (iteration : List String) : HTTPResponse Q :=
  match GetMostPopularItem env s iteration with
  | (_, some _) => writeJSONError 500 "Failed to fetch popular items"
  | (popularItems, none) => ⟨200, .menuItem popularItems⟩

/-- `handleDailyItem` (`aggregation_handler.go`, lines 79-93). -/
def handleDailyItem {Q : Type} [Zero Q] (env : Env) (s : Store Q) (r : Nat) : HTTPResponse Q :=
  match GetDailyItem env s r with
  | (_, some _) => writeJSONError 500 "Failed to fetch daily item"
  | (dailyItem, none) => ⟨200, .menuItem dailyItem⟩

/-- `handleGetReports` (`aggregation_handler.go`, lines 24-45): the `switch` on
the request path. -/
def handleGetReports {Q : Type} [LinearOrderedCommRing Q] (env : Env) (s : Store Q)
    (iteration : List String) (r : Nat) (path : String) : HTTPResponse Q :=
  if path = "/reports/total-sales" then handleTotalSales env s
  else if path = "reports/popular-items" then handlePopularItems env s iteration
  else if path = "/reports/daily-item" then handleDailyItem env s r
  else writeJSONError 404 "Report not found"

/-! ## The reports of the specification -/

/-- The lines of the closed orders, in collection order. -/
def closedLines (orders : List Order) : List OrderItem :=
  (orders.filter (fun order => order.Status = "closed")).flatMap (fun order => order.Items)

/-- Number of closed-order lines naming the product; a line counts once whatever
its quantity. -/
def occurrences (orders : List Order) (productID : String) : Nat :=
  (closedLines orders).countP (fun line => line.ProductID = productID)

/-- Total sales of the specification: the sum, over all lines of all closed
orders, of line quantity times the price of the menu item carrying the product
ID; a line whose product is not on the menu is skipped. -/
def totalSalesSpec {Q : Type} [LinearOrderedCommRing Q] (menu : List (MenuItem Q))
    (orders : List Order) : Q :=
  ((closedLines orders).map (fun line =>
    match menu.find? (fun menuItem => menuItem.ID = line.ProductID) with
    | some menuItem => (line.Quantity : Q) * menuItem.Price
    | none => 0)).sum

/-- The list `iteration` enumerates the keys of the frequency map of the closed
orders: each product ID that occurs in a closed-order line, once. -/
def EnumeratesProducts (orders : List Order) (iteration : List String) : Prop :=
  iteration.Nodup ∧ (∀ k ∈ iteration, 0 < occurrences orders k) ∧
    ∀ line ∈ closedLines orders, line.ProductID ∈ iteration

/-- The scan behind the tie-break of the specification: going through the lines
in order, with `seen` the lines already passed, the first product ID whose
running count reaches `top`. -/
def firstToReach (top : Nat) : List OrderItem → List OrderItem → Option String
  | _, [] => none
  | seen, line :: rest =>
    if seen.countP (fun l => l.ProductID = line.ProductID) + 1 = top then some line.ProductID
    else firstToReach top (line :: seen) rest

/-- The tie-break of the specification: the first product ID to reach the
maximum count when the lines of the closed orders are scanned in collection
order. -/
def firstToReachMaximum (orders : List Order) : Option String :=
  firstToReach
    (((closedLines orders).map (fun line => occurrences orders line.ProductID)).max?.getD 0)
    [] (closedLines orders)

/-! ## Example data for the reports and the inventory lookup -/

/-- A second product on the menu. -/
def exTea : MenuItem Int := ⟨"tea", "Tea", "black tea", 3, []⟩

/-- A closed order of three teas and one latte. -/
def exOrderTeaLatte : Order :=
  ⟨"order2", "Dana", [⟨"tea", 3⟩, ⟨"latte", 1⟩], "closed", "2024-01-01T12:00:00Z"⟩

/-- A closed order of four teas. -/
def exOrderTea : Order := ⟨"order2", "Dana", [⟨"tea", 4⟩], "closed", "2024-01-01T12:00:00Z"⟩

/-- Two closed orders and an open one; latte is on two closed lines, tea on one. -/
def exStoreReports : Store Int :=
  ⟨[exOrderClosed, exOrderTeaLatte, exOrderThird], exInventoryFull, [exLatte, exTea]⟩

/-- Two closed orders; latte and tea are on one closed line each. -/
def exStoreTie : Store Int := ⟨[exOrderClosed, exOrderTea], exInventoryFull, [exLatte, exTea]⟩

/-- A menu of latte and tea, and no order. -/
def exStoreMenu : Store Int := ⟨[], exInventoryFull, [exLatte, exTea]⟩

/-! ## Example data in float64 -/

/-- The float64 1.0. -/
def exOne : F64 := .finite false (2 ^ 52) (-52)

/-- The float64 2^-54 (5.551115123125783e-17), a quarter of the distance between
1.0 and the float64 below it. -/
def exDroplet : F64 := .finite false (2 ^ 52) (-106)

/-- A product that takes 2^-54 of milk. -/
def exDrop : MenuItem F64 := ⟨"drop", "Drop", "a drop of milk", exOne, [⟨"milk", exDroplet⟩]⟩

/-- A product that takes 1.0 of milk. -/
def exCup : MenuItem F64 := ⟨"cup", "Cup", "a cup of milk", exOne, [⟨"milk", exOne⟩]⟩

/-- An open order of three drops, one per line, and a cup. -/
def exOrderDrops : Order :=
  ⟨"order1", "Aigerim", [⟨"drop", 1⟩, ⟨"drop", 1⟩, ⟨"drop", 1⟩, ⟨"cup", 1⟩], "open",
    "2024-01-01T10:00:00Z"⟩

/-- Stock of 1.0 of milk. -/
def exStoreDrops : Store F64 := ⟨[exOrderDrops], [⟨"milk", "Milk", exOne, "l"⟩], [exDrop, exCup]⟩

/-! # Theorems -/

/-! ## Searching the order collection -/

theorem findOrderIndex_some (orderID : String) (orders : List Order) :
    ∀ i, findOrderIndex orderID orders = some i →
      ∃ hi : i < orders.length, orders[i].ID = orderID ∧
        ∀ j (hj : j < orders.length), j < i → orders[j].ID ≠ orderID := by
  induction orders with
  | nil => intro i h; simp [findOrderIndex] at h
  | cons order rest ih =>
    intro i h
    simp only [findOrderIndex] at h
    split at h
    · rename_i hid
      cases h
      exact ⟨by simp, hid, fun j _ hj0 => absurd hj0 (Nat.not_lt_zero _)⟩
    · rename_i hid
      cases hrest : findOrderIndex orderID rest with
      | none => simp [hrest] at h
      | some k =>
        simp only [hrest, Option.map_some', Option.some.injEq] at h
        subst h
        obtain ⟨hk, hkid, hfirst⟩ := ih k hrest
        refine ⟨by simpa using hk, by simpa using hkid, ?_⟩
        intro j hj hjk
        cases j with
        | zero => simpa using hid
        | succ j =>
          have hj' : j < rest.length := by simpa using hj
          simpa using hfirst j hj' (by omega)

theorem findOrderIndex_none (orderID : String) (orders : List Order) :
    findOrderIndex orderID orders = none ↔ ∀ order ∈ orders, order.ID ≠ orderID := by
  induction orders with
  | nil => simp [findOrderIndex]
  | cons order rest ih =>
    simp only [findOrderIndex]
    split
    · rename_i hid
      simp [hid]
    · rename_i hid
      simp [ih, hid]

theorem findOrder_eq_find? (orderID : String) (orders : List Order) :
    findOrder orderID orders = orders.find? (fun order => order.ID = orderID) := by
  induction orders with
  | nil => simp [findOrder, findOrderIndex]
  | cons order rest ih =>
    unfold findOrder at ih ⊢
    simp only [findOrderIndex]
    by_cases hid : order.ID = orderID
    · simp [hid]
    · simp only [hid, if_false, List.find?_cons, decide_False, ← ih]
      cases findOrderIndex orderID rest <;> simp

theorem findOrderIndex_set (orderID : String) (orders : List Order) (i : Nat) (order : Order)
    (h : findOrderIndex orderID orders = some i) (hid : order.ID = orderID) :
    findOrderIndex orderID (orders.set i order) = some i := by
  induction orders generalizing i with
  | nil => simp [findOrderIndex] at h
  | cons head rest ih =>
    simp only [findOrderIndex] at h
    split at h
    · cases h
      simp [findOrderIndex, hid]
    · rename_i hne
      cases hrest : findOrderIndex orderID rest with
      | none => simp [hrest] at h
      | some k =>
        simp only [hrest, Option.map_some', Option.some.injEq] at h
        subst h
        simp [findOrderIndex, hne, ih k hrest]

theorem findOrder_eq_some (orderID : String) (orders : List Order) (order : Order) :
    findOrder orderID orders = some order ↔
      ∃ i, findOrderIndex orderID orders = some i ∧ orders.getD i default = order := by
  unfold findOrder
  cases findOrderIndex orderID orders <;> simp

theorem eq_of_nodup_ids (orders : List Order) (hnd : (orders.map (fun order => order.ID)).Nodup)
    (a b : Order) (ha : a ∈ orders) (hb : b ∈ orders) (hid : a.ID = b.ID) : a = b :=
  List.inj_on_of_nodup_map hnd ha hb hid

theorem findOrder_append_of_some (orderID : String) (orders extra : List Order) (order : Order)
    (h : findOrder orderID orders = some order) :
    findOrder orderID (orders ++ extra) = some order := by
  rw [findOrder_eq_find?] at h ⊢
  rw [List.find?_append, h]
  rfl

theorem findOrder_filter_ne (id k : String) (orders : List Order) (hk : k ≠ id) :
    findOrder k (orders.filter (fun order => order.ID ≠ id)) = findOrder k orders := by
  rw [findOrder_eq_find?, findOrder_eq_find?, List.find?_filter]
  congr 1
  funext order
  by_cases hc : order.ID = k
  · simp [hc, hk]
  · simp [hc]

theorem findOrder_filter_self (id : String) (orders : List Order) :
    findOrder id (orders.filter (fun order => order.ID ≠ id)) = none := by
  rw [findOrder_eq_find?, List.find?_eq_none]
  intro order hmem
  have := (List.mem_filter.mp hmem).2
  simpa using this

theorem ValidateUpdatedOrder_status (p : Order) (h : ValidateUpdatedOrder p = none) :
    p.Status = "open" ∨ p.Status = "closed" := by
  unfold ValidateUpdatedOrder at h
  split at h
  · simp at h
  · split at h
    · simp at h
    · split at h
      · simp at h
      · split at h
        · simp at h
        · split at h
          · simp at h
          · rename_i hc
            simp only [contains, Bool.not_eq_true, Bool.not_eq_false'] at hc
            by_cases h1 : "open" = p.Status
            · exact Or.inl h1.symm
            · by_cases h2 : "closed" = p.Status
              · exact Or.inr h2.symm
              · simp [h1, h2] at hc

/-! ## The menu map -/

section MenuMap

variable {Q : Type}

theorem buildMenuItemMap_foldl_some (menu : List (MenuItem Q)) :
    ∀ (m0 : String → Option (MenuItem Q)) (k : String) (mi : MenuItem Q),
      menu.foldl (fun m menuItem k => if k = menuItem.ID then some menuItem else m k) m0 k =
        some mi → (mi ∈ menu ∧ mi.ID = k) ∨ m0 k = some mi := by
  induction menu with
  | nil => intro m0 k mi h; exact Or.inr h
  | cons head rest ih =>
    intro m0 k mi h
    rw [List.foldl_cons] at h
    rcases ih _ k mi h with ⟨hmem, hid⟩ | h0
    · exact Or.inl ⟨List.mem_cons_of_mem _ hmem, hid⟩
    · by_cases hk : k = head.ID
      · simp only [hk, if_true, Option.some.injEq] at h0
        subst h0
        exact Or.inl ⟨List.mem_cons_self _ _, hk.symm⟩
      · simp only [hk, if_false] at h0
        exact Or.inr h0

theorem buildMenuItemMap_foldl_isSome (menu : List (MenuItem Q)) :
    ∀ (m0 : String → Option (MenuItem Q)) (k : String),
      ((∃ mi ∈ menu, mi.ID = k) ∨ ∃ mi, m0 k = some mi) →
      ∃ mi, menu.foldl (fun m menuItem k => if k = menuItem.ID then some menuItem else m k)
        m0 k = some mi := by
  induction menu with
  | nil =>
    intro m0 k h
    rcases h with ⟨mi, hmem, _⟩ | h
    · simp at hmem
    · exact h
  | cons head rest ih =>
    intro m0 k h
    rw [List.foldl_cons]
    apply ih
    by_cases hk : k = head.ID
    · exact Or.inr ⟨head, by simp [hk]⟩
    · rcases h with ⟨mi, hmem, hid⟩ | ⟨mi, h0⟩
      · rcases List.mem_cons.mp hmem with rfl | hrest
        · exact absurd hid.symm hk
        · exact Or.inl ⟨mi, hrest, hid⟩
      · exact Or.inr ⟨mi, by simp [hk, h0]⟩

theorem buildMenuItemMap_some (menu : List (MenuItem Q)) (k : String) (mi : MenuItem Q)
    (h : buildMenuItemMap menu k = some mi) : mi ∈ menu ∧ mi.ID = k := by
  rcases buildMenuItemMap_foldl_some menu _ k mi h with h1 | h0
  · exact h1
  · simp at h0

theorem buildMenuItemMap_isSome (menu : List (MenuItem Q)) (k : String) :
    (∃ mi, buildMenuItemMap menu k = some mi) ↔ ∃ mi ∈ menu, mi.ID = k := by
  constructor
  · rintro ⟨mi, h⟩
    exact ⟨mi, buildMenuItemMap_some menu k mi h⟩
  · intro h
    exact buildMenuItemMap_foldl_isSome menu _ k (Or.inl h)

theorem buildMenuItemMap_none (menu : List (MenuItem Q)) (k : String) :
    buildMenuItemMap menu k = none ↔ ∀ mi ∈ menu, mi.ID ≠ k := by
  rw [← not_iff_not]
  push_neg
  rw [← buildMenuItemMap_isSome, Option.ne_none_iff_exists']

end MenuMap

section Lemmas

variable {Q : Type} [LinearOrderedCommRing Q]

/-! ## The check-and-deduct loop -/

theorem deduct_zero (item : InventoryItem Q) : deduct 0 item = item := by
  cases item; simp [deduct]

theorem deduct_deduct (a b : Q) (item : InventoryItem Q) :
    deduct b (deduct a item) = deduct (a + b) item := by
  cases item; simp [deduct, sub_sub]

theorem recipeDemandAt_nil (m : String → Option Nat) (q : Int) (j : Nat) :
    recipeDemandAt m q ([] : List (MenuItemIngredient Q)) j = 0 := by
  simp [recipeDemandAt]

theorem recipeDemandAt_cons (m : String → Option Nat) (q : Int)
    (ing : MenuItemIngredient Q) (rest : List (MenuItemIngredient Q)) (j : Nat) :
    recipeDemandAt m q (ing :: rest) j =
      (if m ing.IngredientID = some j then ing.Quantity * (q : Q) else 0) +
        recipeDemandAt m q rest j := by
  unfold recipeDemandAt
  by_cases h : m ing.IngredientID = some j <;> simp [List.filter_cons, h]

theorem deductIngredients_getElem? (m : String → Option Nat) (q : Int)
    (ings : List (MenuItemIngredient Q)) :
    ∀ (inv inv' : List (InventoryItem Q)), deductIngredients m q ings inv = .ok inv' →
      ∀ j, inv'[j]? = (inv[j]?).map (deduct (recipeDemandAt m q ings j)) := by
  induction ings with
  | nil =>
    intro inv inv' h j
    simp only [deductIngredients, Except.ok.injEq] at h
    subst h
    rw [recipeDemandAt_nil]
    cases inv[j]? <;> simp [deduct_zero]
  | cons ing rest ih =>
    intro inv inv' h j
    simp only [deductIngredients] at h
    cases hm : m ing.IngredientID with
    | none => simp [hm] at h
    | some i =>
      simp only [hm] at h
      split at h
      · simp at h
      · rw [ih _ _ h j, recipeDemandAt_cons, List.getElem?_set]
        by_cases hij : i = j
        · subst hij
          by_cases hlt : i < inv.length
          · simp [hlt, hm, List.getD_eq_getElem, List.getElem?_eq_getElem, deduct, sub_sub]
          · have := List.getElem?_eq_none (Nat.le_of_not_lt hlt)
            simp [hlt, this]
        · have : some i ≠ some j := by simpa using hij
          simp [hij, hm]

theorem deductIngredients_length (m : String → Option Nat) (q : Int)
    (ings : List (MenuItemIngredient Q)) (inv inv' : List (InventoryItem Q))
    (h : deductIngredients m q ings inv = .ok inv') : inv'.length = inv.length := by
  by_contra hne
  rcases Nat.lt_or_gt_of_ne hne with hlt | hgt
  · have h1 := deductIngredients_getElem? m q ings inv inv' h inv'.length
    rw [List.getElem?_eq_none (le_refl _), List.getElem?_eq_getElem hlt] at h1
    simp at h1
  · have h1 := deductIngredients_getElem? m q ings inv inv' h inv.length
    rw [List.getElem?_eq_none (le_refl _), List.getElem?_eq_getElem hgt] at h1
    simp at h1

theorem deductIngredients_nonneg (m : String → Option Nat) (q : Int)
    (ings : List (MenuItemIngredient Q)) :
    ∀ (inv inv' : List (InventoryItem Q)), deductIngredients m q ings inv = .ok inv' →
      ∀ j item', inv'[j]? = some item' →
        (TouchesAt m ings j ∨ ∃ item, inv[j]? = some item ∧ 0 ≤ item.Quantity) →
        0 ≤ item'.Quantity := by
  induction ings with
  | nil =>
    intro inv inv' h j item' hj hor
    simp only [deductIngredients, Except.ok.injEq] at h
    subst h
    rcases hor with ⟨ing, hmem, _⟩ | ⟨item, hitem, hpos⟩
    · simp at hmem
    · rw [hj] at hitem
      cases hitem
      exact hpos
  | cons ing rest ih =>
    intro inv inv' h j item' hj hor
    simp only [deductIngredients] at h
    cases hm : m ing.IngredientID with
    | none => simp [hm] at h
    | some i =>
      simp only [hm] at h
      split at h
      · simp at h
      · rename_i hge
        have hlen := deductIngredients_length m q rest _ _ h
        rw [List.length_set] at hlen
        have hjlt : j < inv.length := by
          rw [← hlen]
          exact (List.getElem?_eq_some.mp hj).1
        apply ih _ _ h j item' hj
        by_cases hij : i = j
        · subst hij
          right
          refine ⟨_, by rw [List.getElem?_set, if_pos rfl, if_pos hjlt], ?_⟩
          simpa using hge
        · rcases hor with ⟨ing', hmem, hing'⟩ | ⟨item, hitem, hpos⟩
          · rcases List.mem_cons.mp hmem with rfl | hrest
            · rw [hm] at hing'
              exact absurd (Option.some.inj hing') hij
            · exact Or.inl ⟨ing', hrest, hing'⟩
          · right
            exact ⟨item, by rw [List.getElem?_set_ne hij]; exact hitem, hpos⟩

theorem recipeDemandAt_nonneg (m : String → Option Nat) (q : Int)
    (ings : List (MenuItemIngredient Q)) (j : Nat)
    (hpos : ∀ ing ∈ ings, 0 ≤ ing.Quantity * (q : Q)) : 0 ≤ recipeDemandAt m q ings j := by
  unfold recipeDemandAt
  apply List.sum_nonneg
  intro x hx
  rcases List.mem_map.mp hx with ⟨ing, hing, rfl⟩
  exact hpos ing (List.mem_of_mem_filter hing)

theorem deductIngredients_sufficient (m : String → Option Nat) (q : Int)
    (ings : List (MenuItemIngredient Q)) :
    ∀ (inv : List (InventoryItem Q)),
      (∀ ing ∈ ings, ∃ i, m ing.IngredientID = some i ∧ i < inv.length) →
      (∀ ing ∈ ings, 0 ≤ ing.Quantity * (q : Q)) →
      (∀ j item, TouchesAt m ings j → inv[j]? = some item →
        recipeDemandAt m q ings j ≤ item.Quantity) →
      ∃ inv', deductIngredients m q ings inv = .ok inv' := by
  induction ings with
  | nil => intro inv _ _ _; exact ⟨inv, rfl⟩
  | cons ing rest ih =>
    intro inv hres hpos hstock
    obtain ⟨i, hm, hi⟩ := hres ing (List.mem_cons_self _ _)
    have hrestpos : ∀ ing' ∈ rest, 0 ≤ ing'.Quantity * (q : Q) :=
      fun ing' h' => hpos ing' (List.mem_cons_of_mem _ h')
    have hcur := hstock i inv[i] ⟨ing, List.mem_cons_self _ _, hm⟩ (List.getElem?_eq_getElem hi)
    rw [recipeDemandAt_cons] at hcur
    simp only [hm, if_true] at hcur
    have hrest0 := recipeDemandAt_nonneg m q rest i hrestpos
    have hge : ¬ (inv.getD i default).Quantity < ing.Quantity * (q : Q) := by
      rw [List.getD_eq_getElem _ _ hi]
      exact not_lt.mpr (by linarith)
    simp only [deductIngredients, hm, hge, if_false]
    apply ih
    · intro ing' h'
      obtain ⟨i', hm', hi'⟩ := hres ing' (List.mem_cons_of_mem _ h')
      exact ⟨i', hm', by rw [List.length_set]; exact hi'⟩
    · exact hrestpos
    · intro j item htouch hitem
      by_cases hij : i = j
      · subst hij
        rw [List.getElem?_set] at hitem
        simp only [hi, if_true, Option.some.injEq] at hitem
        subst hitem
        rw [List.getD_eq_getElem _ _ hi]
        simp only
        linarith
      · rw [List.getElem?_set_ne hij] at hitem
        have := hstock j item (by
          obtain ⟨ing', h', hm'⟩ := htouch
          exact ⟨ing', List.mem_cons_of_mem _ h', hm'⟩) hitem
        rw [recipeDemandAt_cons] at this
        have hne : m ing.IngredientID ≠ some j := by
          rw [hm]; intro hc; exact hij (Option.some.inj hc)
        simpa [hne] using this

theorem orderDemandAt_nil (mm : String → Option (MenuItem Q)) (m : String → Option Nat)
    (j : Nat) : orderDemandAt mm m [] j = 0 := by
  simp [orderDemandAt]

theorem orderDemandAt_cons_some (mm : String → Option (MenuItem Q)) (m : String → Option Nat)
    (orderItem : OrderItem) (rest : List OrderItem) (menuItem : MenuItem Q) (j : Nat)
    (h : mm orderItem.ProductID = some menuItem) :
    orderDemandAt mm m (orderItem :: rest) j =
      recipeDemandAt m orderItem.Quantity menuItem.Ingredients j + orderDemandAt mm m rest j := by
  simp [orderDemandAt, h]

theorem processOrderItems_resolved (mm : String → Option (MenuItem Q))
    (m : String → Option Nat) (items : List OrderItem) :
    ∀ (inv inv' : List (InventoryItem Q)), processOrderItems mm m items inv = .ok inv' →
      ∀ orderItem ∈ items, ∃ menuItem, mm orderItem.ProductID = some menuItem := by
  induction items with
  | nil => intro _ _ _ _ hmem; simp at hmem
  | cons orderItem rest ih =>
    intro inv inv' h line hmem
    simp only [processOrderItems] at h
    cases hmm : mm orderItem.ProductID with
    | none => simp [hmm] at h
    | some menuItem =>
      simp only [hmm] at h
      cases hd : deductIngredients m orderItem.Quantity menuItem.Ingredients inv with
      | error e => simp [hd] at h
      | ok inv1 =>
        simp only [hd] at h
        rcases List.mem_cons.mp hmem with rfl | hrest
        · exact ⟨menuItem, hmm⟩
        · exact ih _ _ h line hrest

theorem processOrderItems_getElem? (mm : String → Option (MenuItem Q))
    (m : String → Option Nat) (items : List OrderItem) :
    ∀ (inv inv' : List (InventoryItem Q)), processOrderItems mm m items inv = .ok inv' →
      ∀ j, inv'[j]? = (inv[j]?).map (deduct (orderDemandAt mm m items j)) := by
  induction items with
  | nil =>
    intro inv inv' h j
    simp only [processOrderItems, Except.ok.injEq] at h
    subst h
    rw [orderDemandAt_nil]
    cases inv[j]? <;> simp [deduct_zero]
  | cons orderItem rest ih =>
    intro inv inv' h j
    simp only [processOrderItems] at h
    cases hmm : mm orderItem.ProductID with
    | none => simp [hmm] at h
    | some menuItem =>
      simp only [hmm] at h
      cases hd : deductIngredients m orderItem.Quantity menuItem.Ingredients inv with
      | error e => simp [hd] at h
      | ok inv1 =>
        simp only [hd] at h
        rw [ih _ _ h j, deductIngredients_getElem? m _ _ _ _ hd j,
          orderDemandAt_cons_some mm m orderItem rest menuItem j hmm]
        cases inv[j]? <;> simp [deduct_deduct]

theorem processOrderItems_length (mm : String → Option (MenuItem Q))
    (m : String → Option Nat) (items : List OrderItem) (inv inv' : List (InventoryItem Q))
    (h : processOrderItems mm m items inv = .ok inv') : inv'.length = inv.length := by
  by_contra hne
  rcases Nat.lt_or_gt_of_ne hne with hlt | hgt
  · have h1 := processOrderItems_getElem? mm m items inv inv' h inv'.length
    rw [List.getElem?_eq_none (le_refl _), List.getElem?_eq_getElem hlt] at h1
    simp at h1
  · have h1 := processOrderItems_getElem? mm m items inv inv' h inv.length
    rw [List.getElem?_eq_none (le_refl _), List.getElem?_eq_getElem hgt] at h1
    simp at h1

theorem processOrderItems_nonneg (mm : String → Option (MenuItem Q))
    (m : String → Option Nat) (items : List OrderItem) :
    ∀ (inv inv' : List (InventoryItem Q)), processOrderItems mm m items inv = .ok inv' →
      ∀ j item', inv'[j]? = some item' →
        (OrderTouchesAt mm m items j ∨ ∃ item, inv[j]? = some item ∧ 0 ≤ item.Quantity) →
        0 ≤ item'.Quantity := by
  induction items with
  | nil =>
    intro inv inv' h j item' hj hor
    simp only [processOrderItems, Except.ok.injEq] at h
    subst h
    rcases hor with ⟨line, hmem, _⟩ | ⟨item, hitem, hpos⟩
    · simp at hmem
    · rw [hj] at hitem
      cases hitem
      exact hpos
  | cons orderItem rest ih =>
    intro inv inv' h j item' hj hor
    simp only [processOrderItems] at h
    cases hmm : mm orderItem.ProductID with
    | none => simp [hmm] at h
    | some menuItem =>
      simp only [hmm] at h
      cases hd : deductIngredients m orderItem.Quantity menuItem.Ingredients inv with
      | error e => simp [hd] at h
      | ok inv1 =>
        simp only [hd] at h
        apply ih _ _ h j item' hj
        have hlen := processOrderItems_length mm m rest _ _ h
        have hj1 : j < inv1.length := by
          rw [← hlen]
          exact (List.getElem?_eq_some.mp hj).1
        have hmid : ∀ (hor1 : TouchesAt m menuItem.Ingredients j ∨
            ∃ item, inv[j]? = some item ∧ 0 ≤ item.Quantity),
            ∃ item, inv1[j]? = some item ∧ 0 ≤ item.Quantity := fun hor1 =>
          ⟨inv1[j], List.getElem?_eq_getElem hj1,
            deductIngredients_nonneg m _ _ _ _ hd j _ (List.getElem?_eq_getElem hj1) hor1⟩
        rcases hor with ⟨line, hmem, mi, hmi, htouch⟩ | hold
        · rcases List.mem_cons.mp hmem with rfl | hrest
          · rw [hmm] at hmi
            cases hmi
            exact Or.inr (hmid (Or.inl htouch))
          · exact Or.inl ⟨line, hrest, mi, hmi, htouch⟩
        · exact Or.inr (hmid (Or.inr hold))

theorem orderDemandAt_nonneg (mm : String → Option (MenuItem Q)) (m : String → Option Nat)
    (items : List OrderItem) (j : Nat)
    (hpos : ∀ orderItem ∈ items, ∀ menuItem, mm orderItem.ProductID = some menuItem →
      ∀ ing ∈ menuItem.Ingredients, 0 ≤ ing.Quantity * (orderItem.Quantity : Q)) :
    0 ≤ orderDemandAt mm m items j := by
  unfold orderDemandAt
  apply List.sum_nonneg
  intro x hx
  rcases List.mem_map.mp hx with ⟨line, hline, rfl⟩
  cases hmm : mm line.ProductID with
  | none => simp
  | some menuItem =>
    simp only
    exact recipeDemandAt_nonneg m _ _ j (hpos line hline menuItem hmm)

theorem processOrderItems_sufficient (mm : String → Option (MenuItem Q))
    (m : String → Option Nat) (items : List OrderItem) :
    ∀ (inv : List (InventoryItem Q)),
      (∀ orderItem ∈ items, ∃ menuItem, mm orderItem.ProductID = some menuItem) →
      (∀ orderItem ∈ items, ∀ menuItem, mm orderItem.ProductID = some menuItem →
        ∀ ing ∈ menuItem.Ingredients, ∃ i, m ing.IngredientID = some i ∧ i < inv.length) →
      (∀ orderItem ∈ items, ∀ menuItem, mm orderItem.ProductID = some menuItem →
        ∀ ing ∈ menuItem.Ingredients, 0 ≤ ing.Quantity * (orderItem.Quantity : Q)) →
      (∀ j item, OrderTouchesAt mm m items j → inv[j]? = some item →
        orderDemandAt mm m items j ≤ item.Quantity) →
      ∃ inv', processOrderItems mm m items inv = .ok inv' := by
  induction items with
  | nil => intro inv _ _ _ _; exact ⟨inv, rfl⟩
  | cons orderItem rest ih =>
    intro inv hprod hres hpos hstock
    obtain ⟨menuItem, hmm⟩ := hprod orderItem (List.mem_cons_self _ _)
    have hrestpos : ∀ line ∈ rest, ∀ mi, mm line.ProductID = some mi →
        ∀ ing ∈ mi.Ingredients, 0 ≤ ing.Quantity * (line.Quantity : Q) :=
      fun line h' => hpos line (List.mem_cons_of_mem _ h')
    obtain ⟨inv1, hd⟩ := deductIngredients_sufficient m orderItem.Quantity menuItem.Ingredients
      inv (hres orderItem (List.mem_cons_self _ _) menuItem hmm)
      (hpos orderItem (List.mem_cons_self _ _) menuItem hmm)
      (by
        intro j item htouch hitem
        have h1 := hstock j item
          ⟨orderItem, List.mem_cons_self _ _, menuItem, hmm, htouch⟩ hitem
        rw [orderDemandAt_cons_some mm m orderItem rest menuItem j hmm] at h1
        have h2 := orderDemandAt_nonneg mm m rest j hrestpos
        linarith)
    have hlen := deductIngredients_length m _ _ _ _ hd
    simp only [processOrderItems, hmm, hd]
    apply ih
    · exact fun line h' => hprod line (List.mem_cons_of_mem _ h')
    · intro line h' mi hmi ing hing
      obtain ⟨i, hi, hlt⟩ := hres line (List.mem_cons_of_mem _ h') mi hmi ing hing
      exact ⟨i, hi, by rw [hlen]; exact hlt⟩
    · exact hrestpos
    · intro j item htouch hitem
      rw [deductIngredients_getElem? m _ _ _ _ hd j] at hitem
      cases hold : inv[j]? with
      | none => simp [hold] at hitem
      | some old =>
        simp only [hold, Option.map_some', Option.some.injEq] at hitem
        subst hitem
        obtain ⟨line, h', mi, hmi, ht⟩ := htouch
        have h1 := hstock j old ⟨line, List.mem_cons_of_mem _ h', mi, hmi, ht⟩ hold
        rw [orderDemandAt_cons_some mm m orderItem rest menuItem j hmm] at h1
        simp only [deduct]
        linarith

theorem inventoryMapUpTo_some (inv : List (InventoryItem Q)) (n : Nat) (g : String) (i : Nat)
    (h : inventoryMapUpTo inv n g = some i) :
    i < n ∧ (inv.getD i default).IngredientID = g := by
  induction n with
  | zero => simp [inventoryMapUpTo] at h
  | succ n ih =>
    simp only [inventoryMapUpTo] at h
    split at h
    · rename_i hg
      cases h
      exact ⟨Nat.lt_succ_self _, hg.symm⟩
    · obtain ⟨h1, h2⟩ := ih h
      exact ⟨Nat.lt_succ_of_lt h1, h2⟩

theorem inventoryMapUpTo_of_mem (inv : List (InventoryItem Q)) (n : Nat) (g : String) (j : Nat)
    (hj : j < n) (hg : (inv.getD j default).IngredientID = g) :
    ∃ i, inventoryMapUpTo inv n g = some i := by
  induction n with
  | zero => exact absurd hj (Nat.not_lt_zero _)
  | succ n ih =>
    simp only [inventoryMapUpTo]
    split
    · exact ⟨n, rfl⟩
    · rename_i hne
      rcases Nat.lt_succ_iff_lt_or_eq.mp hj with hlt | rfl
      · exact ih hlt
      · exact absurd hg.symm hne

theorem buildInventoryMap_some (inv : List (InventoryItem Q)) (g : String) (i : Nat)
    (h : buildInventoryMap inv g = some i) :
    ∃ hi : i < inv.length, inv[i].IngredientID = g := by
  obtain ⟨h1, h2⟩ := inventoryMapUpTo_some inv inv.length g i h
  rw [List.getD_eq_getElem _ _ h1] at h2
  exact ⟨h1, h2⟩

theorem buildInventoryMap_of_mem (inv : List (InventoryItem Q)) (item : InventoryItem Q)
    (hmem : item ∈ inv) : ∃ i, buildInventoryMap inv item.IngredientID = some i := by
  obtain ⟨j, hj, rfl⟩ := List.mem_iff_getElem.mp hmem
  exact inventoryMapUpTo_of_mem inv inv.length _ j hj (by rw [List.getD_eq_getElem _ _ hj])

theorem buildInventoryMap_nodup (inv : List (InventoryItem Q))
    (hnd : (inv.map (fun item => item.IngredientID)).Nodup) (j : Nat) (hj : j < inv.length) :
    buildInventoryMap inv inv[j].IngredientID = some j := by
  obtain ⟨i, hi⟩ := buildInventoryMap_of_mem inv inv[j] (List.getElem_mem _)
  obtain ⟨hlt, hid⟩ := buildInventoryMap_some inv _ i hi
  have hi' : i < (inv.map (fun item => item.IngredientID)).length := by simpa using hlt
  have hj' : j < (inv.map (fun item => item.IngredientID)).length := by simpa using hj
  have h1 : (inv.map (fun item => item.IngredientID))[i] =
      (inv.map (fun item => item.IngredientID))[j] := by
    simpa using hid
  rw [hi, (List.Nodup.getElem_inj_iff hnd).mp h1]

theorem recipeDemandAt_eq (inv : List (InventoryItem Q)) (q : Int)
    (ings : List (MenuItemIngredient Q)) (g : String) (j : Nat)
    (hg : buildInventoryMap inv g = some j) :
    recipeDemandAt (buildInventoryMap inv) q ings j =
      ((ings.filter (fun ingredient => ingredient.IngredientID = g)).map
        (fun ingredient => ingredient.Quantity * (q : Q))).sum := by
  unfold recipeDemandAt
  congr 2
  apply List.filter_congr
  intro ing _
  obtain ⟨hj, hid⟩ := buildInventoryMap_some inv g j hg
  by_cases hc : ing.IngredientID = g
  · simp [hc, hg]
  · have : buildInventoryMap inv ing.IngredientID ≠ some j := by
      intro h'
      obtain ⟨_, hid'⟩ := buildInventoryMap_some inv _ j h'
      exact hc (hid'.symm.trans hid)
    simp [hc, this]

theorem orderDemandAt_eq (menu : List (MenuItem Q)) (inv : List (InventoryItem Q))
    (order : Order) (g : String) (j : Nat) (hg : buildInventoryMap inv g = some j) :
    orderDemandAt (buildMenuItemMap menu) (buildInventoryMap inv) order.Items j =
      aggregatedDemand menu order g := by
  unfold orderDemandAt aggregatedDemand
  congr 1
  apply List.map_congr_left
  intro line _
  unfold lineDemand
  cases buildMenuItemMap menu line.ProductID with
  | none => rfl
  | some menuItem => exact recipeDemandAt_eq inv _ _ g j hg

theorem orderTouchesAt_iff (menu : List (MenuItem Q)) (inv : List (InventoryItem Q))
    (order : Order) (g : String) (j : Nat) (hg : buildInventoryMap inv g = some j) :
    OrderTouchesAt (buildMenuItemMap menu) (buildInventoryMap inv) order.Items j ↔
      Demands menu order g := by
  obtain ⟨hj, hid⟩ := buildInventoryMap_some inv g j hg
  constructor
  · rintro ⟨line, hline, mi, hmi, ing, hing, hm⟩
    obtain ⟨_, hid'⟩ := buildInventoryMap_some inv _ j hm
    exact ⟨line, hline, mi, hmi, ing, hing, hid'.symm.trans hid⟩
  · rintro ⟨line, hline, mi, hmi, ing, hing, rfl⟩
    exact ⟨line, hline, mi, hmi, ing, hing, hg⟩

theorem aggregatedDemand_eq_zero (menu : List (MenuItem Q)) (order : Order) (g : String)
    (h : ¬ Demands menu order g) : aggregatedDemand menu order g = 0 := by
  unfold aggregatedDemand
  apply List.sum_eq_zero
  intro x hx
  rcases List.mem_map.mp hx with ⟨line, hline, rfl⟩
  unfold lineDemand
  cases hmm : buildMenuItemMap menu line.ProductID with
  | none => rfl
  | some mi =>
    simp only
    have : mi.Ingredients.filter (fun ingredient => ingredient.IngredientID = g) = [] := by
      rw [List.filter_eq_nil_iff]
      intro ing hing hc
      exact h ⟨line, hline, mi, hmm, ing, hing, by simpa using hc⟩
    rw [this]
    simp

/-! ## Case analysis of CloseOrder -/

theorem CloseOrder_success (env : Env) (s s' : Store Q) (orderID : String)
    (h : CloseOrder env s orderID = (none, s')) :
    ∃ i inv', env.readOrders = none ∧ env.readMenu = none ∧ env.readInventory = none ∧
      env.saveInventory = none ∧ env.saveOrders = none ∧
      findOrderIndex orderID s.orders = some i ∧
      (s.orders.getD i default).Status ≠ "closed" ∧
      processOrderItems (buildMenuItemMap s.menu) (buildInventoryMap s.inventory)
        (s.orders.getD i default).Items s.inventory = .ok inv' ∧
      s' = { s with
        inventory := inv'
        orders := s.orders.set i (closedAt env.now (s.orders.getD i default)) } := by
  unfold CloseOrder at h
  cases hro : env.readOrders with
  | some e => simp only [hro] at h; simp at h
  | none =>
  cases hfind : findOrderIndex orderID s.orders with
  | none => simp only [hro, hfind] at h; simp at h
  | some i =>
  by_cases hopen : (s.orders.getD i default).Status = "closed"
  · simp only [hro, hfind, hopen, if_true] at h; simp at h
  cases hrm : env.readMenu with
  | some e => simp only [hro, hfind, hopen, hrm, if_false] at h; simp at h
  | none =>
  cases hri : env.readInventory with
  | some e => simp only [hro, hfind, hopen, hrm, hri, if_false] at h; simp at h
  | none =>
  cases hproc : processOrderItems (buildMenuItemMap s.menu) (buildInventoryMap s.inventory)
      (s.orders.getD i default).Items s.inventory with
  | error e => simp only [hro, hfind, hopen, hrm, hri, hproc, if_false] at h; simp at h
  | ok inv' =>
  cases hsi : env.saveInventory with
  | some e => simp only [hro, hfind, hopen, hrm, hri, hproc, hsi, if_false] at h; simp at h
  | none =>
  cases hso : env.saveOrders with
  | some e => simp only [hro, hfind, hopen, hrm, hri, hproc, hsi, hso, if_false] at h; simp at h
  | none =>
  simp only [hro, hfind, hopen, hrm, hri, hproc, hsi, hso, if_false, Prod.mk.injEq,
    true_and] at h
  exact ⟨i, inv', rfl, rfl, rfl, rfl, rfl, rfl, hopen, hproc, h.symm⟩

theorem CloseOrder_of_ok (env : Env) (s : Store Q) (orderID : String) (i : Nat)
    (inv' : List (InventoryItem Q))
    (hro : env.readOrders = none) (hrm : env.readMenu = none) (hri : env.readInventory = none)
    (hsi : env.saveInventory = none) (hso : env.saveOrders = none)
    (hfind : findOrderIndex orderID s.orders = some i)
    (hopen : (s.orders.getD i default).Status ≠ "closed")
    (hproc : processOrderItems (buildMenuItemMap s.menu) (buildInventoryMap s.inventory)
      (s.orders.getD i default).Items s.inventory = .ok inv') :
    CloseOrder env s orderID = (none, { s with
      inventory := inv'
      orders := s.orders.set i (closedAt env.now (s.orders.getD i default)) }) := by
  unfold CloseOrder
  simp only [hro, hrm, hri, hsi, hso, hfind, hopen, hproc, if_false]

theorem CloseOrder_error (env : Env) (s : Store Q) (orderID : String)
    (h : (CloseOrder env s orderID).1 ≠ none) :
    (CloseOrder env s orderID).2 = s ∨
      ∃ e i inv', findOrderIndex orderID s.orders = some i ∧
        processOrderItems (buildMenuItemMap s.menu) (buildInventoryMap s.inventory)
          (s.orders.getD i default).Items s.inventory = .ok inv' ∧
        ((env.saveInventory = some e ∧
            CloseOrder env s orderID = (some e, { s with
              inventory := afterFailedSave env.saveInventoryTruncates s.inventory })) ∨
          (env.saveInventory = none ∧ env.saveOrders = some e ∧
            CloseOrder env s orderID = (some e, { s with
              inventory := inv'
              orders := afterFailedSave env.saveOrdersTruncates s.orders }))) := by
  cases hro : env.readOrders with
  | some e => left; unfold CloseOrder; simp only [hro]
  | none =>
  cases hfind : findOrderIndex orderID s.orders with
  | none => left; unfold CloseOrder; simp only [hro, hfind]
  | some i =>
  by_cases hopen : (s.orders.getD i default).Status = "closed"
  · left; unfold CloseOrder; simp only [hro, hfind, hopen, if_true]
  cases hrm : env.readMenu with
  | some e => left; unfold CloseOrder; simp only [hro, hfind, hopen, hrm, if_false]
  | none =>
  cases hri : env.readInventory with
  | some e => left; unfold CloseOrder; simp only [hro, hfind, hopen, hrm, hri, if_false]
  | none =>
  cases hproc : processOrderItems (buildMenuItemMap s.menu) (buildInventoryMap s.inventory)
      (s.orders.getD i default).Items s.inventory with
  | error e => left; unfold CloseOrder; simp only [hro, hfind, hopen, hrm, hri, hproc, if_false]
  | ok inv' =>
  cases hsi : env.saveInventory with
  | some e =>
    refine Or.inr ⟨e, i, inv', rfl, hproc, Or.inl ⟨rfl, ?_⟩⟩
    unfold CloseOrder
    simp only [hro, hfind, hopen, hrm, hri, hproc, hsi, if_false]
  | none =>
  cases hso : env.saveOrders with
  | some e =>
    refine Or.inr ⟨e, i, inv', rfl, hproc, Or.inr ⟨rfl, rfl, ?_⟩⟩
    unfold CloseOrder
    simp only [hro, hfind, hopen, hrm, hri, hproc, hsi, hso, if_false]
  | none =>
    exfalso
    apply h
    unfold CloseOrder
    simp only [hro, hfind, hopen, hrm, hri, hproc, hsi, hso, if_false]

theorem processOrderItems_demand_le (menu : List (MenuItem Q)) (inv inv' : List (InventoryItem Q))
    (order : Order) (g : String) (a : Q)
    (hproc : processOrderItems (buildMenuItemMap menu) (buildInventoryMap inv) order.Items inv =
      .ok inv')
    (havail : available inv g = some a) (hdem : Demands menu order g ∨ 0 ≤ a) :
    aggregatedDemand menu order g ≤ a := by
  unfold available at havail
  cases hj : buildInventoryMap inv g with
  | none => simp [hj] at havail
  | some j =>
    simp only [hj, Option.map_some', Option.some.injEq] at havail
    obtain ⟨hlt, _⟩ := buildInventoryMap_some inv g j hj
    rw [List.getD_eq_getElem _ _ hlt] at havail
    have hget := processOrderItems_getElem? _ _ _ _ _ hproc j
    rw [List.getElem?_eq_getElem hlt, orderDemandAt_eq menu inv order g j hj] at hget
    by_cases hd : Demands menu order g
    · have := processOrderItems_nonneg _ _ _ _ _ hproc j _ hget
        (Or.inl ((orderTouchesAt_iff menu inv order g j hj).mpr hd))
      simp only [deduct] at this
      rw [havail] at this
      linarith
    · rw [aggregatedDemand_eq_zero menu order g hd]
      rcases hdem with h | h
      · exact absurd h hd
      · exact h

end Lemmas

/-! ## Further facts about the operations -/

theorem available_mem {Q : Type} [LinearOrderedCommRing Q] (inv : List (InventoryItem Q))
    (g : String) (a : Q) (h : available inv g = some a) :
    ∃ item ∈ inv, item.IngredientID = g ∧ item.Quantity = a := by
  unfold available at h
  cases hj : buildInventoryMap inv g with
  | none => simp [hj] at h
  | some j =>
    simp only [hj, Option.map_some', Option.some.injEq] at h
    obtain ⟨hlt, hid⟩ := buildInventoryMap_some inv g j hj
    rw [List.getD_eq_getElem _ _ hlt] at h
    exact ⟨inv[j], List.getElem_mem _, hid, h⟩

theorem ValidateUpdatedInventoryItem_nonneg {Q : Type} [LinearOrderedCommRing Q]
    (item : InventoryItem Q) (h : ValidateUpdatedInventoryItem item = none) :
    0 ≤ item.Quantity := by
  unfold ValidateUpdatedInventoryItem at h
  split at h
  · simp at h
  · split at h
    · simp at h
    · split at h
      · simp at h
      · rename_i hq
        exact not_lt.mp hq

theorem processOrderItems_append {Q : Type} [LinearOrderedCommRing Q]
    (mm : String → Option (MenuItem Q)) (m : String → Option Nat) (pre post : List OrderItem) :
    ∀ (inv inv1 : List (InventoryItem Q)), processOrderItems mm m pre inv = .ok inv1 →
      processOrderItems mm m (pre ++ post) inv = processOrderItems mm m post inv1 := by
  induction pre with
  | nil =>
    intro inv inv1 h
    simp only [processOrderItems, Except.ok.injEq] at h
    subst h
    rfl
  | cons head rest ih =>
    intro inv inv1 h
    simp only [processOrderItems, List.cons_append] at h ⊢
    cases hmm : mm head.ProductID with
    | none => simp [hmm] at h
    | some menuItem =>
      simp only [hmm] at h ⊢
      cases hd : deductIngredients m head.Quantity menuItem.Ingredients inv with
      | error e => simp [hd] at h
      | ok inv2 =>
        simp only [hd] at h ⊢
        exact ih _ _ h

theorem processOrderItems_unresolved {Q : Type} [LinearOrderedCommRing Q]
    (mm : String → Option (MenuItem Q)) (m : String → Option Nat) (items : List OrderItem)
    (line : OrderItem) (hline : line ∈ items) (hmm : mm line.ProductID = none) :
    ∀ (inv : List (InventoryItem Q)), ∃ e, processOrderItems mm m items inv = .error e := by
  intro inv
  cases h : processOrderItems mm m items inv with
  | error e => exact ⟨e, rfl⟩
  | ok inv' =>
    obtain ⟨mi, hmi⟩ := processOrderItems_resolved mm m items inv inv' h line hline
    rw [hmm] at hmi
    cases hmi

/-! ## The example scenarios -/

theorem exOrder_recipe (line : OrderItem) (menuItem : MenuItem Int)
    (hline : line ∈ exOrder.Items)
    (hmenu : buildMenuItemMap exStoreFull.menu line.ProductID = some menuItem) :
    menuItem = exLatte := by
  have hl : line = ⟨"latte", 2⟩ := by simpa [exOrder] using hline
  subst hl
  have h : buildMenuItemMap exStoreFull.menu "latte" = some exLatte := by decide
  rw [h] at hmenu
  exact (Option.some.inj hmenu).symm

theorem exOrder_demands (g : String) (h : Demands exStoreFull.menu exOrder g) :
    g = "espresso_shot" ∨ g = "milk" := by
  obtain ⟨line, hline, menuItem, hmenu, ingredient, hmem, rfl⟩ := h
  rw [exOrder_recipe line menuItem hline hmenu] at hmem
  simp only [exLatte, List.mem_cons, List.mem_singleton, List.not_mem_nil, or_false] at hmem
  rcases hmem with rfl | rfl
  · exact Or.inl rfl
  · exact Or.inr rfl

/-! ## Printing and scanning order IDs -/

theorem digitChar_isDigit (k : Nat) (hk : k < 10) :
    (Nat.digitChar k).isDigit = true ∧ (Nat.digitChar k).toNat - '0'.toNat = k := by
  interval_cases k <;> decide

theorem toDigitsCore_spec (n : Nat) :
    ∀ (fuel : Nat) (ds : List Char), n < fuel →
      ∃ xs, Nat.toDigitsCore 10 fuel n ds = xs ++ ds ∧ xs ≠ [] ∧
        (∀ c ∈ xs, c.isDigit = true) ∧ decimalValue xs = n := by
  induction n using Nat.strong_induction_on with
  | _ n ih =>
    intro fuel ds hfuel
    cases fuel with
    | zero => exact absurd hfuel (Nat.not_lt_zero _)
    | succ fuel =>
      obtain ⟨hdig, hval⟩ := digitChar_isDigit (n % 10) (Nat.mod_lt _ (by decide))
      simp only [Nat.toDigitsCore]
      by_cases hq : n / 10 = 0
      · refine ⟨[Nat.digitChar (n % 10)], by simp [hq], by simp, by simpa using hdig, ?_⟩
        simp only [decimalValue, List.foldl_cons, List.foldl_nil, Nat.zero_mul, Nat.zero_add, hval]
        omega
      · have hlt : n / 10 < n := Nat.div_lt_self (by omega) (by decide)
        obtain ⟨xs, hxs, hne, hall, hv⟩ :=
          ih (n / 10) hlt fuel (Nat.digitChar (n % 10) :: ds) (by omega)
        refine ⟨xs ++ [Nat.digitChar (n % 10)], by simp [hq, hxs], by simp, ?_, ?_⟩
        · intro c hc
          rcases List.mem_append.mp hc with h | h
          · exact hall c h
          · rw [List.mem_singleton.mp h]; exact hdig
        · unfold decimalValue at hv ⊢
          rw [List.foldl_append, hv]
          simp only [List.foldl_cons, List.foldl_nil, hval]
          omega

theorem toDigits_spec (n : Nat) :
    Nat.toDigits 10 n ≠ [] ∧ (∀ c ∈ Nat.toDigits 10 n, c.isDigit = true) ∧
      decimalValue (Nat.toDigits 10 n) = n := by
  obtain ⟨xs, hxs, hne, hall, hv⟩ := toDigitsCore_spec n (n + 1) [] (Nat.lt_succ_self n)
  rw [List.append_nil] at hxs
  unfold Nat.toDigits
  rw [hxs]
  exact ⟨hne, hall, hv⟩

theorem toString_nat_data (n : Nat) : (toString n).data = Nat.toDigits 10 n := rfl

theorem orderIDOf_data (n : Nat) : (orderIDOf n).data = "order".data ++ Nat.toDigits 10 n := by
  unfold orderIDOf
  rw [String.data_append, toString_nat_data]

theorem orderIDOf_injective : Function.Injective orderIDOf := by
  intro a b h
  have h1 := congrArg String.data h
  rw [orderIDOf_data, orderIDOf_data] at h1
  have h2 := List.append_cancel_left h1
  rw [← (toDigits_spec a).2.2, ← (toDigits_spec b).2.2, h2]
theorem isDigit_bounds (c : Char) (h : c.isDigit = true) : 48 ≤ c.toNat ∧ c.toNat ≤ 57 := by
  simp only [Char.isDigit, Bool.and_eq_true, decide_eq_true_eq] at h
  exact ⟨h.1, h.2⟩

theorem isDigit_plain (c : Char) (h : c.isDigit = true) :
    c ≠ '\n' ∧ isSpace c = false ∧ c ≠ '+' ∧ c ≠ '-' ∧ c ≠ '_' := by
  obtain ⟨h1, h2⟩ := isDigit_bounds c h
  refine ⟨?_, ?_, ?_, ?_, ?_⟩
  · rintro rfl; revert h1; decide
  · simp only [isSpace, decide_eq_false_iff_not]
    omega
  · rintro rfl; revert h1; decide
  · rintro rfl; revert h1; decide
  · rintro rfl; revert h2; decide

theorem matchLiteral_prefix (fmt rest : List Char) :
    matchLiteral fmt (fmt ++ rest) = .ok rest := by
  induction fmt with
  | nil => rfl
  | cons f fmt ih => simp [matchLiteral, ih]

theorem scanInt_digits (ds : List Char) (hne : ds ≠ []) (hall : ∀ c ∈ ds, c.isDigit = true)
    (hrange : decimalValue ds < 2 ^ 63) : scanInt ds = .ok (decimalValue ds : Int) := by
  cases ds with
  | nil => exact absurd rfl hne
  | cons c rest =>
    obtain ⟨hnl, hsp, hplus, hminus, hus⟩ := isDigit_plain c (hall c (List.mem_cons_self _ _))
    have hscan : ∀ x ∈ c :: rest, isScanDigit x = true := by
      intro x hx
      simp [isScanDigit, hall x hx]
    have htake : (c :: rest).takeWhile isScanDigit = c :: rest :=
      List.takeWhile_eq_self_iff.mpr hscan
    have hnous : (c :: rest).any (fun x => decide (x = '_')) = false := by
      rw [List.any_eq_false]
      intro x hx
      simpa using (isDigit_plain x (hall x hx)).2.2.2.2
    have hc : isScanDigit c = true := hscan c (List.mem_cons_self _ _)
    have hlow : ¬ ((decimalValue (c :: rest) : Int) < -(2 : Int) ^ 63 ∨
        (2 : Int) ^ 63 ≤ (decimalValue (c :: rest) : Int)) := by
      have : ((decimalValue (c :: rest) : Nat) : Int) < (2 : Int) ^ 63 := by exact_mod_cast hrange
      omega
    simp only [scanInt, skipSpace, hnl, hsp, if_false, hplus, hminus, or_self, decide_False,
      Bool.false_eq_true, hc, Bool.not_true, htake, parseInt64, hnous, hlow]

theorem sscanfOrderID_orderIDOf (n : Nat) (hn : n < 2 ^ 63) :
    sscanfOrderID (orderIDOf n) = .ok (n : Int) := by
  obtain ⟨hne, hall, hv⟩ := toDigits_spec n
  unfold sscanfOrderID
  rw [orderIDOf_data, matchLiteral_prefix]
  simp only
  rw [scanInt_digits _ hne hall (by rw [hv]; exact hn), hv]

/-! ## Case analysis of CreateOrder -/

theorem CreateOrder_success {Q : Type} (env : Env) (s s' : Store Q) (order : Order)
    (h : CreateOrder env s order = (none, s')) :
    ∃ newID, env.readOrders = none ∧ env.saveOrders = none ∧
      (order.CreatedAt = "" → env.loadLocation = none) ∧
      assignOrderID s.orders = .ok newID ∧
      s' = { s with orders := s.orders ++ [storedOrder env newID order] } := by
  unfold CreateOrder at h
  cases hro : env.readOrders with
  | some e => simp only [hro] at h; simp at h
  | none =>
  cases hid : assignOrderID s.orders with
  | error e =>
    unfold assignOrderID at hid
    simp only [hro, hid] at h
    simp at h
  | ok newID =>
  unfold assignOrderID at hid
  simp only [hro, hid] at h
  by_cases hs : order.Status = "" <;> by_cases hc : order.CreatedAt = ""
  all_goals
    cases hll : env.loadLocation <;> cases hso : env.saveOrders <;>
      simp [hs, hc, hll, hso] at h <;>
      exact ⟨newID, rfl, rfl, by simp [hc], rfl, by rw [← h]; simp [storedOrder, hs, hc]⟩

theorem CreateOrder_of_ok {Q : Type} (env : Env) (s : Store Q) (order : Order) (newID : String)
    (hro : env.readOrders = none) (hso : env.saveOrders = none)
    (hll : order.CreatedAt = "" → env.loadLocation = none)
    (hid : assignOrderID s.orders = .ok newID) :
    CreateOrder env s order =
      (none, { s with orders := s.orders ++ [storedOrder env newID order] }) := by
  unfold assignOrderID at hid
  unfold CreateOrder
  simp only [hro, hid, hso]
  by_cases hs : order.Status = "" <;> by_cases hc : order.CreatedAt = "" <;>
    simp [hs, hc, hll, storedOrder]

/-! ## Validation and case analysis of UpdateOrderByID -/

theorem validateOrderItems_bad (items : List OrderItem)
    (h : ∃ item ∈ items, item.ProductID = "" ∨ item.Quantity ≤ 0) :
    validateOrderItems items ≠ none := by
  induction items with
  | nil => obtain ⟨item, hmem, _⟩ := h; simp at hmem
  | cons head rest ih =>
    simp only [validateOrderItems]
    by_cases h1 : head.ProductID = ""
    · simp [h1]
    · by_cases h2 : head.Quantity ≤ 0
      · simp [h1, h2]
      · simp only [h1, h2, if_false]
        apply ih
        obtain ⟨item, hmem, hbad⟩ := h
        rcases List.mem_cons.mp hmem with rfl | hrest
        · rcases hbad with hb | hb
          · exact absurd hb h1
          · exact absurd hb h2
        · exact ⟨item, hrest, hbad⟩

theorem ValidateUpdatedOrder_invalid (p : Order)
    (h : p.CustomerName = "" ∨ p.Items = [] ∨
      ∃ item ∈ p.Items, item.ProductID = "" ∨ item.Quantity ≤ 0) :
    ValidateUpdatedOrder p ≠ none := by
  unfold ValidateUpdatedOrder
  by_cases h0 : p.ID = ""
  · simp [h0]
  by_cases h1 : p.CustomerName = ""
  · simp [h0, h1]
  by_cases h2 : p.Items.length = 0
  · simp [h0, h1, h2]
  simp only [h0, h1, h2, if_false]
  rcases h with h | h | h
  · exact absurd h h1
  · rw [h] at h2; exact absurd rfl h2
  · cases hv : validateOrderItems p.Items with
    | none => exact absurd hv (validateOrderItems_bad p.Items h)
    | some e => simp

theorem UpdateOrderByID_invalid {Q : Type} (env : Env) (s : Store Q) (id : String) (p : Order)
    (e : String) (hv : ValidateUpdatedOrder p = some e) :
    UpdateOrderByID env s id p = (some e, s) := by
  unfold UpdateOrderByID
  simp only [hv]

theorem UpdateOrderByID_error {Q : Type} (env : Env) (s : Store Q) (id : String) (p : Order)
    (h : (UpdateOrderByID env s id p).1 ≠ none) :
    (UpdateOrderByID env s id p).2 = s ∨
      ∃ e i, ValidateUpdatedOrder p = none ∧ findOrderIndex id s.orders = some i ∧
        (s.orders.getD i default).Status ≠ "closed" ∧ env.saveOrders = some e ∧
        UpdateOrderByID env s id p =
          (some e, { s with orders := afterFailedSave env.saveOrdersTruncates s.orders }) := by
  unfold UpdateOrderByID at h ⊢
  cases hv : ValidateUpdatedOrder p with
  | some e => simp only [hv]; exact Or.inl trivial
  | none =>
  cases hro : env.readOrders with
  | some e => simp only [hv, hro]; exact Or.inl trivial
  | none =>
  cases hfind : findOrderIndex id s.orders with
  | none => simp only [hv, hro, hfind]; exact Or.inl trivial
  | some i =>
  by_cases hc : (s.orders.getD i default).Status = "closed"
  · simp only [hv, hro, hfind, hc, if_true]; exact Or.inl trivial
  cases hso : env.saveOrders with
  | some e =>
    simp only [hv, hro, hfind, hc, hso, if_false]
    exact Or.inr ⟨e, i, trivial, rfl, hc, rfl, rfl⟩
  | none =>
    simp only [hv, hro, hfind, hc, hso, if_false] at h
    exact absurd rfl h

theorem UpdateOrderByID_closed {Q : Type} (env : Env) (s : Store Q) (id : String)
    (p order : Order) (hv : ValidateUpdatedOrder p = none) (hro : env.readOrders = none)
    (horder : findOrder id s.orders = some order) (hclosed : order.Status = "closed") :
    UpdateOrderByID env s id p =
      (some "order is already closed and cannot be modified", s) := by
  obtain ⟨i, hfind, hget⟩ := (findOrder_eq_some _ _ _).mp horder
  have hc : (s.orders.getD i default).Status = "closed" := by rw [hget, hclosed]
  unfold UpdateOrderByID
  simp only [hv, hro, hfind, hc, if_true]

theorem UpdateOrderByID_absent {Q : Type} (env : Env) (s : Store Q) (id : String) (p : Order)
    (hv : ValidateUpdatedOrder p = none) (hro : env.readOrders = none)
    (habsent : ∀ order ∈ s.orders, order.ID ≠ id) :
    UpdateOrderByID env s id p = (some "order not found", s) := by
  have hfind := (findOrderIndex_none id s.orders).mpr habsent
  unfold UpdateOrderByID
  simp only [hv, hro, hfind]

theorem UpdateOrderByID_open {Q : Type} (env : Env) (s : Store Q) (id : String) (p : Order)
    (i : Nat) (hv : ValidateUpdatedOrder p = none) (hro : env.readOrders = none)
    (hso : env.saveOrders = none) (hfind : findOrderIndex id s.orders = some i)
    (hopen : (s.orders.getD i default).Status ≠ "closed") :
    UpdateOrderByID env s id p = (none, { s with orders := s.orders.set i p }) := by
  unfold UpdateOrderByID
  simp only [hv, hro, hfind, hopen, hso, if_false]

/-! ## Where the check-and-deduct loop stops -/

theorem deductIngredients_append {Q : Type} [LinearOrderedCommRing Q]
    (m : String → Option Nat) (q : Int) (before after : List (MenuItemIngredient Q)) :
    ∀ (inv inv1 : List (InventoryItem Q)), deductIngredients m q before inv = .ok inv1 →
      deductIngredients m q (before ++ after) inv = deductIngredients m q after inv1 := by
  induction before with
  | nil =>
    intro inv inv1 h
    simp only [deductIngredients, Except.ok.injEq] at h
    subst h
    rfl
  | cons head rest ih =>
    intro inv inv1 h
    simp only [deductIngredients, List.cons_append] at h ⊢
    cases hm : m head.IngredientID with
    | none => simp [hm] at h
    | some i =>
      simp only [hm] at h ⊢
      split at h
      · simp at h
      · rename_i hge
        simp only [hge, if_false]
        exact ih _ _ h

theorem deductIngredients_resolved {Q : Type} [LinearOrderedCommRing Q]
    (m : String → Option Nat) (q : Int) (ings : List (MenuItemIngredient Q)) :
    ∀ (inv inv' : List (InventoryItem Q)), deductIngredients m q ings inv = .ok inv' →
      ∀ ing ∈ ings, ∃ i, m ing.IngredientID = some i := by
  induction ings with
  | nil => intro _ _ _ _ hmem; simp at hmem
  | cons head rest ih =>
    intro inv inv' h ing hmem
    simp only [deductIngredients] at h
    cases hm : m head.IngredientID with
    | none => simp [hm] at h
    | some i =>
      simp only [hm] at h
      split at h
      · simp at h
      · rcases List.mem_cons.mp hmem with rfl | hrest
        · exact ⟨i, hm⟩
        · exact ih _ _ h ing hrest

theorem processOrderItems_ingredients_resolved {Q : Type} [LinearOrderedCommRing Q]
    (mm : String → Option (MenuItem Q)) (m : String → Option Nat) (items : List OrderItem) :
    ∀ (inv inv' : List (InventoryItem Q)), processOrderItems mm m items inv = .ok inv' →
      ∀ line ∈ items, ∀ menuItem, mm line.ProductID = some menuItem →
        ∀ ing ∈ menuItem.Ingredients, ∃ i, m ing.IngredientID = some i := by
  induction items with
  | nil => intro _ _ _ _ hmem; simp at hmem
  | cons head rest ih =>
    intro inv inv' h line hmem menuItem hmi ing hing
    simp only [processOrderItems] at h
    cases hmm : mm head.ProductID with
    | none => simp [hmm] at h
    | some mi =>
      simp only [hmm] at h
      cases hd : deductIngredients m head.Quantity mi.Ingredients inv with
      | error e => simp [hd] at h
      | ok inv1 =>
        simp only [hd] at h
        rcases List.mem_cons.mp hmem with rfl | hrest
        · rw [hmm] at hmi
          cases hmi
          exact deductIngredients_resolved m _ _ _ _ hd ing hing
        · exact ih _ _ h line hrest menuItem hmi ing hing

theorem not_found_ne_insufficient (x y : String) :
    "ingredient not found in inventory: " ++ x ≠
      "insufficient inventory for ingredient: " ++ y := by
  intro h
  have h1 := congrArg (fun t => t.data[2]?) h
  simp only [String.data_append] at h1
  revert h1
  have e1 : ("ingredient not found in inventory: ".data ++ x.data)[2]? = some 'g' := rfl
  have e2 : ("insufficient inventory for ingredient: ".data ++ y.data)[2]? = some 's' := rfl
  rw [e1, e2]
  decide

/-! ## The ID CreateOrder assigns -/

theorem orderIDOf_one : orderIDOf 1 = "order1" := by decide

theorem scanInt_digits_eq (ds : List Char) (hne : ds ≠ [])
    (hall : ∀ c ∈ ds, c.isDigit = true) :
    scanInt ds = if 2 ^ 63 ≤ decimalValue ds then
        .error ("strconv.ParseInt: parsing \"" ++ String.mk ds ++ "\": value out of range")
      else .ok (decimalValue ds : Int) := by
  by_cases hrange : decimalValue ds < 2 ^ 63
  · rw [scanInt_digits ds hne hall hrange, if_neg (not_le.mpr hrange)]
  · cases ds with
    | nil => exact absurd rfl hne
    | cons c rest =>
      obtain ⟨hnl, hsp, hplus, hminus, hus⟩ := isDigit_plain c (hall c (List.mem_cons_self _ _))
      have hscan : ∀ x ∈ c :: rest, isScanDigit x = true := by
        intro x hx
        simp [isScanDigit, hall x hx]
      have htake : (c :: rest).takeWhile isScanDigit = c :: rest :=
        List.takeWhile_eq_self_iff.mpr hscan
      have hnous : (c :: rest).any (fun x => decide (x = '_')) = false := by
        rw [List.any_eq_false]
        intro x hx
        simpa using (isDigit_plain x (hall x hx)).2.2.2.2
      have hc : isScanDigit c = true := hscan c (List.mem_cons_self _ _)
      have hhigh : ((decimalValue (c :: rest) : Int) < -(2 : Int) ^ 63 ∨
          (2 : Int) ^ 63 ≤ (decimalValue (c :: rest) : Int)) := by
        right
        exact_mod_cast not_lt.mp hrange
      rw [if_pos (not_lt.mp hrange)]
      simp only [scanInt, skipSpace, hnl, hsp, if_false, hplus, hminus, or_self, decide_False,
        Bool.false_eq_true, hc, Bool.not_true, htake, parseInt64, hnous, hhigh, if_true]
      rfl

theorem sscanfOrderID_orderIDOf_ok (n : Nat) (v : Int)
    (h : sscanfOrderID (orderIDOf n) = .ok v) : v = n ∧ n < 2 ^ 63 := by
  obtain ⟨hne, hall, hv⟩ := toDigits_spec n
  unfold sscanfOrderID at h
  rw [orderIDOf_data, matchLiteral_prefix] at h
  simp only at h
  rw [scanInt_digits_eq _ hne hall, hv] at h
  split at h
  · cases h
  · rename_i hlt
    simp only [Except.ok.injEq] at h
    exact ⟨h.symm, not_le.mp hlt⟩

theorem nextOrderID_of_nat (n : Nat) (hn : n + 1 < 2 ^ 63) :
    nextOrderID (n : Int) = orderIDOf (n + 1) := by
  have h : addInt64 (n : Int) 1 = Int.ofNat (n + 1) := by
    unfold addInt64
    have : ((n : Int)) + 1 < 2 ^ 63 := by exact_mod_cast hn
    simp only [Int.ofNat_eq_coe, Nat.cast_add, Nat.cast_one]
    omega
  unfold nextOrderID orderIDOf
  rw [h]
  rfl

theorem nextOrderID_overflow (n : Nat) (hn : n + 1 = 2 ^ 63) :
    nextOrderID (n : Int) = "order" ++ ("-" ++ toString (2 ^ 63 : Nat)) := by
  have h : addInt64 (n : Int) 1 = Int.negSucc (2 ^ 63 - 1) := by
    unfold addInt64
    have : ((n : Int)) + 1 = 2 ^ 63 := by exact_mod_cast hn
    rw [Int.negSucc_eq]
    simp only [Nat.cast_sub (Nat.one_le_two_pow), Nat.cast_pow, Nat.cast_ofNat, Nat.cast_one]
    omega
  unfold nextOrderID
  rw [h]
  rfl

theorem overflow_id_ne_orderIDOf (t : String) (n : Nat) :
    "order" ++ ("-" ++ t) ≠ orderIDOf n := by
  intro h
  have h1 := congrArg String.data h
  rw [orderIDOf_data, String.data_append, String.data_append] at h1
  have h2 := List.append_cancel_left h1
  obtain ⟨hne, hall, _⟩ := toDigits_spec n
  cases hd : Nat.toDigits 10 n with
  | nil => exact hne hd
  | cons c rest =>
    rw [hd] at h2
    have hc : c = '-' := by
      have := congrArg List.head? h2
      simpa using this.symm
    have := hall c (by rw [hd]; exact List.mem_cons_self _ _)
    rw [hc] at this
    revert this
    decide

theorem hasSuffixes_last (orders : List Order) (ns : List Nat) (L : Nat)
    (hform : orders.map (fun order => order.ID) = ns.map orderIDOf)
    (hlast : ns.getLast? = some L) :
    ∃ lastOrder, orders.getLast? = some lastOrder ∧ lastOrder.ID = orderIDOf L := by
  have h := congrArg List.getLast? hform
  rw [List.getLast?_map, List.getLast?_map, hlast] at h
  cases ho : orders.getLast? with
  | none => simp [ho] at h
  | some lastOrder =>
    simp only [ho, Option.map_some', Option.some.injEq] at h
    exact ⟨lastOrder, rfl, h⟩

theorem assignOrderID_of_last (orders : List Order) (ns : List Nat) (L : Nat) (newID : String)
    (hform : orders.map (fun order => order.ID) = ns.map orderIDOf)
    (hlast : ns.getLast? = some L) (h : assignOrderID orders = .ok newID) :
    L < 2 ^ 63 ∧ newID = nextOrderID (L : Int) := by
  obtain ⟨lastOrder, ho, hid⟩ := hasSuffixes_last orders ns L hform hlast
  unfold assignOrderID at h
  simp only [ho, hid] at h
  cases hs : sscanfOrderID (orderIDOf L) with
  | error e => simp [hs] at h
  | ok v =>
    simp only [hs, Except.ok.injEq] at h
    obtain ⟨hv, hL⟩ := sscanfOrderID_orderIDOf_ok L v hs
    exact ⟨hL, by rw [← h, hv]⟩

theorem assignOrderID_nil (orders : List Order) (newID : String) (hnil : orders = [])
    (h : assignOrderID orders = .ok newID) : newID = "order1" := by
  subst hnil
  simp only [assignOrderID, List.getLast?_nil, Except.ok.injEq] at h
  exact h.symm

theorem sorted_le_last (ns : List Nat) (L : Nat) (hsorted : ns.Pairwise (· < ·))
    (hlast : ns.getLast? = some L) : L ∈ ns ∧ ∀ n ∈ ns, n ≤ L := by
  obtain ⟨ys, rfl⟩ := List.getLast?_eq_some_iff.mp hlast
  refine ⟨by simp, ?_⟩
  intro n hn
  rcases List.mem_append.mp hn with h | h
  · exact Nat.le_of_lt ((List.pairwise_append.mp hsorted).2.2 n h L (List.mem_singleton_self _))
  · rw [List.mem_singleton.mp h]

/-! ## Sequences of creations and deletions -/

theorem CreateOrder_error {Q : Type} (env : Env) (s : Store Q) (order : Order)
    (h : (CreateOrder env s order).1 ≠ none) :
    (CreateOrder env s order).2 = s ∨
      (CreateOrder env s order).2 =
        { s with orders := afterFailedSave env.saveOrdersTruncates s.orders } := by
  cases hres : CreateOrder env s order with
  | mk err s' =>
    cases err with
    | some e =>
      unfold CreateOrder at hres
      cases hro : env.readOrders with
      | some e' => simp only [hro] at hres; exact Or.inl (Prod.mk.inj hres).2.symm
      | none =>
        simp only [hro] at hres
        split at hres
        · exact Or.inl (Prod.mk.inj hres).2.symm
        · split at hres
          · exact Or.inl (Prod.mk.inj hres).2.symm
          · split at hres
            · exact Or.inr (Prod.mk.inj hres).2.symm
            · simp at hres
    | none =>
      rw [hres] at h
      exact absurd rfl h

theorem DeleteOrderByID_cases {Q : Type} (env : Env) (s : Store Q) (id : String) :
    ((DeleteOrderByID env s id).1 ≠ none ∧
        ((DeleteOrderByID env s id).2 = s ∨
          (DeleteOrderByID env s id).2 =
            { s with orders := afterFailedSave env.saveOrdersTruncates s.orders })) ∨
      DeleteOrderByID env s id =
        (none, { s with orders := s.orders.filter (fun order => order.ID ≠ id) }) := by
  unfold DeleteOrderByID
  cases hro : env.readOrders with
  | some e => left; simp
  | none =>
  by_cases hany : (s.orders.any (fun order => order.ID = id ∧ order.Status = "closed")) = true
  · left; simp only [hany, if_true]; simp
  by_cases hlen : (s.orders.filter (fun order => order.ID ≠ id)).length = s.orders.length
  · left; simp only [hany, hlen, if_true, if_false]; simp
  cases hso : env.saveOrders with
  | some e => left; simp only [hany, hlen, if_false]; simp
  | none => right; simp only [hany, hlen, if_false, Bool.false_eq_true]

theorem ids_filter (orders : List Order) (ns : List Nat) (id : String)
    (hform : orders.map (fun order => order.ID) = ns.map orderIDOf) :
    (orders.filter (fun order => order.ID ≠ id)).map (fun order => order.ID) =
      (ns.filter (fun n => orderIDOf n ≠ id)).map orderIDOf := by
  have h1 : (orders.filter (fun order => order.ID ≠ id)).map (fun order => order.ID) =
      (orders.map (fun order => order.ID)).filter (fun x => x ≠ id) := by
    rw [List.filter_map]; rfl
  have h2 : (ns.filter (fun n => orderIDOf n ≠ id)).map orderIDOf =
      (ns.map orderIDOf).filter (fun x => x ≠ id) := by
    rw [List.filter_map]; rfl
  rw [h1, h2, hform]

theorem createOrder_first {Q : Type} (env : Env) (s s' : Store Q) (input : Order)
    (hnil : s.orders = []) (hok : CreateOrder env s input = (none, s')) :
    ∃ stored, s'.orders = [stored] ∧ stored.ID = "order1" := by
  obtain ⟨newID, _, _, _, hid, rfl⟩ := CreateOrder_success env s s' input hok
  exact ⟨storedOrder env newID input, by simp [hnil], assignOrderID_nil s.orders newID hnil hid⟩

theorem createOrder_next {Q : Type} (env : Env) (s s' : Store Q) (input : Order) (k : Nat)
    (ns : List Nat) (hinv : SuffixesUpTo s.orders k ns) (hk : k + 1 < 2 ^ 63)
    (hok : CreateOrder env s input = (none, s')) :
    ∃ stored, s'.orders = s.orders ++ [stored] ∧
      stored.ID = orderIDOf (ns.getLast?.getD 0 + 1) ∧
      (∀ n ∈ ns, n < ns.getLast?.getD 0 + 1) ∧ ns.getLast?.getD 0 + 1 ≤ k + 1 := by
  obtain ⟨hsorted, hrange, hform⟩ := hinv
  obtain ⟨newID, _, _, _, hid, rfl⟩ := CreateOrder_success env s s' input hok
  refine ⟨storedOrder env newID input, rfl, ?_⟩
  cases hlast : ns.getLast? with
  | none =>
    have hns : ns = [] := List.getLast?_eq_none_iff.mp hlast
    subst hns
    have ho : s.orders = [] := by simpa using hform
    refine ⟨?_, by simp, by simp⟩
    show newID = orderIDOf (0 + 1)
    rw [assignOrderID_nil s.orders newID ho hid, ← orderIDOf_one]
  | some L =>
    obtain ⟨hL, hmax⟩ := sorted_le_last ns L hsorted hlast
    have hLk := (hrange L hL).2
    obtain ⟨_, hnew⟩ := assignOrderID_of_last s.orders ns L newID hform hlast hid
    refine ⟨?_, fun n hn => Nat.lt_succ_of_le (hmax n hn), by simpa using hLk⟩
    show newID = orderIDOf (L + 1)
    rw [hnew, nextOrderID_of_nat L (by omega)]

theorem suffixes_after_error {Q : Type} (s s' : Store Q) (b : Bool) (k : Nat) (ns : List Nat)
    (hinv : SuffixesUpTo s.orders k ns)
    (h : s' = s ∨ s' = { s with orders := afterFailedSave b s.orders }) :
    ∃ ns', SuffixesUpTo s'.orders k ns' := by
  rcases h with rfl | rfl
  · exact ⟨ns, hinv⟩
  · cases b
    · exact ⟨ns, hinv⟩
    · exact ⟨[], List.Pairwise.nil, by simp, by simp [afterFailedSave]⟩

theorem runCall_suffixes {Q : Type} (s : Store Q) (call : OrderCall) (k : Nat) (ns : List Nat)
    (hinv : SuffixesUpTo s.orders k ns) (hk : k + 1 < 2 ^ 63) :
    ∃ ns', SuffixesUpTo (runCall s call).orders (k + 1) ns' := by
  have hweak : SuffixesUpTo s.orders (k + 1) ns :=
    ⟨hinv.1, fun n hn => ⟨(hinv.2.1 n hn).1, Nat.le_succ_of_le (hinv.2.1 n hn).2⟩, hinv.2.2⟩
  cases call with
  | create env input =>
    simp only [runCall]
    cases hres : (CreateOrder env s input).1 with
    | some e =>
      exact suffixes_after_error s _ _ (k + 1) ns hweak
        (CreateOrder_error env s input (by rw [hres]; simp))
    | none =>
      obtain ⟨stored, happ, hid, hgt, hle⟩ := createOrder_next env s (CreateOrder env s input).2
        input k ns hinv hk (Prod.ext hres rfl)
      refine ⟨ns ++ [ns.getLast?.getD 0 + 1], ?_, ?_, ?_⟩
      · rw [List.pairwise_append]
        refine ⟨hinv.1, List.pairwise_singleton _ _, ?_⟩
        intro a ha b hb
        rw [List.mem_singleton.mp hb]
        exact hgt a ha
      · intro n hn
        rcases List.mem_append.mp hn with h | h
        · exact hweak.2.1 n h
        · rw [List.mem_singleton.mp h]
          exact ⟨Nat.succ_le_succ (Nat.zero_le _), hle⟩
      · rw [happ, List.map_append, List.map_append, hinv.2.2]
        simp [hid]
  | delete env id =>
    simp only [runCall]
    rcases DeleteOrderByID_cases env s id with ⟨_, h⟩ | h
    · exact suffixes_after_error s _ _ (k + 1) ns hweak h
    · rw [h]
      refine ⟨ns.filter (fun n => orderIDOf n ≠ id), hinv.1.filter _, ?_,
        ids_filter _ _ id hinv.2.2⟩
      intro n hn
      exact hweak.2.1 n (List.mem_of_mem_filter hn)

theorem runCalls_suffixes {Q : Type} (s : Store Q) (calls : List OrderCall)
    (hs : s.orders = []) (hlen : calls.length + 1 < 2 ^ 63) :
    ∃ ns, SuffixesUpTo (runCalls s calls).orders calls.length ns := by
  induction calls using List.reverseRecOn with
  | nil =>
    refine ⟨[], List.Pairwise.nil, by simp, ?_⟩
    simp [runCalls, hs]
  | append_singleton calls call ih =>
    rw [List.length_append, List.length_singleton] at hlen ⊢
    obtain ⟨ns, hns⟩ := ih (by omega)
    have hstep := runCall_suffixes (runCalls s calls) call calls.length ns hns (by omega)
    unfold runCalls at hstep ⊢
    rw [List.foldl_append]
    exact hstep

/-! ## Distinct order IDs -/

theorem nodup_set_iff (l : List String) (hnd : l.Nodup) (i : Nat) (hi : i < l.length)
    (x : String) : (l.set i x).Nodup ↔ (x = l[i] ∨ x ∉ l) := by
  constructor
  · intro hset
    by_contra hcon
    push_neg at hcon
    obtain ⟨hne, hmem⟩ := hcon
    obtain ⟨j, hj, hjx⟩ := List.mem_iff_getElem.mp hmem
    have hji : j ≠ i := by
      intro h
      subst h
      exact hne hjx.symm
    have hi' : i < (l.set i x).length := by rw [List.length_set]; exact hi
    have hj' : j < (l.set i x).length := by rw [List.length_set]; exact hj
    have h1 : (l.set i x)[i] = x := by simp
    have h2 : (l.set i x)[j] = x := by
      rw [List.getElem_set_ne (Ne.symm hji)]
      exact hjx
    exact hji ((List.Nodup.getElem_inj_iff hset).mp (h2.trans h1.symm))
  · rintro (h | h)
    · have hsame : l.set i x = l := by
        apply List.ext_getElem?
        intro j
        rw [List.getElem?_set]
        by_cases hij : i = j
        · subst hij
          simp [hi, h]
        · simp [hij]
      rw [hsame]
      exact hnd
    · rw [List.nodup_iff_getElem?_ne_getElem?] at hnd ⊢
      intro a b hab hb
      rw [List.length_set] at hb
      have ha : a < l.length := Nat.lt_trans hab hb
      have hx : ∀ c, c < l.length → some x ≠ l[c]? := by
        intro c hc hcon
        rw [List.getElem?_eq_getElem hc] at hcon
        exact h (by rw [Option.some.inj hcon]; exact List.getElem_mem _)
      by_cases hia : i = a
      · have hib : i ≠ b := by omega
        rw [List.getElem?_set_ne hib, ← hia, List.getElem?_set_self hi]
        exact hx b hb
      · by_cases hib : i = b
        · rw [List.getElem?_set_ne hia, ← hib, List.getElem?_set_self hi]
          exact fun hc => hx a ha hc.symm
        · rw [List.getElem?_set_ne hia, List.getElem?_set_ne hib]
          exact hnd a b hab hb

theorem ids_nodup_of_sorted (orders : List Order) (ns : List Nat)
    (hform : orders.map (fun order => order.ID) = ns.map orderIDOf)
    (hsorted : ns.Pairwise (· < ·)) : (orders.map (fun order => order.ID)).Nodup := by
  rw [hform]
  exact List.Nodup.map orderIDOf_injective (hsorted.imp (fun h => Nat.ne_of_lt h))

theorem assigned_id_is_new (orders : List Order) (ns : List Nat) (newID : String)
    (hform : orders.map (fun order => order.ID) = ns.map orderIDOf)
    (hsorted : ns.Pairwise (· < ·)) (h : assignOrderID orders = .ok newID) :
    newID ∉ orders.map (fun order => order.ID) := by
  cases hlast : ns.getLast? with
  | none =>
    have hns : ns = [] := List.getLast?_eq_none_iff.mp hlast
    subst hns
    have ho : orders = [] := by simpa using hform
    simp [ho]
  | some L =>
    obtain ⟨hL, hmax⟩ := sorted_le_last ns L hsorted hlast
    obtain ⟨hLt, hnew⟩ := assignOrderID_of_last orders ns L newID hform hlast h
    rw [hform, hnew]
    intro hmem
    obtain ⟨n, hn, hid⟩ := List.mem_map.mp hmem
    by_cases hb : L + 1 < 2 ^ 63
    · rw [nextOrderID_of_nat L hb] at hid
      have := orderIDOf_injective hid
      have := hmax n hn
      omega
    · rw [nextOrderID_overflow L (by omega)] at hid
      exact overflow_id_ne_orderIDOf _ n hid.symm

theorem ids_after_close (orders : List Order) (i : Nat) (now : String) :
    (orders.set i (closedAt now (orders.getD i default))).map (fun order => order.ID) =
      orders.map (fun order => order.ID) := by
  apply List.ext_getElem?
  intro j
  rw [List.getElem?_map, List.getElem?_map, List.getElem?_set]
  by_cases hij : i = j
  · subst hij
    by_cases hi : i < orders.length
    · simp [hi, List.getD_eq_getElem, closedAt]
    · simp [hi, List.getElem?_eq_none (Nat.le_of_not_lt hi)]
  · simp [hij]

theorem filter_ne_id_split (orders : List Order)
    (hnd : (orders.map (fun order => order.ID)).Nodup) (order : Order) (hmem : order ∈ orders) :
    ∃ before after, orders = before ++ order :: after ∧
      orders.filter (fun o => o.ID ≠ order.ID) = before ++ after ∧
      orders.erase order = before ++ after ∧
      ∀ o ∈ before ++ after, o.ID ≠ order.ID := by
  obtain ⟨before, after, rfl⟩ := List.append_of_mem hmem
  have hne : ∀ o ∈ before ++ after, o.ID ≠ order.ID := by
    intro o ho hid
    rw [List.map_append, List.map_cons, List.nodup_append] at hnd
    obtain ⟨_, hnd2, hdisj⟩ := hnd
    rcases List.mem_append.mp ho with hb | ha
    · exact hdisj (List.mem_map_of_mem (fun order => order.ID) hb)
        (by rw [hid]; exact List.mem_cons_self _ _)
    · rw [List.nodup_cons] at hnd2
      exact hnd2.1 (by rw [← hid]; exact List.mem_map_of_mem (fun order => order.ID) ha)
  have hb : before.filter (fun o => o.ID ≠ order.ID) = before :=
    List.filter_eq_self.mpr (fun o ho => by simpa using hne o (List.mem_append_left _ ho))
  have ha : after.filter (fun o => o.ID ≠ order.ID) = after :=
    List.filter_eq_self.mpr (fun o ho => by simpa using hne o (List.mem_append_right _ ho))
  have hnb : order ∉ before := fun h => hne order (List.mem_append_left _ h) rfl
  refine ⟨before, after, rfl, ?_, ?_, hne⟩
  · rw [List.filter_append, List.filter_cons, hb, ha]
    simp
  · rw [List.erase_append_right _ hnb, List.erase_cons_head]

theorem DeleteOrderByID_absent {Q : Type} (env : Env) (s : Store Q) (id : String)
    (hread : env.readOrders = none) (habs : ∀ order ∈ s.orders, order.ID ≠ id) :
    DeleteOrderByID env s id = (some "order not found", s) := by
  have hany : (s.orders.any (fun order => order.ID = id ∧ order.Status = "closed")) = false := by
    rw [List.any_eq_false]
    intro o ho
    simp [habs o ho]
  have hfil : s.orders.filter (fun order => order.ID ≠ id) = s.orders :=
    List.filter_eq_self.mpr (fun o ho => by simpa using habs o ho)
  unfold DeleteOrderByID
  simp only [hread, hany, hfil]
  simp

theorem DeleteOrderByID_open {Q : Type} (env : Env) (s : Store Q) (order : Order)
    (hread : env.readOrders = none) (hsave : env.saveOrders = none)
    (hnd : (s.orders.map (fun order => order.ID)).Nodup)
    (hmem : order ∈ s.orders) (hopen : order.Status = "open") :
    DeleteOrderByID env s order.ID =
      (none, { s with orders := s.orders.filter (fun o => o.ID ≠ order.ID) }) := by
  have hany : (s.orders.any (fun o => o.ID = order.ID ∧ o.Status = "closed")) = false := by
    rw [List.any_eq_false]
    intro o ho
    have : o.ID = order.ID → o.Status ≠ "closed" := by
      intro hid
      rw [eq_of_nodup_ids s.orders hnd o order ho hmem hid, hopen]
      decide
    simpa using this
  have hlen : (s.orders.filter (fun o => o.ID ≠ order.ID)).length ≠ s.orders.length := by
    intro h
    have := List.filter_eq_self.mp ((List.filter_sublist s.orders).eq_of_length h) order hmem
    simp at this
  unfold DeleteOrderByID
  simp only [hread, hsave, hany, hlen]
  simp

theorem buildMenuItemMap_eq_find? {Q : Type} (menu : List (MenuItem Q))
    (hnd : (menu.map (fun menuItem => menuItem.ID)).Nodup) (k : String) :
    buildMenuItemMap menu k = menu.find? (fun menuItem => menuItem.ID = k) := by
  cases hf : menu.find? (fun menuItem => menuItem.ID = k) with
  | none =>
    rw [buildMenuItemMap_none]
    intro mi hmi hid
    have := List.find?_eq_none.mp hf mi hmi
    simp [hid] at this
  | some mi =>
    have hmem : mi ∈ menu := List.mem_of_find?_eq_some hf
    have hid : mi.ID = k := by simpa using List.find?_some hf
    obtain ⟨mi', hmi'⟩ := (buildMenuItemMap_isSome menu k).mpr ⟨mi, hmem, hid⟩
    obtain ⟨hmem', hid'⟩ := buildMenuItemMap_some menu k mi' hmi'
    rw [hmi', List.inj_on_of_nodup_map hnd hmem' hmem (hid'.trans hid.symm)]

/-- What one line adds to the total for the given price lookup. -/
theorem addLineSales_eq {Q : Type} [LinearOrderedCommRing Q]
    (menuItemMap : String → Option (MenuItem Q)) (lines : List OrderItem) (total : Q) :
    addLineSales menuItemMap total lines =
      total + (lines.map (fun line =>
        match menuItemMap line.ProductID with
        | some menuItem => (line.Quantity : Q) * menuItem.Price
        | none => 0)).sum := by
  induction lines generalizing total with
  | nil => simp [addLineSales]
  | cons line rest ih =>
    cases h : menuItemMap line.ProductID with
    | none => simp only [addLineSales, h, ih, List.map_cons, List.sum_cons]; ring
    | some mi => simp only [addLineSales, h, ih, List.map_cons, List.sum_cons]; ring

theorem addOrderSales_eq {Q : Type} [LinearOrderedCommRing Q]
    (menuItemMap : String → Option (MenuItem Q)) (orders : List Order) (total : Q) :
    addOrderSales menuItemMap total orders =
      total + ((orders.flatMap (fun order => order.Items)).map (fun line =>
        match menuItemMap line.ProductID with
        | some menuItem => (line.Quantity : Q) * menuItem.Price
        | none => 0)).sum := by
  induction orders generalizing total with
  | nil => simp [addOrderSales]
  | cons order rest ih =>
    simp only [addOrderSales, ih, addLineSales_eq, List.flatMap_cons, List.map_append,
      List.sum_append]
    ring

theorem closedLines_eq_nil (orders : List Order)
    (h : ∀ order ∈ orders, order.Status ≠ "closed") : closedLines orders = [] := by
  have : orders.filter (fun order => order.Status = "closed") = [] :=
    List.filter_eq_nil_iff.mpr (fun o ho => by simpa using h o ho)
  simp [closedLines, this]

theorem TotalSalesAmount_eq {Q : Type} [LinearOrderedCommRing Q] (env : Env) (s : Store Q)
    (hro : env.readOrders = none) (hrm : env.readMenu = none)
    (hnd : (s.menu.map (fun menuItem => menuItem.ID)).Nodup) :
    TotalSalesAmount env s = (totalSalesSpec s.menu s.orders, none) := by
  unfold TotalSalesAmount ReadClosedOrders
  simp only [hro, hrm, addOrderSales_eq, zero_add, totalSalesSpec, closedLines]
  congr 2
  apply List.map_congr_left
  intro line _
  rw [buildMenuItemMap_eq_find? s.menu hnd]

/-! ## The frequency map and the search for the highest frequency -/

theorem countLines_getD (lines : List OrderItem) (f : String → Option Nat) (k : String) :
    ((countLines f lines) k).getD 0 =
      (f k).getD 0 + lines.countP (fun line => line.ProductID = k) := by
  induction lines generalizing f with
  | nil => simp [countLines]
  | cons line rest ih =>
    rw [countLines, ih, List.countP_cons]
    by_cases h : k = line.ProductID
    · subst h
      simp
      omega
    · have h' : ¬ line.ProductID = k := fun e => h e.symm
      simp [h, h']

theorem countOrders_getD (orders : List Order) (f : String → Option Nat) (k : String) :
    ((countOrders f orders) k).getD 0 =
      (f k).getD 0 +
        (orders.flatMap (fun order => order.Items)).countP (fun line => line.ProductID = k) := by
  induction orders generalizing f with
  | nil => simp [countOrders]
  | cons order rest ih =>
    rw [countOrders, ih, countLines_getD, List.flatMap_cons, List.countP_append]
    omega

theorem productFrequency_eq (orders : List Order) (k : String) :
    ((countOrders (fun _ => none)
      (orders.filter (fun order => order.Status = "closed"))) k).getD 0 = occurrences orders k := by
  rw [countOrders_getD]
  simp [occurrences, closedLines]

theorem findHighest_of_le (pf : String → Option Nat) (keys : List String) (b0 : String)
    (h0 : Nat) (h : ∀ k ∈ keys, (pf k).getD 0 ≤ h0) :
    findHighest pf keys (b0, h0) = (b0, h0) := by
  induction keys with
  | nil => rfl
  | cons k rest ih =>
    have hk : ¬ (pf k).getD 0 > h0 := Nat.not_lt.mpr (h k (List.mem_cons_self _ _))
    simp only [findHighest, hk, if_false]
    exact ih (fun k' hk' => h k' (List.mem_cons_of_mem _ hk'))

theorem findHighest_spec (pf : String → Option Nat) (keys : List String) :
    ∀ (b0 : String) (h0 : Nat),
      (findHighest pf keys (b0, h0) = (b0, h0) ∧ ∀ k ∈ keys, (pf k).getD 0 ≤ h0) ∨
      ∃ pre b post, keys = pre ++ b :: post ∧
        findHighest pf keys (b0, h0) = (b, (pf b).getD 0) ∧ h0 < (pf b).getD 0 ∧
        (∀ k ∈ pre, (pf k).getD 0 < (pf b).getD 0) ∧
        ∀ k ∈ post, (pf k).getD 0 ≤ (pf b).getD 0 := by
  induction keys with
  | nil => intro b0 h0; exact Or.inl ⟨rfl, by simp⟩
  | cons k rest ih =>
    intro b0 h0
    by_cases hk : (pf k).getD 0 > h0
    · simp only [findHighest, hk, if_true]
      rcases ih k ((pf k).getD 0) with ⟨heq, hle⟩ | ⟨pre, b, post, hsplit, heq, hlt, hpre, hpost⟩
      · exact Or.inr ⟨[], k, rest, rfl, heq, hk, by simp, hle⟩
      · refine Or.inr ⟨k :: pre, b, post, by rw [hsplit]; rfl, heq, lt_trans hk hlt, ?_, hpost⟩
        intro k' hk'
        rcases List.mem_cons.mp hk' with rfl | hk'
        · exact hlt
        · exact hpre k' hk'
    · simp only [findHighest, hk, if_false]
      rcases ih b0 h0 with ⟨heq, hle⟩ | ⟨pre, b, post, hsplit, heq, hlt, hpre, hpost⟩
      · refine Or.inl ⟨heq, ?_⟩
        intro k' hk'
        rcases List.mem_cons.mp hk' with rfl | hk'
        · exact Nat.not_lt.mp hk
        · exact hle k' hk'
      · refine Or.inr ⟨k :: pre, b, post, by rw [hsplit]; rfl, heq, hlt, ?_, hpost⟩
        intro k' hk'
        rcases List.mem_cons.mp hk' with rfl | hk'
        · exact lt_of_le_of_lt (Nat.not_lt.mp hk) hlt
        · exact hpre k' hk'

theorem closedLines_eq_nil_iff (orders : List Order) :
    closedLines orders = [] ↔
      ∀ order ∈ orders, order.Status = "closed" → order.Items = [] := by
  simp [closedLines, List.flatMap_eq_nil_iff]

theorem occurrences_pos_iff (orders : List Order) (k : String) :
    0 < occurrences orders k ↔ ∃ line ∈ closedLines orders, line.ProductID = k := by
  simp [occurrences, List.countP_pos_iff]

/-- The service in terms of the product ID chosen by the loop. -/
theorem GetMostPopularItem_of_chosen {Q : Type} [Zero Q] (env : Env) (s : Store Q)
    (iteration : List String) (b : String) (h : Nat)
    (hro : env.readOrders = none) (hrm : env.readMenu = none)
    (hchosen : findHighest (countOrders (fun _ => none)
      (s.orders.filter (fun order => order.Status = "closed"))) iteration ("", 0) = (b, h)) :
    GetMostPopularItem env s iteration =
      if b ≠ "" then ((s.menu.find? (fun menuItem => menuItem.ID = b)).getD default, none)
      else (default, none) := by
  unfold GetMostPopularItem ReadClosedOrders
  simp only [hro, hrm, hchosen]
  by_cases hb : b = ""
  · simp [hb]
  · simp only [hb, ne_eq, not_false_eq_true, if_true]
    cases s.menu.find? (fun menuItem => menuItem.ID = b) <;> rfl

/-- With at least one closed line, the loop settles on the first enumerated key
among those with the highest number of occurrences. -/
theorem findHighest_chosen (orders : List Order) (iteration : List String)
    (hiter : EnumeratesProducts orders iteration) (hne : closedLines orders ≠ []) :
    ∃ pre b post, iteration = pre ++ b :: post ∧
      findHighest (countOrders (fun _ => none)
        (orders.filter (fun order => order.Status = "closed"))) iteration ("", 0) =
          (b, occurrences orders b) ∧
      0 < occurrences orders b ∧
      (∀ k ∈ pre, occurrences orders k < occurrences orders b) ∧
      ∀ k, occurrences orders k ≤ occurrences orders b := by
  obtain ⟨_, hpos, hall⟩ := hiter
  rcases findHighest_spec (countOrders (fun _ => none)
      (orders.filter (fun order => order.Status = "closed"))) iteration "" 0 with
    ⟨_, hle⟩ | ⟨pre, b, post, hsplit, heq, hlt, hpre, hpost⟩
  · exfalso
    obtain ⟨line, rest, hl⟩ := List.exists_cons_of_ne_nil hne
    have hmem : line ∈ closedLines orders := by rw [hl]; exact List.mem_cons_self _ _
    have h1 := hle _ (hall line hmem)
    rw [productFrequency_eq] at h1
    have h2 := (occurrences_pos_iff orders line.ProductID).mpr ⟨line, hmem, rfl⟩
    omega
  · simp only [productFrequency_eq] at heq hlt hpre hpost
    refine ⟨pre, b, post, hsplit, heq, hlt, hpre, ?_⟩
    intro k
    by_cases hk : 0 < occurrences orders k
    · obtain ⟨line, hmem, hid⟩ := (occurrences_pos_iff orders k).mp hk
      have hin : k ∈ iteration := hid ▸ hall line hmem
      rw [hsplit] at hin
      rcases List.mem_append.mp hin with hp | hp
      · exact le_of_lt (hpre k hp)
      · rcases List.mem_cons.mp hp with rfl | hp
        · exact le_refl _
        · exact hpost k hp
    · omega

/-! ## RandomInt and the daily item -/

theorem wrapInt64_of_range (x : Int) (hlo : -2 ^ 63 ≤ x) (hhi : x < 2 ^ 63) :
    wrapInt64 x = x := by
  unfold wrapInt64
  rw [Int.emod_eq_of_lt (by omega) (by omega)]
  omega

theorem RandomInt_range (r : Nat) (min max : Int) (hle : min ≤ max) (hmin : -2 ^ 63 ≤ min)
    (hmax : max < 2 ^ 63) (hsize : max - min + 1 < 2 ^ 63) :
    RandomInt r min max = some ((r : Int) % (max - min + 1) + min) ∧
      min ≤ (r : Int) % (max - min + 1) + min ∧ (r : Int) % (max - min + 1) + min ≤ max := by
  have hpos : 0 < max - min + 1 := by omega
  have h0 := Int.emod_nonneg (r : Int) (ne_of_gt hpos)
  have h1 := Int.emod_lt_of_pos (r : Int) hpos
  have hw1 : wrapInt64 (max - min) = max - min := wrapInt64_of_range _ (by omega) (by omega)
  have hw2 : wrapInt64 (max - min + 1) = max - min + 1 :=
    wrapInt64_of_range _ (by omega) (by omega)
  have hw3 : wrapInt64 ((r : Int) % (max - min + 1) + min) = (r : Int) % (max - min + 1) + min :=
    wrapInt64_of_range _ (by omega) (by omega)
  refine ⟨?_, by omega, by omega⟩
  unfold RandomInt Intn
  rw [hw1, hw2, if_neg (by omega)]
  simp only [hw3]

theorem RandomInt_wide (r : Nat) (min max : Int) (hmin : -2 ^ 63 ≤ min) (hmax : max < 2 ^ 63)
    (hwide : 2 ^ 63 ≤ max - min + 1) : RandomInt r min max = none := by
  have h : wrapInt64 (wrapInt64 (max - min) + 1) ≤ 0 := by
    unfold wrapInt64
    omega
  unfold RandomInt Intn
  rw [if_pos h]

theorem GetDailyItem_nonempty {Q : Type} [Zero Q] (env : Env) (s : Store Q) (r : Nat)
    (hread : env.readMenu = none) (hlen : (s.menu.length : Int) < 2 ^ 63)
    (hne : s.menu ≠ []) :
    ∃ (i : Nat) (menuItem : MenuItem Q),
      RandomInt r 0 ((s.menu.length : Int) - 1) = some (i : Int) ∧ i < s.menu.length ∧
      s.menu[i]? = some menuItem ∧ GetDailyItem env s r = (menuItem, none) := by
  have hpos : 0 < s.menu.length := List.length_pos.mpr hne
  obtain ⟨hr, hlo, hhi⟩ := RandomInt_range r 0 ((s.menu.length : Int) - 1) (by omega)
    (by omega) (by omega) (by omega)
  have hi : (((r : Int) % ((s.menu.length : Int) - 1 - 0 + 1) + 0).toNat : Int) =
      (r : Int) % ((s.menu.length : Int) - 1 - 0 + 1) + 0 := Int.toNat_of_nonneg hlo
  have hlt : ((r : Int) % ((s.menu.length : Int) - 1 - 0 + 1) + 0).toNat < s.menu.length := by
    omega
  refine ⟨((r : Int) % ((s.menu.length : Int) - 1 - 0 + 1) + 0).toNat, s.menu[_], ?_, hlt,
    List.getElem?_eq_getElem hlt, ?_⟩
  · rw [hr, hi]
  · unfold GetDailyItem
    rw [hr]
    simp only [hread, if_neg (Nat.pos_iff_ne_zero.mp hpos)]
    rw [if_pos ⟨hlo, by omega⟩, List.getD_eq_getElem _ _ hlt]

/-! ## The first failed check of the loop -/

theorem deductIngredients_error_cases {Q : Type} [LinearOrderedCommRing Q]
    (m : String → Option Nat) (q : Int) (ings : List (MenuItemIngredient Q)) :
    ∀ (inv : List (InventoryItem Q)) (e : String), deductIngredients m q ings inv = .error e →
      ∃ before ingredient after inv2, ings = before ++ ingredient :: after ∧
        deductIngredients m q before inv = .ok inv2 ∧
        ((m ingredient.IngredientID = none ∧
            e = "ingredient not found in inventory: " ++ ingredient.IngredientID) ∨
          ∃ i, m ingredient.IngredientID = some i ∧
            (inv2.getD i default).Quantity < ingredient.Quantity * (q : Q) ∧
            e = "insufficient inventory for ingredient: " ++ ingredient.IngredientID) := by
  induction ings with
  | nil => intro inv e h; simp [deductIngredients] at h
  | cons ing rest ih =>
    intro inv e h
    cases hm : m ing.IngredientID with
    | none =>
      simp only [deductIngredients, hm, Except.error.injEq] at h
      exact ⟨[], ing, rest, inv, rfl, rfl, Or.inl ⟨hm, h.symm⟩⟩
    | some i =>
      by_cases hlt : (inv.getD i default).Quantity < ing.Quantity * (q : Q)
      · simp only [deductIngredients, hm, hlt, if_true, Except.error.injEq] at h
        exact ⟨[], ing, rest, inv, rfl, rfl, Or.inr ⟨i, hm, hlt, h.symm⟩⟩
      · simp only [deductIngredients, hm, hlt, if_false] at h
        obtain ⟨before, bad, after, inv2, hsplit, hbefore, hcase⟩ := ih _ e h
        refine ⟨ing :: before, bad, after, inv2, by rw [hsplit]; rfl, ?_, hcase⟩
        simp only [deductIngredients, hm, hlt, if_false]
        exact hbefore

theorem processOrderItems_error_cases {Q : Type} [LinearOrderedCommRing Q]
    (mm : String → Option (MenuItem Q)) (m : String → Option Nat) (items : List OrderItem) :
    ∀ (inv : List (InventoryItem Q)) (e : String), processOrderItems mm m items inv = .error e →
      FirstFailedCheck mm m items inv e := by
  induction items with
  | nil => intro inv e h; simp [processOrderItems] at h
  | cons line rest ih =>
    intro inv e h
    cases hmm : mm line.ProductID with
    | none =>
      simp only [processOrderItems, hmm, Except.error.injEq] at h
      exact ⟨[], line, rest, inv, rfl, rfl, Or.inl ⟨hmm, h.symm⟩⟩
    | some mi =>
      cases hd : deductIngredients m line.Quantity mi.Ingredients inv with
      | error e' =>
        simp only [processOrderItems, hmm, hd, Except.error.injEq] at h
        subst h
        obtain ⟨before, ing, after, inv2, hsplit, hbefore, hcase⟩ :=
          deductIngredients_error_cases m line.Quantity mi.Ingredients inv e' hd
        exact ⟨[], line, rest, inv, rfl, rfl,
          Or.inr ⟨mi, before, ing, after, inv2, hmm, hsplit, hbefore, hcase⟩⟩
      | ok inv' =>
        simp only [processOrderItems, hmm, hd] at h
        obtain ⟨pre, bad, post, inv1, hsplit, hpre, hcase⟩ := ih inv' e h
        refine ⟨line :: pre, bad, post, inv1, by rw [hsplit]; rfl, ?_, hcase⟩
        simp only [processOrderItems, hmm, hd]
        exact hpre

theorem CloseOrder_loop_error {Q : Type} [LinearOrderedCommRing Q] (env : Env) (s : Store Q)
    (orderID : String) (order : Order) (e : String)
    (hro : env.readOrders = none) (hrm : env.readMenu = none) (hri : env.readInventory = none)
    (horder : findOrder orderID s.orders = some order) (hopen : order.Status ≠ "closed")
    (hproc : processOrderItems (buildMenuItemMap s.menu) (buildInventoryMap s.inventory)
      order.Items s.inventory = .error e) :
    CloseOrder env s orderID = (some e, s) := by
  obtain ⟨i, hfind, hget⟩ := (findOrder_eq_some _ _ _).mp horder
  rw [← hget] at hopen hproc
  unfold CloseOrder
  simp only [hro, hfind, hopen, hrm, hri, hproc, if_false]

/-! # The claims -/

/-- C1 (amended). In exact arithmetic (quantities in an ordered ring, without the
rounding of float64): closing an order whose aggregated demand for some
ingredient exceeds the available quantity of that ingredient returns an error and
writes nothing: the persisted orders, inventory and menu are what they were, and
the order is still stored with status open. The ingredient is one the order
demands, or one whose stock is not negative. -/
theorem closeOrder_insufficient_stock_writes_nothing {Q : Type} [LinearOrderedCommRing Q]
    (env : Env) (s : Store Q)
    (orderID : String) (order : Order) (g : String) (a : Q)
    (horder : findOrder orderID s.orders = some order)
    (hopen : order.Status = "open")
    (havail : available s.inventory g = some a)
    (hdem : Demands s.menu order g ∨ 0 ≤ a)
    (hlt : a < aggregatedDemand s.menu order g) :
    (CloseOrder env s orderID).1 ≠ none ∧ (CloseOrder env s orderID).2 = s ∧
      ∃ stored, findOrder orderID (CloseOrder env s orderID).2.orders = some stored ∧
        stored.Status = "open" := by
  obtain ⟨i, hfind, hget⟩ := (findOrder_eq_some _ _ _).mp horder
  have hfail : ∀ inv', processOrderItems (buildMenuItemMap s.menu)
      (buildInventoryMap s.inventory) (s.orders.getD i default).Items s.inventory ≠ .ok inv' := by
    intro inv' hproc
    rw [hget] at hproc
    exact absurd (processOrderItems_demand_le s.menu s.inventory inv' order g a hproc havail hdem)
      (not_le.mpr hlt)
  have herr : (CloseOrder env s orderID).1 ≠ none := by
    intro hnone
    obtain ⟨i', inv', _, _, _, _, _, hfind', _, hproc, _⟩ :=
      CloseOrder_success env s (CloseOrder env s orderID).2 orderID (Prod.ext hnone rfl)
    rw [hfind] at hfind'
    cases hfind'
    exact hfail inv' hproc
  have hsame : (CloseOrder env s orderID).2 = s := by
    rcases CloseOrder_error env s orderID herr with h | ⟨e, i', inv', hfind', hproc, _⟩
    · exact h
    · rw [hfind] at hfind'
      cases hfind'
      exact absurd hproc (hfail inv')
  exact ⟨herr, hsame, order, by rw [hsame]; exact horder, hopen⟩
/-- C2. After a successful close, with unique ingredient IDs in the inventory,
the persisted inventory is the previous one with every record's quantity lowered
by the aggregated demand for its ingredient; ID, name and unit are untouched, and
a record whose ingredient the order does not demand is unchanged. -/
theorem closeOrder_deducts_aggregated_demand {Q : Type} [LinearOrderedCommRing Q]
    (env : Env) (s s' : Store Q) (orderID : String)
    (hok : CloseOrder env s orderID = (none, s'))
    (hnd : (s.inventory.map (fun item => item.IngredientID)).Nodup) :
    ∃ order, findOrder orderID s.orders = some order ∧
      s'.inventory = s.inventory.map (fun item =>
        { item with
          Quantity := item.Quantity - aggregatedDemand s.menu order item.IngredientID }) ∧
      (∀ (j : Nat) (item : InventoryItem Q), s.inventory[j]? = some item →
        ¬ Demands s.menu order item.IngredientID →
        s'.inventory[j]? = some item) ∧
      s'.menu = s.menu := by
  obtain ⟨i, inv', _, _, _, _, _, hfind, _, hproc, rfl⟩ :=
    CloseOrder_success env s s' orderID hok
  have hmap : inv' = s.inventory.map (fun item =>
      { item with Quantity := item.Quantity -
        aggregatedDemand s.menu (s.orders.getD i default) item.IngredientID }) := by
    apply List.ext_getElem?
    intro j
    rw [processOrderItems_getElem? _ _ _ _ _ hproc j, List.getElem?_map]
    by_cases hj : j < s.inventory.length
    · rw [List.getElem?_eq_getElem hj]
      simp only [Option.map_some', Option.some.injEq, deduct]
      rw [orderDemandAt_eq s.menu s.inventory _ _ j (buildInventoryMap_nodup s.inventory hnd j hj)]
    · rw [List.getElem?_eq_none (Nat.le_of_not_lt hj)]
      rfl
  refine ⟨s.orders.getD i default, (findOrder_eq_some _ _ _).mpr ⟨i, hfind, rfl⟩, hmap, ?_,
    rfl⟩
  intro j item hitem hnot
  simp only
  rw [hmap, List.getElem?_map, hitem]
  simp only [Option.map_some', Option.some.injEq]
  rw [aggregatedDemand_eq_zero s.menu _ _ hnot]
  cases item
  simp

/-- C3. For an open order whose products are all on the menu and whose demanded
ingredients are all in the inventory, with non-negative ordered and per-unit
quantities and no persistence failure, the line-by-line check-and-deduct loop
accepts exactly when the aggregated demand fits: CloseOrder succeeds if and only
if, for every ingredient the order demands, the demand summed over all lines is
at most the available quantity; when no stock is negative, if and only if this
holds for every ingredient of the inventory. -/
theorem closeOrder_succeeds_iff_aggregate_fits {Q : Type} [LinearOrderedCommRing Q]
    (env : Env) (s : Store Q) (orderID : String)
    (order : Order)
    (hio : env.readOrders = none ∧ env.readMenu = none ∧ env.readInventory = none ∧
      env.saveInventory = none ∧ env.saveOrders = none)
    (horder : findOrder orderID s.orders = some order)
    (hopen : order.Status = "open")
    (hprod : ∀ line ∈ order.Items, ∃ menuItem ∈ s.menu, menuItem.ID = line.ProductID)
    (hing : ∀ g, Demands s.menu order g → ∃ item ∈ s.inventory, item.IngredientID = g)
    (hqty : ∀ line ∈ order.Items, 0 ≤ line.Quantity)
    (hunit : ∀ line ∈ order.Items, ∀ menuItem,
      buildMenuItemMap s.menu line.ProductID = some menuItem →
        ∀ ingredient ∈ menuItem.Ingredients, 0 ≤ ingredient.Quantity) :
    ((CloseOrder env s orderID).1 = none ↔
      ∀ g a, Demands s.menu order g → available s.inventory g = some a →
        aggregatedDemand s.menu order g ≤ a) ∧
    ((∀ item ∈ s.inventory, 0 ≤ item.Quantity) →
      ((CloseOrder env s orderID).1 = none ↔
        ∀ g a, available s.inventory g = some a → aggregatedDemand s.menu order g ≤ a)) := by
  obtain ⟨hro, hrm, hri, hsi, hso⟩ := hio
  obtain ⟨i, hfind, hget⟩ := (findOrder_eq_some _ _ _).mp horder
  have hnotclosed : (s.orders.getD i default).Status ≠ "closed" := by
    rw [hget, hopen]; decide
  have hnecessary : (CloseOrder env s orderID).1 = none → ∀ g a,
      available s.inventory g = some a → (Demands s.menu order g ∨ 0 ≤ a) →
        aggregatedDemand s.menu order g ≤ a := by
    intro hnone g a havail hdem
    obtain ⟨i', inv', _, _, _, _, _, hfind', _, hproc, _⟩ :=
      CloseOrder_success env s (CloseOrder env s orderID).2 orderID (Prod.ext hnone rfl)
    rw [hfind] at hfind'
    cases hfind'
    rw [hget] at hproc
    exact processOrderItems_demand_le s.menu s.inventory inv' order g a hproc havail hdem
  have hsufficient : (∀ g a, Demands s.menu order g → available s.inventory g = some a →
      aggregatedDemand s.menu order g ≤ a) → (CloseOrder env s orderID).1 = none := by
    intro hfit
    obtain ⟨inv', hproc⟩ := processOrderItems_sufficient (buildMenuItemMap s.menu)
      (buildInventoryMap s.inventory) order.Items s.inventory
      (fun line hline => (buildMenuItemMap_isSome s.menu _).mpr (hprod line hline))
      (by
        intro line hline mi hmi ing hingmem
        obtain ⟨item, hitem, hid⟩ :=
          hing ing.IngredientID ⟨line, hline, mi, hmi, ing, hingmem, rfl⟩
        obtain ⟨j, hj⟩ := buildInventoryMap_of_mem s.inventory item hitem
        rw [hid] at hj
        exact ⟨j, hj, (buildInventoryMap_some _ _ _ hj).1⟩)
      (fun line hline mi hmi ing hingmem =>
        mul_nonneg (hunit line hline mi hmi ing hingmem) (Int.cast_nonneg.mpr (hqty line hline)))
      (by
        intro j item htouch hitem
        obtain ⟨line, hline, mi, hmi, ing, hingmem, hj⟩ := htouch
        have hdem : Demands s.menu order ing.IngredientID :=
          ⟨line, hline, mi, hmi, ing, hingmem, rfl⟩
        rw [orderDemandAt_eq s.menu s.inventory order _ j hj]
        apply hfit _ _ hdem
        unfold available
        rw [hj]
        simp only [Option.map_some', Option.some.injEq]
        rw [List.getD_eq_getElem?_getD, hitem]
        rfl)
    rw [← hget] at hproc
    rw [CloseOrder_of_ok env s orderID i inv' hro hrm hri hsi hso hfind hnotclosed hproc]
  refine ⟨⟨fun hnone g a hdem havail => hnecessary hnone g a havail (Or.inl hdem), hsufficient⟩,
    fun hnn => ⟨fun hnone g a havail => ?_, fun hfit => hsufficient (fun g a _ => hfit g a)⟩⟩
  obtain ⟨item, hitem, _, hq⟩ := available_mem s.inventory g a havail
  exact hnecessary hnone g a havail (Or.inr (hq ▸ hnn item hitem))

/-- C4. After a successful close the persisted order collection is the previous
one with the target order (the first order carrying the ID) replaced by the same
order with status closed and the timestamp re-stamped: its ID, customer name and
items are unchanged, every other position is unchanged, and the length is
preserved. -/
theorem closeOrder_order_frame {Q : Type} [LinearOrderedCommRing Q]
    (env : Env) (s s' : Store Q) (orderID : String)
    (hok : CloseOrder env s orderID = (none, s')) :
    ∃ (i : Nat) (order : Order),
      findOrder orderID s.orders = some order ∧ s.orders[i]? = some order ∧
      order.ID = orderID ∧
      s'.orders.length = s.orders.length ∧
      s'.orders[i]? = some { order with Status := "closed", CreatedAt := env.now } ∧
      ∀ j, j ≠ i → s'.orders[j]? = s.orders[j]? := by
  obtain ⟨i, inv', _, _, _, _, _, hfind, _, _, rfl⟩ := CloseOrder_success env s s' orderID hok
  obtain ⟨hi, hid, _⟩ := findOrderIndex_some orderID s.orders i hfind
  refine ⟨i, s.orders[i], ?_, List.getElem?_eq_getElem hi, hid, ?_, ?_, ?_⟩
  · exact (findOrder_eq_some _ _ _).mpr ⟨i, hfind, List.getD_eq_getElem _ _ hi⟩
  · simp only [List.length_set]
  · simp only [List.getElem?_set, if_pos hi, if_true, List.getD_eq_getElem _ _ hi, closedAt]
  · intro j hj
    simp only
    rw [List.getElem?_set_ne (Ne.symm hj)]

/-- C5. After a successful close, closing the same order again (whatever the
environment, as long as the orders can be read) fails with the error
"order is already closed" and leaves the persisted collections as they are. -/
theorem closeOrder_twice_fails {Q : Type} [LinearOrderedCommRing Q]
    (env env2 : Env) (s s' : Store Q) (orderID : String)
    (hok : CloseOrder env s orderID = (none, s')) (hread : env2.readOrders = none) :
    CloseOrder env2 s' orderID = (some "order is already closed", s') := by
  obtain ⟨i, inv', _, _, _, _, _, hfind, _, _, rfl⟩ := CloseOrder_success env s s' orderID hok
  obtain ⟨hi, hid, _⟩ := findOrderIndex_some orderID s.orders i hfind
  have hfind2 : findOrderIndex orderID
      (s.orders.set i (closedAt env.now (s.orders.getD i default))) = some i :=
    findOrderIndex_set orderID s.orders i _ hfind (by
      rw [List.getD_eq_getElem _ _ hi]; exact hid)
  have hget : (s.orders.set i (closedAt env.now (s.orders.getD i default))).getD i default =
      closedAt env.now (s.orders.getD i default) := by
    rw [List.getD_eq_getElem?_getD, List.getElem?_set, if_pos rfl, if_pos hi]
    rfl
  have hst : (closedAt env.now (s.orders.getD i default)).Status = "closed" := rfl
  unfold CloseOrder
  simp only [hread, hfind2, hget, hst, if_true]

/-- C6. With unique order IDs, when the order stored under the ID is closed, both
UpdateOrderByID (for every payload) and DeleteOrderByID return an error and leave
the store unchanged. -/
theorem closed_order_immutable {Q : Type} (env : Env) (s : Store Q) (id : String)
    (order p : Order)
    (hnd : (s.orders.map (fun order => order.ID)).Nodup)
    (hmem : order ∈ s.orders) (hid : order.ID = id) (hclosed : order.Status = "closed") :
    ((UpdateOrderByID env s id p).1 ≠ none ∧ (UpdateOrderByID env s id p).2 = s) ∧
      ((DeleteOrderByID env s id).1 ≠ none ∧ (DeleteOrderByID env s id).2 = s) := by
  constructor
  · unfold UpdateOrderByID
    cases ValidateUpdatedOrder p with
    | some e => simp
    | none =>
      cases env.readOrders with
      | some e => simp
      | none =>
        cases hfind : findOrderIndex id s.orders with
        | none => simp
        | some i =>
          obtain ⟨hi, hid', _⟩ := findOrderIndex_some id s.orders i hfind
          have heq : s.orders[i] = order :=
            eq_of_nodup_ids s.orders hnd _ _ (List.getElem_mem _) hmem (hid'.trans hid.symm)
          have hst : (s.orders.getD i default).Status = "closed" := by
            rw [List.getD_eq_getElem _ _ hi, heq, hclosed]
          simp only [hst, if_true]
          simp
  · unfold DeleteOrderByID
    cases env.readOrders with
    | some e => simp
    | none =>
      have hany : (s.orders.any (fun order => order.ID = id ∧ order.Status = "closed")) = true := by
        rw [List.any_eq_true]
        exact ⟨order, hmem, by simp [hid, hclosed]⟩
      simp only [hany, if_true]
      simp

/-- C7 (amended). CreateOrder and DeleteOrderByID never change a stored order:
after a successful call every order found under an ID before the call (for a
deletion: under another ID than the deleted one) is found unchanged, so an open
order stays open. A successful UpdateOrderByID replaces the first record carrying
the ID, which was not closed, by the payload in full and leaves every other
position and the inventory untouched; validation admits the payload statuses
"open" and "closed", so the stored order is closed afterwards exactly when the
payload says so. -/
theorem only_update_can_change_a_stored_status {Q : Type} (env : Env) (s : Store Q) :
    (∀ input s', CreateOrder env s input = (none, s') →
      s'.inventory = s.inventory ∧
      ∀ k order, findOrder k s.orders = some order → findOrder k s'.orders = some order) ∧
    (∀ id s', DeleteOrderByID env s id = (none, s') →
      s'.inventory = s.inventory ∧ findOrder id s'.orders = none ∧
      ∀ k order, k ≠ id → findOrder k s.orders = some order →
        findOrder k s'.orders = some order) ∧
    (∀ id p s', UpdateOrderByID env s id p = (none, s') →
      s'.inventory = s.inventory ∧ (p.Status = "open" ∨ p.Status = "closed") ∧
      ∃ i old, findOrderIndex id s.orders = some i ∧ s.orders[i]? = some old ∧
        old.Status ≠ "closed" ∧ s'.orders = s.orders.set i p ∧ s'.orders[i]? = some p ∧
        ∀ j, j ≠ i → s'.orders[j]? = s.orders[j]?) := by
  refine ⟨?_, ?_, ?_⟩
  · intro input s' h
    unfold CreateOrder at h
    cases hro : env.readOrders with
    | some e => simp [hro] at h
    | none =>
      simp only [hro] at h
      split at h
      · simp at h
      · split at h
        · simp at h
        · split at h
          · simp at h
          · simp only [Prod.mk.injEq, true_and] at h
            subst h
            exact ⟨rfl, fun k order hk => findOrder_append_of_some k _ _ order hk⟩
  · intro id s' h
    unfold DeleteOrderByID at h
    cases hro : env.readOrders with
    | some e => simp [hro] at h
    | none =>
      simp only [hro] at h
      split at h
      · simp at h
      · split at h
        · simp at h
        · split at h
          · simp at h
          · simp only [Prod.mk.injEq, true_and] at h
            subst h
            exact ⟨rfl, findOrder_filter_self id _, fun k order hk hfo => by
              simp only
              rw [findOrder_filter_ne id k _ hk]
              exact hfo⟩
  · intro id p s' h
    unfold UpdateOrderByID at h
    cases hv : ValidateUpdatedOrder p with
    | some e => simp [hv] at h
    | none =>
      cases hro : env.readOrders with
      | some e => simp [hv, hro] at h
      | none =>
        cases hfind : findOrderIndex id s.orders with
        | none => simp [hv, hro, hfind] at h
        | some i =>
          simp only [hv, hro, hfind] at h
          split at h
          · simp at h
          · rename_i hopen
            split at h
            · simp at h
            · simp only [Prod.mk.injEq, true_and] at h
              subst h
              obtain ⟨hi, _, _⟩ := findOrderIndex_some id s.orders i hfind
              rw [List.getD_eq_getElem _ _ hi] at hopen
              refine ⟨rfl, ValidateUpdatedOrder_status p hv, i, s.orders[i], rfl,
                List.getElem?_eq_getElem hi, hopen, rfl, ?_, ?_⟩
              · simp only [List.getElem?_set, if_pos hi, if_true]
              · intro j hj
                simp only
                rw [List.getElem?_set_ne (Ne.symm hj)]

/-- C8 (amended). Whenever CloseOrder returns an error the menu is unchanged, and
both stores are unchanged unless the error is that of a failed save. When every
line passed its checks and the save of the inventory fails, the order collection
is unchanged and the inventory file is as it was if the save failed before the
file was opened, and holds no record if the write failed after the truncation.
When the inventory was saved and the save of the order collection fails, the
inventory holds the quantities the loop deducted, and the orders file holds the
old collection, the order still open, if the save failed before the file was
opened, and no record if the write failed after the truncation. When both saves
work, an error leaves the whole store as it was. -/
theorem closeOrder_error_frame {Q : Type} [LinearOrderedCommRing Q]
    (env : Env) (s : Store Q) (orderID : String)
    (herr : (CloseOrder env s orderID).1 ≠ none) :
    (CloseOrder env s orderID).2.menu = s.menu ∧
    ((CloseOrder env s orderID).2 = s ∨
      ∃ e order inv', findOrder orderID s.orders = some order ∧
        processOrderItems (buildMenuItemMap s.menu) (buildInventoryMap s.inventory)
          order.Items s.inventory = .ok inv' ∧
        (env.saveInventory = some e ∨ (env.saveInventory = none ∧ env.saveOrders = some e))) ∧
    (∀ order inv', env.readOrders = none → env.readMenu = none → env.readInventory = none →
      findOrder orderID s.orders = some order → order.Status ≠ "closed" →
      processOrderItems (buildMenuItemMap s.menu) (buildInventoryMap s.inventory)
        order.Items s.inventory = .ok inv' →
      (∀ e, env.saveInventory = some e →
        CloseOrder env s orderID = (some e, { s with
          inventory := if env.saveInventoryTruncates then [] else s.inventory })) ∧
      (∀ e, env.saveInventory = none → env.saveOrders = some e →
        CloseOrder env s orderID = (some e, { s with
          inventory := inv'
          orders := if env.saveOrdersTruncates then [] else s.orders }))) ∧
    (env.saveInventory = none → env.saveOrders = none → (CloseOrder env s orderID).2 = s) := by
  refine ⟨?_, ?_, ?_, ?_⟩
  · rcases CloseOrder_error env s orderID herr with h | ⟨e, i, inv', _, _, ⟨_, h⟩ | ⟨_, _, h⟩⟩
    · rw [h]
    · rw [h]
    · rw [h]
  · rcases CloseOrder_error env s orderID herr with
      h | ⟨e, i, inv', hfind, hproc, ⟨hsi, _⟩ | ⟨hsi, hso, _⟩⟩
    · exact Or.inl h
    · exact Or.inr ⟨e, s.orders.getD i default, inv',
        (findOrder_eq_some _ _ _).mpr ⟨i, hfind, rfl⟩, hproc, Or.inl hsi⟩
    · exact Or.inr ⟨e, s.orders.getD i default, inv',
        (findOrder_eq_some _ _ _).mpr ⟨i, hfind, rfl⟩, hproc, Or.inr ⟨hsi, hso⟩⟩
  · intro order inv' hro hrm hri horder hopen hproc
    obtain ⟨i, hfind, hget⟩ := (findOrder_eq_some _ _ _).mp horder
    rw [← hget] at hopen hproc
    constructor
    · intro e hsi
      unfold CloseOrder afterFailedSave
      simp only [hro, hfind, hopen, hrm, hri, hproc, hsi, if_false]
    · intro e hsi hso
      unfold CloseOrder afterFailedSave
      simp only [hro, hfind, hopen, hrm, hri, hproc, hsi, hso, if_false]
  · intro hsi hso
    rcases CloseOrder_error env s orderID herr with h | ⟨e, i, inv', _, _, ⟨h, _⟩ | ⟨_, h, _⟩⟩
    · exact h
    · rw [hsi] at h; cases h
    · rw [hso] at h; cases h

/-- C9. If every stored inventory quantity is non-negative, it still is after any
successful AddInventoryItem, UpdateInventoryItem, DeleteInventoryItem or
CloseOrder, whatever the order and the menu contain (non-positive ordered or
per-unit quantities included). -/
theorem inventory_never_negative {Q : Type} [LinearOrderedCommRing Q]
    (env : Env) (s : Store Q)
    (hnn : ∀ item ∈ s.inventory, 0 ≤ item.Quantity) :
    (∀ item s', AddInventoryItem env s item = (none, s') →
      ∀ x ∈ s'.inventory, 0 ≤ x.Quantity) ∧
    (∀ id item s', UpdateInventoryItem env s id item = (none, s') →
      ∀ x ∈ s'.inventory, 0 ≤ x.Quantity) ∧
    (∀ id s', DeleteInventoryItem env s id = (none, s') →
      ∀ x ∈ s'.inventory, 0 ≤ x.Quantity) ∧
    (∀ orderID s', CloseOrder env s orderID = (none, s') →
      ∀ x ∈ s'.inventory, 0 ≤ x.Quantity) := by
  refine ⟨?_, ?_, ?_, ?_⟩
  · intro item s' h
    unfold AddInventoryItem at h
    split at h
    · simp at h
    · split at h
      · simp at h
      · split at h
        · simp at h
        · rename_i hv
          split at h
          · simp at h
          · simp only [Prod.mk.injEq, true_and] at h
            subst h
            intro x hx
            rcases List.mem_append.mp hx with hx | hx
            · exact hnn x hx
            · rw [List.mem_singleton.mp hx]
              exact ValidateUpdatedInventoryItem_nonneg item hv
  · intro id item s' h
    unfold UpdateInventoryItem at h
    split at h
    · simp at h
    · rename_i hv
      split at h
      · simp at h
      · split at h
        · split at h
          · simp at h
          · simp only [Prod.mk.injEq, true_and] at h
            subst h
            intro x hx
            rcases List.mem_or_eq_of_mem_set hx with hx | hx
            · exact hnn x hx
            · rw [hx]
              exact ValidateUpdatedInventoryItem_nonneg item hv
        · simp at h
  · intro id s' h
    unfold DeleteInventoryItem at h
    cases hri : env.readInventory with
    | some e => simp only [hri] at h; simp at h
    | none =>
      by_cases hlen : s.inventory.length = 0
      · simp only [hri, hlen, if_true] at h
        simp at h
      · by_cases hsame : (s.inventory.filter
            (fun item => !EqualFold item.IngredientID id)).length = s.inventory.length
        · simp only [hri, hlen, hsame, if_true, if_false] at h
          simp at h
        · cases hsi : env.saveInventory with
          | some e =>
            simp only [hri, hlen, hsame, hsi, if_false] at h
            simp at h
          | none =>
            simp only [hri, hlen, hsame, hsi, if_false, Prod.mk.injEq, true_and] at h
            subst h
            intro x hx
            exact hnn x (List.mem_of_mem_filter hx)
  · intro orderID s' h
    obtain ⟨i, inv', _, _, _, _, _, _, _, hproc, rfl⟩ := CloseOrder_success env s s' orderID h
    intro x hx
    obtain ⟨j, hj⟩ := List.mem_iff_getElem?.mp hx
    apply processOrderItems_nonneg _ _ _ _ _ hproc j x hj
    right
    have hget := processOrderItems_getElem? _ _ _ _ _ hproc j
    rw [hj] at hget
    cases hold : s.inventory[j]? with
    | none => simp [hold] at hget
    | some old => exact ⟨old, rfl, hnn old (List.mem_iff_getElem?.mpr ⟨j, hold⟩)⟩

/-- C10 (amended). Closing an open order that has a line whose product is not on
the menu returns an error and writes nothing. The error is the product-not-found
error naming that product when the lines before it pass their menu and
ingredient checks. In general (with readable files) the error returned is the
error of the first check of the loop that fails: the product-not-found error of
the first line that names an unknown product, unless a recipe entry of an
earlier line fails first, in which case it is that entry's ingredient-not-found
or insufficient-inventory error. -/
theorem closeOrder_unknown_product {Q : Type} [LinearOrderedCommRing Q]
    (env : Env) (s : Store Q) (orderID : String) (order : Order) (line : OrderItem)
    (horder : findOrder orderID s.orders = some order)
    (hopen : order.Status = "open")
    (hline : line ∈ order.Items)
    (hmissing : ∀ menuItem ∈ s.menu, menuItem.ID ≠ line.ProductID) :
    (CloseOrder env s orderID).1 ≠ none ∧ (CloseOrder env s orderID).2 = s ∧
      (∀ pre post inv1, env.readOrders = none → env.readMenu = none →
        env.readInventory = none → order.Items = pre ++ line :: post →
        processOrderItems (buildMenuItemMap s.menu) (buildInventoryMap s.inventory) pre
          s.inventory = .ok inv1 →
        (CloseOrder env s orderID).1 =
          some ("product not found in menu: " ++ line.ProductID)) ∧
      (env.readOrders = none → env.readMenu = none → env.readInventory = none →
        ∃ e, CloseOrder env s orderID = (some e, s) ∧
          FirstFailedCheck (buildMenuItemMap s.menu) (buildInventoryMap s.inventory)
            order.Items s.inventory e) := by
  obtain ⟨i, hfind, hget⟩ := (findOrder_eq_some _ _ _).mp horder
  have hmm : buildMenuItemMap s.menu line.ProductID = none :=
    (buildMenuItemMap_none s.menu _).mpr hmissing
  obtain ⟨e, he⟩ := processOrderItems_unresolved (buildMenuItemMap s.menu)
    (buildInventoryMap s.inventory) order.Items line hline hmm s.inventory
  have herr : (CloseOrder env s orderID).1 ≠ none := by
    intro hnone
    obtain ⟨i', inv', _, _, _, _, _, hfind', _, hproc, _⟩ :=
      CloseOrder_success env s (CloseOrder env s orderID).2 orderID (Prod.ext hnone rfl)
    rw [hfind] at hfind'
    cases hfind'
    rw [hget, he] at hproc
    cases hproc
  refine ⟨herr, ?_, ?_, ?_⟩
  · rcases CloseOrder_error env s orderID herr with h | ⟨e', i', inv', hfind', hproc, _⟩
    · exact h
    · rw [hfind] at hfind'
      cases hfind'
      rw [hget, he] at hproc
      cases hproc
  rotate_left
  · intro hro hrm hri
    exact ⟨e, CloseOrder_loop_error env s orderID order e hro hrm hri horder
      (by rw [hopen]; decide) he, processOrderItems_error_cases _ _ _ _ e he⟩
  · intro pre post inv1 hro hrm hri hsplit hpre
    have hnotclosed : ¬ (s.orders.getD i default).Status = "closed" := by
      rw [hget, hopen]; decide
    have hfailat : processOrderItems (buildMenuItemMap s.menu) (buildInventoryMap s.inventory)
        (s.orders.getD i default).Items s.inventory =
          .error ("product not found in menu: " ++ line.ProductID) := by
      rw [hget, hsplit, processOrderItems_append _ _ pre (line :: post) _ _ hpre]
      simp only [processOrderItems, hmm]
    unfold CloseOrder
    simp only [hro, hfind, hnotclosed, hrm, hri, hfailat, if_false]

/-- C16. A successful CreateOrder leaves the previous collection with exactly one
order appended at the end, every earlier position unchanged. The appended order
carries the customer name and items of the input, has status "open" when the
input status is empty and the input status otherwise, keeps the creation time of
the input when one is given and gets the clock reading otherwise; inventory and
menu are untouched. -/
theorem createOrder_appends_one_order {Q : Type} (env : Env) (s s' : Store Q) (input : Order)
    (hok : CreateOrder env s input = (none, s')) :
    ∃ stored, s'.orders = s.orders ++ [stored] ∧
      s'.orders.length = s.orders.length + 1 ∧
      (∀ j, j < s.orders.length → s'.orders[j]? = s.orders[j]?) ∧
      stored.CustomerName = input.CustomerName ∧ stored.Items = input.Items ∧
      (input.Status = "" → stored.Status = "open") ∧
      (input.Status ≠ "" → stored.Status = input.Status) ∧
      (input.CreatedAt ≠ "" → stored.CreatedAt = input.CreatedAt) ∧
      (input.CreatedAt = "" → stored.CreatedAt = env.almatyNow) ∧
      s'.inventory = s.inventory ∧ s'.menu = s.menu := by
  obtain ⟨newID, _, _, _, _, rfl⟩ := CreateOrder_success env s s' input hok
  refine ⟨storedOrder env newID input, rfl, by simp, ?_, rfl, rfl, ?_, ?_, ?_, ?_, rfl, rfl⟩
  · intro j hj
    simp only
    rw [List.getElem?_append_left hj]
  · intro h; simp [storedOrder, h]
  · intro h; simp [storedOrder, h]
  · intro h; simp [storedOrder, h]
  · intro h; simp [storedOrder, h]

/-- C18 (amended). When the order stored under the ID is closed, every update is
rejected and nothing is persisted. The payload is validated first: a payload
that passes validation is refused with "order is already closed and cannot be
modified", a payload that fails validation is refused with its validation
error. -/
theorem update_of_closed_order_rejected {Q : Type} (env : Env) (s : Store Q) (id : String)
    (p order : Order) (hro : env.readOrders = none)
    (horder : findOrder id s.orders = some order) (hclosed : order.Status = "closed") :
    (UpdateOrderByID env s id p).1 ≠ none ∧ (UpdateOrderByID env s id p).2 = s ∧
      (ValidateUpdatedOrder p = none → (UpdateOrderByID env s id p).1 =
        some "order is already closed and cannot be modified") ∧
      (∀ e, ValidateUpdatedOrder p = some e → (UpdateOrderByID env s id p).1 = some e) := by
  have hinv : ∀ e, ValidateUpdatedOrder p = some e → (UpdateOrderByID env s id p).1 = some e :=
    fun e he => by rw [UpdateOrderByID_invalid env s id p e he]
  have hval : ValidateUpdatedOrder p = none → (UpdateOrderByID env s id p).1 =
      some "order is already closed and cannot be modified" :=
    fun hv => by rw [UpdateOrderByID_closed env s id p order hv hro horder hclosed]
  have herr : (UpdateOrderByID env s id p).1 ≠ none := by
    cases hv : ValidateUpdatedOrder p with
    | none => rw [hval hv]; simp
    | some e => rw [hinv e hv]; simp
  have hsame : (UpdateOrderByID env s id p).2 = s := by
    cases hv : ValidateUpdatedOrder p with
    | none => rw [UpdateOrderByID_closed env s id p order hv hro horder hclosed]
    | some e => rw [UpdateOrderByID_invalid env s id p e hv]
  exact ⟨herr, hsame, hval, hinv⟩

/-- C19. With unique order IDs, an open order under the ID, a payload that passes
ValidateUpdatedOrder and working persistence, UpdateOrderByID succeeds and the
persisted collection is the previous one with the record at the position of that
order replaced by the payload in full; length and every other position are
unchanged. A payload with an empty customer name, no items, or an item with an
empty product ID or a quantity that is not positive is rejected and nothing is
persisted. -/
theorem update_of_open_order_replaces_record {Q : Type} (env : Env) (s : Store Q)
    (id : String) (p order : Order)
    (hio : env.readOrders = none ∧ env.saveOrders = none)
    (hnd : (s.orders.map (fun order => order.ID)).Nodup)
    (hmem : order ∈ s.orders) (hid : order.ID = id) (hopen : order.Status = "open")
    (hvalid : ValidateUpdatedOrder p = none) :
    (∃ i, s.orders[i]? = some order ∧
      UpdateOrderByID env s id p = (none, { s with orders := s.orders.set i p }) ∧
      (UpdateOrderByID env s id p).2.orders.length = s.orders.length ∧
      (UpdateOrderByID env s id p).2.orders[i]? = some p ∧
      ∀ j, j ≠ i → (UpdateOrderByID env s id p).2.orders[j]? = s.orders[j]?) ∧
    ∀ q : Order, (q.CustomerName = "" ∨ q.Items = [] ∨
        ∃ item ∈ q.Items, item.ProductID = "" ∨ item.Quantity ≤ 0) →
      (UpdateOrderByID env s id q).1 ≠ none ∧ (UpdateOrderByID env s id q).2 = s := by
  constructor
  · have hsome : findOrderIndex id s.orders ≠ none := by
      rw [Ne, findOrderIndex_none]
      intro h
      exact h order hmem hid
    obtain ⟨i, hfind⟩ := Option.ne_none_iff_exists'.mp hsome
    obtain ⟨hi, hid', _⟩ := findOrderIndex_some id s.orders i hfind
    have heq : s.orders[i] = order :=
      eq_of_nodup_ids s.orders hnd _ _ (List.getElem_mem _) hmem (hid'.trans hid.symm)
    have hnc : (s.orders.getD i default).Status ≠ "closed" := by
      rw [List.getD_eq_getElem _ _ hi, heq, hopen]; decide
    have hres := UpdateOrderByID_open env s id p i hvalid hio.1 hio.2 hfind hnc
    refine ⟨i, by rw [List.getElem?_eq_getElem hi, heq], hres, ?_, ?_, ?_⟩
    · rw [hres]; simp
    · rw [hres]; simp [List.getElem?_set, hi]
    · intro j hj
      rw [hres]
      simp only
      rw [List.getElem?_set_ne (Ne.symm hj)]
  · intro q hq
    cases hv : ValidateUpdatedOrder q with
    | none => exact absurd hv (ValidateUpdatedOrder_invalid q hq)
    | some e =>
      rw [UpdateOrderByID_invalid env s id q e hv]
      exact ⟨by simp, rfl⟩

/-- C20 (amended). When no stored order carries the ID, every update is rejected
and nothing is persisted. The payload is validated first: a payload that passes
validation is refused with "order not found", a payload that fails validation is
refused with its validation error. -/
theorem update_of_absent_order_rejected {Q : Type} (env : Env) (s : Store Q) (id : String)
    (p : Order) (hro : env.readOrders = none)
    (habsent : ∀ order ∈ s.orders, order.ID ≠ id) :
    (UpdateOrderByID env s id p).1 ≠ none ∧ (UpdateOrderByID env s id p).2 = s ∧
      (ValidateUpdatedOrder p = none → (UpdateOrderByID env s id p).1 = some "order not found") ∧
      (∀ e, ValidateUpdatedOrder p = some e → (UpdateOrderByID env s id p).1 = some e) := by
  have hinv : ∀ e, ValidateUpdatedOrder p = some e → (UpdateOrderByID env s id p).1 = some e :=
    fun e he => by rw [UpdateOrderByID_invalid env s id p e he]
  have hval : ValidateUpdatedOrder p = none →
      (UpdateOrderByID env s id p).1 = some "order not found" :=
    fun hv => by rw [UpdateOrderByID_absent env s id p hv hro habsent]
  have herr : (UpdateOrderByID env s id p).1 ≠ none := by
    cases hv : ValidateUpdatedOrder p with
    | none => rw [hval hv]; simp
    | some e => rw [hinv e hv]; simp
  have hsame : (UpdateOrderByID env s id p).2 = s := by
    cases hv : ValidateUpdatedOrder p with
    | none => rw [UpdateOrderByID_absent env s id p hv hro habsent]
    | some e => rw [UpdateOrderByID_invalid env s id p e hv]
  exact ⟨herr, hsame, hval, hinv⟩

/-- C11 (amended). Closing an open order one of whose recipes names an ingredient
that is absent from the inventory returns an error and writes nothing. When every
check before the recipe entry passes, the error returned is the
ingredient-not-found error naming that ingredient, and it is not the
insufficient-inventory error of any ingredient. In general (with readable files)
the error returned is the error of the first check of the loop that fails: that
of an earlier line naming an unknown product, or of an earlier recipe entry whose
ingredient is absent or whose stock is insufficient. -/
theorem closeOrder_unknown_ingredient {Q : Type} [LinearOrderedCommRing Q]
    (env : Env) (s : Store Q) (orderID : String) (order : Order) (g : String)
    (horder : findOrder orderID s.orders = some order)
    (hopen : order.Status = "open")
    (hdem : Demands s.menu order g)
    (hmissing : ∀ item ∈ s.inventory, item.IngredientID ≠ g) :
    (CloseOrder env s orderID).1 ≠ none ∧ (CloseOrder env s orderID).2 = s ∧
      (∀ pre line post menuItem before ingredient after inv1 inv2,
        env.readOrders = none → env.readMenu = none → env.readInventory = none →
        order.Items = pre ++ line :: post →
        processOrderItems (buildMenuItemMap s.menu) (buildInventoryMap s.inventory) pre
          s.inventory = .ok inv1 →
        buildMenuItemMap s.menu line.ProductID = some menuItem →
        menuItem.Ingredients = before ++ ingredient :: after →
        ingredient.IngredientID = g →
        deductIngredients (buildInventoryMap s.inventory) line.Quantity before inv1 = .ok inv2 →
        (CloseOrder env s orderID).1 = some ("ingredient not found in inventory: " ++ g) ∧
        ∀ y, (CloseOrder env s orderID).1 ≠
          some ("insufficient inventory for ingredient: " ++ y)) ∧
      (env.readOrders = none → env.readMenu = none → env.readInventory = none →
        ∃ e, CloseOrder env s orderID = (some e, s) ∧
          FirstFailedCheck (buildMenuItemMap s.menu) (buildInventoryMap s.inventory)
            order.Items s.inventory e) := by
  obtain ⟨i, hfind, hget⟩ := (findOrder_eq_some _ _ _).mp horder
  have hnone : buildInventoryMap s.inventory g = none := by
    cases hj : buildInventoryMap s.inventory g with
    | none => rfl
    | some j =>
      obtain ⟨hlt, hid⟩ := buildInventoryMap_some s.inventory g j hj
      exact absurd hid (hmissing _ (List.getElem_mem _))
  have hfail : ∀ inv', processOrderItems (buildMenuItemMap s.menu)
      (buildInventoryMap s.inventory) (s.orders.getD i default).Items s.inventory ≠ .ok inv' := by
    intro inv' hproc
    rw [hget] at hproc
    obtain ⟨line, hline, mi, hmi, ing, hing, hid⟩ := hdem
    obtain ⟨j, hj⟩ := processOrderItems_ingredients_resolved _ _ _ _ _ hproc line hline mi hmi
      ing hing
    rw [hid, hnone] at hj
    cases hj
  have herr : (CloseOrder env s orderID).1 ≠ none := by
    intro hn
    obtain ⟨i', inv', _, _, _, _, _, hfind', _, hproc, _⟩ :=
      CloseOrder_success env s (CloseOrder env s orderID).2 orderID (Prod.ext hn rfl)
    rw [hfind] at hfind'
    cases hfind'
    exact hfail inv' hproc
  refine ⟨herr, ?_, ?_, ?_⟩
  · rcases CloseOrder_error env s orderID herr with h | ⟨e', i', inv', hfind', hproc, _⟩
    · exact h
    · rw [hfind] at hfind'
      cases hfind'
      exact absurd hproc (hfail inv')
  rotate_left
  · intro hro hrm hri
    cases he : processOrderItems (buildMenuItemMap s.menu) (buildInventoryMap s.inventory)
        order.Items s.inventory with
    | ok inv' => rw [← hget] at he; exact absurd he (hfail inv')
    | error e =>
      exact ⟨e, CloseOrder_loop_error env s orderID order e hro hrm hri horder
        (by rw [hopen]; decide) he, processOrderItems_error_cases _ _ _ _ e he⟩
  · intro pre line post menuItem before ingredient after inv1 inv2 hro hrm hri hsplit hpre hmi
      hrecipe hid hbefore
    have hnotclosed : ¬ (s.orders.getD i default).Status = "closed" := by
      rw [hget, hopen]; decide
    have hfailat : processOrderItems (buildMenuItemMap s.menu) (buildInventoryMap s.inventory)
        (s.orders.getD i default).Items s.inventory =
          .error ("ingredient not found in inventory: " ++ g) := by
      rw [hget, hsplit, processOrderItems_append _ _ pre (line :: post) _ _ hpre]
      simp only [processOrderItems, hmi]
      rw [hrecipe, deductIngredients_append _ _ before (ingredient :: after) _ _ hbefore]
      simp only [deductIngredients, hid, hnone]
    have hres : (CloseOrder env s orderID).1 =
        some ("ingredient not found in inventory: " ++ g) := by
      unfold CloseOrder
      simp only [hro, hfind, hnotclosed, hrm, hri, hfailat, if_false]
    refine ⟨hres, ?_⟩
    intro y hy
    rw [hres] at hy
    exact not_found_ne_insufficient g y (Option.some.inj hy)

/-- C13 (amended). A successful CreateOrder ignores the ID of the input. On an
empty collection it assigns "order1". On a collection whose IDs all have the
form order<N> it assigns order<L+1>, where L is the suffix of the last stored
order (and L+1 fits a 64-bit integer); L is the maximum suffix exactly when no
stored order has a larger suffix than the last one. -/
theorem createOrder_assigns_successor_of_last {Q : Type} (env : Env) (s s' : Store Q)
    (input : Order) (hok : CreateOrder env s input = (none, s')) :
    (s.orders = [] → ∃ stored, s'.orders = [stored] ∧ stored.ID = "order1") ∧
    (∀ (ns : List Nat) (L : Nat), s.orders.map (fun order => order.ID) = ns.map orderIDOf →
      ns.getLast? = some L → L + 1 < 2 ^ 63 →
      ∃ stored, s'.orders = s.orders ++ [stored] ∧ stored.ID = orderIDOf (L + 1) ∧
        ((∀ n ∈ ns, n ≤ L) → ns.max? = some L)) := by
  obtain ⟨newID, _, _, _, hid, rfl⟩ := CreateOrder_success env s s' input hok
  constructor
  · intro hnil
    refine ⟨storedOrder env newID input, by simp [hnil], ?_⟩
    exact assignOrderID_nil s.orders newID hnil hid
  · intro ns L hform hlast hbound
    obtain ⟨_, hnew⟩ := assignOrderID_of_last s.orders ns L newID hform hlast hid
    refine ⟨storedOrder env newID input, rfl, ?_, ?_⟩
    · show newID = orderIDOf (L + 1)
      rw [hnew, nextOrderID_of_nat L hbound]
    · intro hmax
      obtain ⟨ys, rfl⟩ := List.getLast?_eq_some_iff.mp hlast
      exact List.max?_eq_some_iff'.mpr ⟨by simp, hmax⟩

/-- C14 (amended). Start from an empty order collection and run any sequence of
CreateOrder and DeleteOrderByID calls (fewer than 2^63 - 1 of them). The first
ID ever assigned is "order1". After the sequence the stored IDs are order<n> for
strictly increasing numbers n, and the next successful CreateOrder assigns
order<n> with n one more than the suffix of the last stored order (1 when none is
stored), which is strictly greater than the suffix of every order stored at that
moment. Numbers of orders deleted from the end of the collection are not
remembered. -/
theorem create_delete_sequence_ids {Q : Type} (inventory : List (InventoryItem Q))
    (menu : List (MenuItem Q)) (calls : List OrderCall) (hlen : calls.length + 1 < 2 ^ 63) :
    (∀ env input s', CreateOrder env ⟨[], inventory, menu⟩ input = (none, s') →
      ∃ stored, s'.orders = [stored] ∧ stored.ID = "order1") ∧
    ∃ ns : List Nat, ns.Pairwise (· < ·) ∧ (∀ n ∈ ns, 1 ≤ n ∧ n ≤ calls.length) ∧
      (runCalls ⟨[], inventory, menu⟩ calls).orders.map (fun order => order.ID) =
        ns.map orderIDOf ∧
      ∀ env input s', CreateOrder env (runCalls ⟨[], inventory, menu⟩ calls) input = (none, s') →
        ∃ stored, s'.orders = (runCalls ⟨[], inventory, menu⟩ calls).orders ++ [stored] ∧
          stored.ID = orderIDOf (ns.getLast?.getD 0 + 1) ∧
          ∀ n ∈ ns, n < ns.getLast?.getD 0 + 1 := by
  constructor
  · intro env input s' hok
    exact createOrder_first env _ s' input rfl hok
  · obtain ⟨ns, hns⟩ := runCalls_suffixes (⟨[], inventory, menu⟩ : Store Q) calls rfl hlen
    refine ⟨ns, hns.1, hns.2.1, hns.2.2, ?_⟩
    intro env input s' hok
    obtain ⟨stored, happ, hid, hgt, _⟩ := createOrder_next env _ s' input calls.length ns hns
      (by omega) hok
    exact ⟨stored, happ, hid, hgt⟩

/-- C15 (amended). When the stored IDs are order<n> for strictly increasing
numbers n, the stored IDs are still pairwise distinct after every successful
CreateOrder, DeleteOrderByID or CloseOrder. After a successful UpdateOrderByID
they are pairwise distinct exactly when the ID of the payload is the ID that was
updated or is carried by no stored order: the payload replaces the record in
full, its own ID included. -/
theorem order_ids_stay_distinct {Q : Type} [LinearOrderedCommRing Q] (env : Env) (s : Store Q)
    (ns : List Nat)
    (hform : s.orders.map (fun order => order.ID) = ns.map orderIDOf)
    (hsorted : ns.Pairwise (· < ·)) :
    (∀ input s', CreateOrder env s input = (none, s') →
      (s'.orders.map (fun order => order.ID)).Nodup) ∧
    (∀ id s', DeleteOrderByID env s id = (none, s') →
      (s'.orders.map (fun order => order.ID)).Nodup) ∧
    (∀ id s', CloseOrder env s id = (none, s') →
      (s'.orders.map (fun order => order.ID)).Nodup) ∧
    (∀ id p s', UpdateOrderByID env s id p = (none, s') →
      ((s'.orders.map (fun order => order.ID)).Nodup ↔
        (p.ID = id ∨ ∀ order ∈ s.orders, order.ID ≠ p.ID))) := by
  have hnd := ids_nodup_of_sorted s.orders ns hform hsorted
  refine ⟨?_, ?_, ?_, ?_⟩
  · intro input s' hok
    obtain ⟨newID, _, _, _, hid, rfl⟩ := CreateOrder_success env s s' input hok
    simp only [List.map_append, List.map_cons, List.map_nil]
    rw [List.nodup_append]
    refine ⟨hnd, List.nodup_singleton _, ?_⟩
    intro x hx hx'
    rw [List.mem_singleton.mp hx'] at hx
    exact assigned_id_is_new s.orders ns newID hform hsorted hid hx
  · intro id s' hok
    rcases DeleteOrderByID_cases env s id with ⟨herr, _⟩ | h
    · rw [hok] at herr
      exact absurd rfl herr
    · rw [hok] at h
      rw [(Prod.mk.inj h).2]
      simp only
      rw [ids_filter s.orders ns id hform]
      exact List.Nodup.map orderIDOf_injective
        ((hsorted.filter _).imp (fun h => Nat.ne_of_lt h))
  · intro id s' hok
    obtain ⟨i, inv', _, _, _, _, _, _, _, _, rfl⟩ := CloseOrder_success env s s' id hok
    simp only
    rw [ids_after_close]
    exact hnd
  · intro id p s' hok
    have hv : ValidateUpdatedOrder p = none := by
      cases hv : ValidateUpdatedOrder p with
      | none => rfl
      | some e =>
        rw [UpdateOrderByID_invalid env s id p e hv] at hok
        simp at hok
    unfold UpdateOrderByID at hok
    cases hro : env.readOrders with
    | some e => simp [hv, hro] at hok
    | none =>
    cases hfind : findOrderIndex id s.orders with
    | none => simp [hv, hro, hfind] at hok
    | some i =>
    by_cases hc : (s.orders.getD i default).Status = "closed"
    · simp only [hv, hro, hfind, hc, if_true] at hok
      simp at hok
    cases hso : env.saveOrders with
    | some e =>
      simp only [hv, hro, hfind, hc, hso, if_false] at hok
      simp at hok
    | none =>
      simp only [hv, hro, hfind, hc, hso, if_false, Prod.mk.injEq, true_and] at hok
      subst hok
      obtain ⟨hi, hid, _⟩ := findOrderIndex_some id s.orders i hfind
      have hi' : i < (s.orders.map (fun order => order.ID)).length := by simpa using hi
      simp only [List.map_set]
      rw [nodup_set_iff _ hnd i hi' p.ID]
      have hget : (s.orders.map (fun order => order.ID))[i] = id := by simpa using hid
      rw [hget]
      constructor
      · rintro (h | h)
        · exact Or.inl h
        · exact Or.inr (fun order hmem hcon => h (List.mem_map.mpr ⟨order, hmem, hcon⟩))
      · rintro (h | h)
        · exact Or.inl h
        · right
          intro hmem
          obtain ⟨order, ho, hcon⟩ := List.mem_map.mp hmem
          exact h order ho hcon

/-- C21. With unique order IDs and readable orders: when the collection holds an
open order under the ID and the save works, DeleteOrderByID succeeds and the
persisted collection is the previous one with exactly that order taken out, the
orders before and after it in their original relative order (none of them carries
the ID; inventory and menu are untouched); when no order carries the ID, it fails
with "order not found" and the stored state is unchanged. -/
theorem deleteOrder_removes_exactly_that_order {Q : Type} (env : Env) (s : Store Q)
    (id : String) (hread : env.readOrders = none)
    (hnd : (s.orders.map (fun order => order.ID)).Nodup) :
    (∀ order ∈ s.orders, order.ID = id → order.Status = "open" → env.saveOrders = none →
      ∃ before after, s.orders = before ++ order :: after ∧
        DeleteOrderByID env s id = (none, { s with orders := before ++ after }) ∧
        s.orders.erase order = before ++ after ∧
        (∀ o ∈ before ++ after, o.ID ≠ id) ∧
        (DeleteOrderByID env s id).2.inventory = s.inventory ∧
        (DeleteOrderByID env s id).2.menu = s.menu) ∧
    ((∀ order ∈ s.orders, order.ID ≠ id) →
      DeleteOrderByID env s id = (some "order not found", s)) := by
  constructor
  · intro order hmem hid hopen hsave
    subst hid
    obtain ⟨before, after, hsplit, hfil, her, hne⟩ := filter_ne_id_split s.orders hnd order hmem
    have hres := DeleteOrderByID_open env s order hread hsave hnd hmem hopen
    rw [hfil] at hres
    exact ⟨before, after, hsplit, hres, her, hne, by rw [hres], by rw [hres]⟩
  · exact DeleteOrderByID_absent env s id hread

/-- C22. With readable orders and menu and unique menu IDs (exact arithmetic),
TotalSalesAmount returns, without error, the sum over the lines of the closed
orders of line quantity times the price of the menu item carrying the line's
product ID, where a line whose product ID is not on the menu counts 0; orders
that are not closed are not in the sum, and when no order is closed the result
is 0. -/
theorem totalSales_is_sum_over_closed_lines {Q : Type} [LinearOrderedCommRing Q]
    (env : Env) (s : Store Q) (hread : env.readOrders = none ∧ env.readMenu = none)
    (hnd : (s.menu.map (fun menuItem => menuItem.ID)).Nodup) :
    TotalSalesAmount env s = (totalSalesSpec s.menu s.orders, none) ∧
    totalSalesSpec s.menu s.orders =
      (((s.orders.filter (fun order => order.Status = "closed")).flatMap
        (fun order => order.Items)).map (fun line =>
          match s.menu.find? (fun menuItem => menuItem.ID = line.ProductID) with
          | some menuItem => (line.Quantity : Q) * menuItem.Price
          | none => 0)).sum ∧
    ((∀ order ∈ s.orders, order.Status ≠ "closed") → TotalSalesAmount env s = (0, none)) := by
  refine ⟨TotalSalesAmount_eq env s hread.1 hread.2 hnd, rfl, ?_⟩
  intro h
  rw [TotalSalesAmount_eq env s hread.1 hread.2 hnd, totalSalesSpec, closedLines_eq_nil _ h]
  simp

/-- C23. With readable orders and menu, at least one line in a closed order, and
every product ID on a closed-order line non-empty and on the menu:
GetMostPopularItem returns, without error and whatever the order in which the
frequency map is enumerated, an item of the menu whose ID is on at least one
closed-order line and which no product ID exceeds in the number of closed-order
lines naming it (a line counts once, whatever its quantity). -/
theorem mostPopularItem_has_maximal_count {Q : Type} [Zero Q] (env : Env) (s : Store Q)
    (iteration : List String) (hread : env.readOrders = none ∧ env.readMenu = none)
    (hiter : EnumeratesProducts s.orders iteration) (hne : closedLines s.orders ≠ [])
    (hmenu : ∀ line ∈ closedLines s.orders,
      line.ProductID ≠ "" ∧ ∃ menuItem ∈ s.menu, menuItem.ID = line.ProductID) :
    ∃ menuItem, GetMostPopularItem env s iteration = (menuItem, none) ∧ menuItem ∈ s.menu ∧
      0 < occurrences s.orders menuItem.ID ∧
      ∀ productID, occurrences s.orders productID ≤ occurrences s.orders menuItem.ID := by
  obtain ⟨pre, b, post, _, hfh, hpos, _, hmax⟩ := findHighest_chosen s.orders iteration hiter hne
  obtain ⟨line, hline, hid⟩ := (occurrences_pos_iff s.orders b).mp hpos
  obtain ⟨hnonempty, mi, hmi, hmid⟩ := hmenu line hline
  rw [hid] at hnonempty hmid
  have hres := GetMostPopularItem_of_chosen env s iteration b _ hread.1 hread.2 hfh
  rw [if_pos hnonempty] at hres
  cases hf : s.menu.find? (fun menuItem => menuItem.ID = b) with
  | none =>
    have := List.find?_eq_none.mp hf mi hmi
    simp [hmid] at this
  | some found =>
    have hfid : found.ID = b := by simpa using List.find?_some hf
    rw [hf] at hres
    exact ⟨found, hres, List.mem_of_find?_eq_some hf, by rw [hfid]; exact hpos,
      by rw [hfid]; exact hmax⟩

/-- C24. With readable orders, when no order is closed or the closed orders have
no lines, GetMostPopularItem returns the empty MenuItem with a nil error, for
every menu (readable or not) and every enumeration order. -/
theorem mostPopularItem_empty_without_closed_lines {Q : Type} [Zero Q] (env : Env)
    (s : Store Q) (iteration : List String) (hread : env.readOrders = none)
    (hnone : ∀ order ∈ s.orders, order.Status = "closed" → order.Items = []) :
    GetMostPopularItem env s iteration = (⟨"", "", "", 0, []⟩, none) := by
  have hnil := (closedLines_eq_nil_iff s.orders).mpr hnone
  have hfh : findHighest (countOrders (fun _ => none)
      (s.orders.filter (fun order => order.Status = "closed"))) iteration ("", 0) = ("", 0) := by
    apply findHighest_of_le
    intro k _
    rw [productFrequency_eq, occurrences, hnil]
    simp
  unfold GetMostPopularItem ReadClosedOrders
  simp only [hread, hfh]
  rfl

/-- C25 as the code has it. With readable orders and menu and at least one line
in a closed order, GetMostPopularItem returns the menu item (the empty item when
the menu has none, or when the ID is empty) of the product ID that comes first in
the enumeration of the frequency map among those with the maximum count: every
key enumerated before it has strictly fewer occurrences and no product ID has
more. When one product ID has strictly more occurrences than every other, every
enumeration order gives the same result. -/
theorem mostPopularItem_tie_goes_to_first_enumerated {Q : Type} [Zero Q] (env : Env)
    (s : Store Q) (iteration : List String)
    (hread : env.readOrders = none ∧ env.readMenu = none)
    (hiter : EnumeratesProducts s.orders iteration) (hne : closedLines s.orders ≠ []) :
    (∃ pre b post, iteration = pre ++ b :: post ∧
      (∀ k ∈ pre, occurrences s.orders k < occurrences s.orders b) ∧
      (∀ k, occurrences s.orders k ≤ occurrences s.orders b) ∧
      GetMostPopularItem env s iteration =
        if b ≠ "" then ((s.menu.find? (fun menuItem => menuItem.ID = b)).getD default, none)
        else (default, none)) ∧
    ∀ iteration2, EnumeratesProducts s.orders iteration2 →
      (∃ p, ∀ q, q ≠ p → occurrences s.orders q < occurrences s.orders p) →
      GetMostPopularItem env s iteration2 = GetMostPopularItem env s iteration := by
  obtain ⟨pre, b, post, hsplit, hfh, _, hpre, hmax⟩ :=
    findHighest_chosen s.orders iteration hiter hne
  have hres := GetMostPopularItem_of_chosen env s iteration b _ hread.1 hread.2 hfh
  refine ⟨⟨pre, b, post, hsplit, hpre, hmax, hres⟩, ?_⟩
  intro iteration2 hiter2 ⟨p, hp⟩
  obtain ⟨_, b2, _, _, hfh2, _, _, hmax2⟩ := findHighest_chosen s.orders iteration2 hiter2 hne
  have hb : b = p := by
    by_contra hbp
    exact absurd (hp b hbp) (Nat.not_lt.mpr (hmax p))
  have hb2 : b2 = p := by
    by_contra hbp
    exact absurd (hp b2 hbp) (Nat.not_lt.mpr (hmax2 p))
  rw [hres, GetMostPopularItem_of_chosen env s iteration2 b2 _ hread.1 hread.2 hfh2, hb, hb2]

/-- C26 as the code has it. With a readable menu (a Go slice, so of a length
below 2^63): GetDailyItem fails with "no menu items available" if and only if the
menu is empty; for every non-empty menu and every draw of the random source,
RandomInt(0, len-1) returns an index within 0..len-1, the lookup stays in
bounds, and the call returns, without error, the element of the menu at that
index. RandomInt(min, max) with min <= max returns r with min <= r <= max
provided max - min + 1 is below 2^63 (min and max being 64-bit integers); for
every wider range `max-min+1` wraps to a number that is not positive and
RandomInt panics. -/
theorem dailyItem_is_a_menu_item {Q : Type} [Zero Q] (env : Env) (s : Store Q) (r : Nat)
    (hread : env.readMenu = none) (hlen : (s.menu.length : Int) < 2 ^ 63) :
    ((GetDailyItem env s r).2 = some "no menu items available" ↔ s.menu = []) ∧
    (s.menu ≠ [] → ∃ (i : Nat) (menuItem : MenuItem Q),
      RandomInt r 0 ((s.menu.length : Int) - 1) = some (i : Int) ∧ i < s.menu.length ∧
      s.menu[i]? = some menuItem ∧ menuItem ∈ s.menu ∧
      GetDailyItem env s r = (menuItem, none)) ∧
    (∀ min max : Int, min ≤ max → -2 ^ 63 ≤ min → max < 2 ^ 63 → max - min + 1 < 2 ^ 63 →
      ∃ v, RandomInt r min max = some v ∧ min ≤ v ∧ v ≤ max) ∧
    ∀ min max : Int, -2 ^ 63 ≤ min → max < 2 ^ 63 → 2 ^ 63 ≤ max - min + 1 →
      RandomInt r min max = none := by
  refine ⟨?_, ?_, ?_, RandomInt_wide r⟩
  · constructor
    · intro h
      by_contra hne
      obtain ⟨_, _, _, _, _, hres⟩ := GetDailyItem_nonempty env s r hread hlen hne
      rw [hres] at h
      simp at h
    · intro h
      unfold GetDailyItem
      simp [hread, h]
  · intro hne
    obtain ⟨i, menuItem, hr, hi, hget, hres⟩ := GetDailyItem_nonempty env s r hread hlen hne
    exact ⟨i, menuItem, hr, hi, hget, List.mem_iff_getElem?.mpr ⟨i, hget⟩, hres⟩
  · intro min max hle hmin hmax hsize
    exact ⟨_, RandomInt_range r min max hle hmin hmax hsize⟩

/-! ## The claims at the example scenarios -/

set_option maxRecDepth 100000 in
/-- C1, as stated, fails in the float64 arithmetic of the code. The stock of milk
is 1.0; the order has three lines that each take 2^-54 and one line that takes
1.0, so its aggregated demand, 1 + 3 * 2^-54, exceeds the stock, and in exact
arithmetic the close is refused. In float64 the deduction 1.0 - 2^-54 rounds
back to 1.0, three times, the last line finds 1.0 in stock, and CloseOrder
succeeds: it saves the inventory with no milk left and the order as closed. -/
theorem closeOrder_float64_absorbs_demand :
    findOrder "order1" exStoreDrops.orders = some exOrderDrops ∧
    exOrderDrops.Status = "open" ∧
    available (exactStore (-106) exStoreDrops).inventory "milk" = some (2 ^ 106) ∧
    (2 ^ 106 : Int) < 2 ^ 106 + 3 * 2 ^ 52 ∧
    aggregatedDemand (exactStore (-106) exStoreDrops).menu exOrderDrops "milk" =
      2 ^ 106 + 3 * 2 ^ 52 ∧
    (CloseOrder exEnv (exactStore (-106) exStoreDrops) "order1").1 =
      some "insufficient inventory for ingredient: milk" ∧
    F64.mul exDroplet (F64.ofInt 1) = exDroplet ∧
    F64.lt exOne exDroplet = false ∧
    F64.sub exOne exDroplet = exOne ∧
    CloseOrderF64 exEnv exStoreDrops "order1" =
      (none, { exStoreDrops with
        inventory := [⟨"milk", "Milk", .finite false 0 (-1074), "l"⟩]
        orders :=
          [{ exOrderDrops with Status := "closed", CreatedAt := "2024-01-01T11:00:00Z" }] }) := by
  decide

/-- C1 at the first example scenario: two lattes need 400 of milk, 150 are in stock. -/
theorem closeOrder_insufficient_stock_writes_nothing_witness :
    (findOrder "order1" exStoreShort.orders = some exOrder ∧ exOrder.Status = "open" ∧
      available exStoreShort.inventory "milk" = some 150 ∧
      (150 : Int) < aggregatedDemand exStoreShort.menu exOrder "milk") ∧
    ((CloseOrder exEnv exStoreShort "order1").1 ≠ none ∧
      (CloseOrder exEnv exStoreShort "order1").2 = exStoreShort ∧
      ∃ stored, findOrder "order1" (CloseOrder exEnv exStoreShort "order1").2.orders = some stored ∧
        stored.Status = "open") :=
  ⟨⟨by decide, by decide, by decide, by decide⟩,
    closeOrder_insufficient_stock_writes_nothing exEnv exStoreShort "order1" exOrder "milk" 150
      (by decide) (by decide) (by decide) (Or.inr (by decide)) (by decide)⟩

/-- C2 at the second example scenario: 10 shots and 1000 of milk become 8 and 600. -/
theorem closeOrder_deducts_aggregated_demand_witness :
    (CloseOrder exEnv exStoreFull "order1" = (none, exStoreClosed) ∧
      (exStoreFull.inventory.map (fun item => item.IngredientID)).Nodup) ∧
    ∃ order, findOrder "order1" exStoreFull.orders = some order ∧
      exStoreClosed.inventory = exStoreFull.inventory.map (fun item =>
        { item with
          Quantity := item.Quantity - aggregatedDemand exStoreFull.menu order item.IngredientID }) ∧
      (∀ (j : Nat) (item : InventoryItem Int), exStoreFull.inventory[j]? = some item →
        ¬ Demands exStoreFull.menu order item.IngredientID →
        exStoreClosed.inventory[j]? = some item) ∧
      exStoreClosed.menu = exStoreFull.menu :=
  ⟨⟨by decide, by decide⟩,
    closeOrder_deducts_aggregated_demand exEnv exStoreFull exStoreClosed "order1"
      (by decide) (by decide)⟩

/-- C3 at the second example scenario. -/
theorem closeOrder_succeeds_iff_aggregate_fits_witness :
    ((exEnv.readOrders = none ∧ exEnv.readMenu = none ∧ exEnv.readInventory = none ∧
        exEnv.saveInventory = none ∧ exEnv.saveOrders = none) ∧
      findOrder "order1" exStoreFull.orders = some exOrder ∧ exOrder.Status = "open" ∧
      (∀ line ∈ exOrder.Items, ∃ menuItem ∈ exStoreFull.menu, menuItem.ID = line.ProductID) ∧
      (∀ line ∈ exOrder.Items, 0 ≤ line.Quantity)) ∧
    (((CloseOrder exEnv exStoreFull "order1").1 = none ↔
      ∀ g a, Demands exStoreFull.menu exOrder g → available exStoreFull.inventory g = some a →
        aggregatedDemand exStoreFull.menu exOrder g ≤ a) ∧
    ((∀ item ∈ exStoreFull.inventory, 0 ≤ item.Quantity) →
      ((CloseOrder exEnv exStoreFull "order1").1 = none ↔
        ∀ g a, available exStoreFull.inventory g = some a →
          aggregatedDemand exStoreFull.menu exOrder g ≤ a))) :=
  ⟨⟨by decide, by decide, by decide, by decide, by decide⟩,
    closeOrder_succeeds_iff_aggregate_fits exEnv exStoreFull "order1" exOrder
      (by decide) (by decide) (by decide) (by decide)
      (fun g hg => by
        rcases exOrder_demands g hg with rfl | rfl
        · exact ⟨exEspresso, by decide, rfl⟩
        · exact ⟨⟨"milk", "Milk", 1000, "ml"⟩, by decide, rfl⟩)
      (by decide)
      (fun line hline menuItem hmenu ingredient hmem => by
        rw [exOrder_recipe line menuItem hline hmenu] at hmem
        simp only [exLatte, List.mem_cons, List.mem_singleton, List.not_mem_nil, or_false] at hmem
        rcases hmem with rfl | rfl <;> decide)⟩

/-- C4 at the second example scenario. -/
theorem closeOrder_order_frame_witness :
    CloseOrder exEnv exStoreFull "order1" = (none, exStoreClosed) ∧
    ∃ (i : Nat) (order : Order),
      findOrder "order1" exStoreFull.orders = some order ∧
      exStoreFull.orders[i]? = some order ∧ order.ID = "order1" ∧
      exStoreClosed.orders.length = exStoreFull.orders.length ∧
      exStoreClosed.orders[i]? = some { order with Status := "closed", CreatedAt := exEnv.now } ∧
      ∀ j, j ≠ i → exStoreClosed.orders[j]? = exStoreFull.orders[j]? :=
  ⟨by decide, closeOrder_order_frame exEnv exStoreFull exStoreClosed "order1" (by decide)⟩

/-- C5 at the second example scenario, the second call in another environment. -/
theorem closeOrder_twice_fails_witness :
    (CloseOrder exEnv exStoreFull "order1" = (none, exStoreClosed) ∧
      exEnvOrdersSaveFails.readOrders = none) ∧
    CloseOrder exEnvOrdersSaveFails exStoreClosed "order1" =
      (some "order is already closed", exStoreClosed) :=
  ⟨⟨by decide, by decide⟩,
    closeOrder_twice_fails exEnv exEnvOrdersSaveFails exStoreFull exStoreClosed "order1"
      (by decide) (by decide)⟩

/-- C6 at the store left by the second example scenario. -/
theorem closed_order_immutable_witness :
    ((exStoreClosed.orders.map (fun order => order.ID)).Nodup ∧
      exOrderClosed ∈ exStoreClosed.orders ∧ exOrderClosed.ID = "order1" ∧
      exOrderClosed.Status = "closed") ∧
    (((UpdateOrderByID exEnv exStoreClosed "order1" exOrder).1 ≠ none ∧
        (UpdateOrderByID exEnv exStoreClosed "order1" exOrder).2 = exStoreClosed) ∧
      ((DeleteOrderByID exEnv exStoreClosed "order1").1 ≠ none ∧
        (DeleteOrderByID exEnv exStoreClosed "order1").2 = exStoreClosed)) :=
  ⟨⟨by decide, by decide, by decide, by decide⟩,
    closed_order_immutable exEnv exStoreClosed "order1" exOrderClosed exOrder
      (by decide) (by decide) (by decide) (by decide)⟩

/-- C7, as stated, fails: a valid payload with status closed replaces an open
order, the update succeeds, and the order stored under the same ID is closed
afterwards although the inventory was never touched. -/
theorem update_closes_open_order :
    (UpdateOrderByID exEnv exStoreFull "order1" exOrderClosed).1 = none ∧
    (findOrder "order1" exStoreFull.orders).map (fun order => order.Status) = some "open" ∧
    (findOrder "order1" (UpdateOrderByID exEnv exStoreFull "order1" exOrderClosed).2.orders).map
      (fun order => order.Status) = some "closed" ∧
    (UpdateOrderByID exEnv exStoreFull "order1" exOrderClosed).2.inventory =
      exStoreFull.inventory := by
  decide

/-- C7 (amended) at the second example scenario: a creation, a deletion and an update. -/
theorem only_update_can_change_a_stored_status_witness :
    (CreateOrder exEnv exStoreFull exInput =
        (none, { exStoreFull with orders := [exOrder, exOrderSecond] }) ∧
      DeleteOrderByID exEnv exStoreFull "order1" = (none, { exStoreFull with orders := [] }) ∧
      UpdateOrderByID exEnv exStoreFull "order1" exOrderClosed =
        (none, { exStoreFull with orders := [exOrderClosed] })) ∧
    (findOrder "order1" [exOrder, exOrderSecond] = some exOrder ∧
      findOrder "order1" ([] : List Order) = none ∧
      (exOrderClosed.Status = "open" ∨ exOrderClosed.Status = "closed")) :=
  ⟨⟨by decide, by decide, by decide⟩,
    ((only_update_can_change_a_stored_status exEnv exStoreFull).1 exInput
      { exStoreFull with orders := [exOrder, exOrderSecond] } (by decide)).2
      "order1" exOrder (by decide),
    ((only_update_can_change_a_stored_status exEnv exStoreFull).2.1 "order1"
      { exStoreFull with orders := [] } (by decide)).2.1,
    ((only_update_can_change_a_stored_status exEnv exStoreFull).2.2 "order1" exOrderClosed
      { exStoreFull with orders := [exOrderClosed] } (by decide)).2.1⟩

/-- C8, as stated, fails. When the inventory is saved and the save of the order
collection then fails on opening the file, CloseOrder returns the error while the
persisted inventory already carries the deduction and the order is still open.
When the write of the order collection fails after the truncation, the inventory
carries the deduction and the orders file holds no order at all. When the write
of the inventory fails after the truncation, the inventory file holds no record. -/
theorem closeOrder_not_atomic :
    CloseOrder exEnvOrdersOpenFails exStoreFull "order1" =
      (some "open orders.json: permission denied",
        { exStoreFull with inventory := exInventoryAfter }) ∧
    exInventoryAfter ≠ exStoreFull.inventory ∧
    CloseOrder exEnvOrdersSaveFails exStoreFull "order1" =
      (some "write orders.json: no space left on device",
        { exStoreFull with inventory := exInventoryAfter, orders := [] }) ∧
    CloseOrder exEnvInventorySaveFails exStoreFull "order1" =
      (some "write inventory.json: no space left on device",
        { exStoreFull with inventory := [] }) ∧
    exStoreFull.orders = [exOrder] ∧ exStoreFull.inventory = exInventoryFull := by
  decide

/-- C8 (amended) at the second example scenario with a failing write of the
orders, and with a failing read of the menu. -/
theorem closeOrder_error_frame_witness :
    ((CloseOrder exEnvOrdersSaveFails exStoreFull "order1").1 ≠ none ∧
      exEnvOrdersSaveFails.readOrders = none ∧ exEnvOrdersSaveFails.readMenu = none ∧
      exEnvOrdersSaveFails.readInventory = none ∧
      findOrder "order1" exStoreFull.orders = some exOrder ∧ exOrder.Status ≠ "closed" ∧
      processOrderItems (buildMenuItemMap exStoreFull.menu)
        (buildInventoryMap exStoreFull.inventory) exOrder.Items exStoreFull.inventory =
          .ok exInventoryAfter ∧
      exEnvOrdersSaveFails.saveInventory = none ∧
      exEnvOrdersSaveFails.saveOrders = some "write orders.json: no space left on device" ∧
      exEnvOrdersSaveFails.saveOrdersTruncates = true ∧
      ({ exEnv with readMenu := some "open menu.json: permission denied" } : Env).saveOrders =
        none) ∧
    (CloseOrder exEnvOrdersSaveFails exStoreFull "order1").2.menu = exStoreFull.menu ∧
    CloseOrder exEnvOrdersSaveFails exStoreFull "order1" =
      (some "write orders.json: no space left on device",
        { exStoreFull with
          inventory := exInventoryAfter
          orders := if exEnvOrdersSaveFails.saveOrdersTruncates then [] else exStoreFull.orders }) ∧
    (CloseOrder { exEnv with readMenu := some "open menu.json: permission denied" }
      exStoreFull "order1").2 = exStoreFull :=
  ⟨⟨by decide, by decide, by decide, by decide, by decide, by decide, rfl, by decide, by decide,
      by decide, by decide⟩,
    (closeOrder_error_frame exEnvOrdersSaveFails exStoreFull "order1" (by decide)).1,
    ((closeOrder_error_frame exEnvOrdersSaveFails exStoreFull "order1" (by decide)).2.2.1
      exOrder exInventoryAfter (by decide) (by decide) (by decide) (by decide) (by decide)
      rfl).2 _ (by decide) (by decide),
    (closeOrder_error_frame { exEnv with readMenu := some "open menu.json: permission denied" }
      exStoreFull "order1" (by decide)).2.2.2 (by decide) (by decide)⟩

/-- C9 at the second example scenario: an addition, an update, a deletion and a close. -/
theorem inventory_never_negative_witness :
    ((∀ item ∈ exStoreFull.inventory, 0 ≤ item.Quantity) ∧
      AddInventoryItem exEnv exStoreFull exSugar =
        (none, { exStoreFull with inventory := exInventoryFull ++ [exSugar] }) ∧
      UpdateInventoryItem exEnv exStoreFull "milk" exSugar =
        (none, { exStoreFull with inventory := exInventoryFull.set 1 exSugar }) ∧
      DeleteInventoryItem exEnv exStoreFull "MILK" =
        (none, { exStoreFull with inventory := [exEspresso] }) ∧
      CloseOrder exEnv exStoreFull "order1" = (none, exStoreClosed)) ∧
    ((∀ x ∈ exInventoryFull ++ [exSugar], 0 ≤ x.Quantity) ∧
      (∀ x ∈ exInventoryFull.set 1 exSugar, 0 ≤ x.Quantity) ∧
      (∀ x ∈ [exEspresso], 0 ≤ x.Quantity) ∧
      (∀ x ∈ exStoreClosed.inventory, 0 ≤ x.Quantity)) :=
  ⟨⟨by decide, by decide, by decide, by decide, by decide⟩,
    (inventory_never_negative exEnv exStoreFull (by decide)).1 exSugar
      { exStoreFull with inventory := exInventoryFull ++ [exSugar] } (by decide),
    (inventory_never_negative exEnv exStoreFull (by decide)).2.1 "milk" exSugar
      { exStoreFull with inventory := exInventoryFull.set 1 exSugar } (by decide),
    (inventory_never_negative exEnv exStoreFull (by decide)).2.2.1 "MILK"
      { exStoreFull with inventory := [exEspresso] } (by decide),
    (inventory_never_negative exEnv exStoreFull (by decide)).2.2.2 "order1" exStoreClosed
      (by decide)⟩

/-- C10, as stated, fails: the order has a line naming a product that is not on
the menu, yet the close reports the insufficient stock of the line before it,
not the missing product. -/
theorem closeOrder_unknown_product_masked :
    findOrder "order1" exStoreGhost.orders = some exOrderGhost ∧
    exOrderGhost.Status = "open" ∧
    (⟨"ghost", 1⟩ : OrderItem) ∈ exOrderGhost.Items ∧
    (∀ menuItem ∈ exStoreGhost.menu, menuItem.ID ≠ "ghost") ∧
    (CloseOrder exEnv exStoreGhost "order1").1 =
      some "insufficient inventory for ingredient: milk" ∧
    (CloseOrder exEnv exStoreGhost "order1").1 ≠ some "product not found in menu: ghost" := by
  decide

/-- C10 (amended) with sufficient stock, where the line before the unknown
product passes, and with short stock, where the error returned is that of the
first failed check. -/
theorem closeOrder_unknown_product_witness :
    (findOrder "order1" exStoreGhostFull.orders = some exOrderGhost ∧
      exOrderGhost.Status = "open" ∧ (⟨"ghost", 1⟩ : OrderItem) ∈ exOrderGhost.Items ∧
      (∀ menuItem ∈ exStoreGhostFull.menu, menuItem.ID ≠ "ghost") ∧
      exOrderGhost.Items = [⟨"latte", 2⟩] ++ ⟨"ghost", 1⟩ :: [] ∧
      processOrderItems (buildMenuItemMap exStoreGhostFull.menu)
        (buildInventoryMap exStoreGhostFull.inventory) [⟨"latte", 2⟩]
        exStoreGhostFull.inventory = .ok exInventoryAfter ∧
      findOrder "order1" exStoreGhost.orders = some exOrderGhost ∧
      (∀ menuItem ∈ exStoreGhost.menu, menuItem.ID ≠ "ghost") ∧
      (CloseOrder exEnv exStoreGhost "order1").1 =
        some "insufficient inventory for ingredient: milk") ∧
    ((CloseOrder exEnv exStoreGhostFull "order1").1 ≠ none ∧
      (CloseOrder exEnv exStoreGhostFull "order1").2 = exStoreGhostFull ∧
      (CloseOrder exEnv exStoreGhostFull "order1").1 =
        some "product not found in menu: ghost") ∧
    ∃ e, CloseOrder exEnv exStoreGhost "order1" = (some e, exStoreGhost) ∧
      FirstFailedCheck (buildMenuItemMap exStoreGhost.menu)
        (buildInventoryMap exStoreGhost.inventory) exOrderGhost.Items exStoreGhost.inventory e :=
  ⟨⟨by decide, by decide, by decide, by decide, by decide, rfl, by decide, by decide,
      by decide⟩,
    ⟨(closeOrder_unknown_product exEnv exStoreGhostFull "order1" exOrderGhost ⟨"ghost", 1⟩
        (by decide) (by decide) (by decide) (by decide)).1,
      (closeOrder_unknown_product exEnv exStoreGhostFull "order1" exOrderGhost ⟨"ghost", 1⟩
        (by decide) (by decide) (by decide) (by decide)).2.1,
      (closeOrder_unknown_product exEnv exStoreGhostFull "order1" exOrderGhost ⟨"ghost", 1⟩
        (by decide) (by decide) (by decide) (by decide)).2.2.1 [⟨"latte", 2⟩] [] exInventoryAfter
        (by decide) (by decide) (by decide) (by decide) rfl⟩,
    (closeOrder_unknown_product exEnv exStoreGhost "order1" exOrderGhost ⟨"ghost", 1⟩
      (by decide) (by decide) (by decide) (by decide)).2.2.2 (by decide) (by decide)
      (by decide)⟩

/-- C11, as stated, fails: every product of the order is on the menu and its
recipe names milk, which is absent from the inventory, yet the close reports the
insufficient stock of the recipe entry before it, not the missing ingredient. -/
theorem closeOrder_unknown_ingredient_masked :
    findOrder "order1" exStoreNoMilkShort.orders = some exOrder ∧
    exOrder.Status = "open" ∧
    (∀ line ∈ exOrder.Items, ∃ menuItem ∈ exStoreNoMilkShort.menu,
      menuItem.ID = line.ProductID) ∧
    (⟨"milk", 200⟩ : MenuItemIngredient Int) ∈ exLatte.Ingredients ∧
    (∀ item ∈ exStoreNoMilkShort.inventory, item.IngredientID ≠ "milk") ∧
    (CloseOrder exEnv exStoreNoMilkShort "order1").1 =
      some "insufficient inventory for ingredient: espresso_shot" ∧
    (CloseOrder exEnv exStoreNoMilkShort "order1").1 ≠
      some "ingredient not found in inventory: milk" := by
  decide

/-- C11 (amended) with enough espresso, where the entry before the missing milk
passes, and with one espresso shot, where the error returned is that of the
first failed check. -/
theorem closeOrder_unknown_ingredient_witness :
    (findOrder "order1" exStoreNoMilk.orders = some exOrder ∧ exOrder.Status = "open" ∧
      (∀ item ∈ exStoreNoMilk.inventory, item.IngredientID ≠ "milk") ∧
      exOrder.Items = [] ++ ⟨"latte", 2⟩ :: [] ∧
      buildMenuItemMap exStoreNoMilk.menu "latte" = some exLatte ∧
      exLatte.Ingredients = [⟨"espresso_shot", 1⟩] ++ ⟨"milk", 200⟩ :: [] ∧
      findOrder "order1" exStoreNoMilkShort.orders = some exOrder ∧
      (∀ item ∈ exStoreNoMilkShort.inventory, item.IngredientID ≠ "milk") ∧
      (CloseOrder exEnv exStoreNoMilkShort "order1").1 =
        some "insufficient inventory for ingredient: espresso_shot") ∧
    ((CloseOrder exEnv exStoreNoMilk "order1").1 ≠ none ∧
      (CloseOrder exEnv exStoreNoMilk "order1").2 = exStoreNoMilk ∧
      (CloseOrder exEnv exStoreNoMilk "order1").1 =
        some "ingredient not found in inventory: milk" ∧
      ∀ y, (CloseOrder exEnv exStoreNoMilk "order1").1 ≠
        some ("insufficient inventory for ingredient: " ++ y)) ∧
    ∃ e, CloseOrder exEnv exStoreNoMilkShort "order1" = (some e, exStoreNoMilkShort) ∧
      FirstFailedCheck (buildMenuItemMap exStoreNoMilkShort.menu)
        (buildInventoryMap exStoreNoMilkShort.inventory) exOrder.Items
        exStoreNoMilkShort.inventory e :=
  ⟨⟨by decide, by decide, by decide, by decide, by decide, by decide, by decide, by decide,
      by decide⟩,
    ⟨(closeOrder_unknown_ingredient exEnv exStoreNoMilk "order1" exOrder "milk" (by decide)
        (by decide) ⟨⟨"latte", 2⟩, by decide, exLatte, by decide, ⟨"milk", 200⟩, by decide, rfl⟩
        (by decide)).1,
      (closeOrder_unknown_ingredient exEnv exStoreNoMilk "order1" exOrder "milk" (by decide)
        (by decide) ⟨⟨"latte", 2⟩, by decide, exLatte, by decide, ⟨"milk", 200⟩, by decide, rfl⟩
        (by decide)).2.1,
      (closeOrder_unknown_ingredient exEnv exStoreNoMilk "order1" exOrder "milk" (by decide)
        (by decide) ⟨⟨"latte", 2⟩, by decide, exLatte, by decide, ⟨"milk", 200⟩, by decide, rfl⟩
        (by decide)).2.2.1 [] ⟨"latte", 2⟩ [] exLatte [⟨"espresso_shot", 1⟩] ⟨"milk", 200⟩ []
        exStoreNoMilk.inventory [⟨"espresso_shot", "Espresso shot", 8, "shots"⟩]
        (by decide) (by decide) (by decide) (by decide) rfl (by decide) (by decide) rfl rfl⟩,
    (closeOrder_unknown_ingredient exEnv exStoreNoMilkShort "order1" exOrder "milk" (by decide)
      (by decide) ⟨⟨"latte", 2⟩, by decide, exLatte, by decide, ⟨"milk", 200⟩, by decide, rfl⟩
      (by decide)).2.2.2 (by decide) (by decide) (by decide)⟩

/-- C12: at the first example scenario the stock of milk (150) is below the
required 400, and the error CloseOrder returns is the text below: it names the
ingredient and carries neither amount. With 100 of espresso and 30 of milk in
stock the very same text comes back. -/
theorem closeOrder_insufficient_error_text :
    (CloseOrder exEnv exStoreShort "order1").1 =
      some "insufficient inventory for ingredient: milk" ∧
    (CloseOrder exEnv
      ⟨[exOrder], [⟨"espresso_shot", "Espresso shot", 100, "shots"⟩, ⟨"milk", "Milk", 30, "ml"⟩],
        [exLatte]⟩ "order1").1 = some "insufficient inventory for ingredient: milk" := by
  decide

/-- C13, as stated, fails: the stored suffixes are 5 and 2, their maximum is 5,
and CreateOrder assigns order3, one more than the suffix of the last order. -/
theorem createOrder_uses_last_not_max :
    exStoreUnsorted.orders.map (fun order => order.ID) = [5, 2].map orderIDOf ∧
    CreateOrder exEnv exStoreUnsorted exInput =
      (none, { exStoreUnsorted with orders := [exOrderFive, exOrderSecond, exOrderThird] }) ∧
    exOrderThird.ID = orderIDOf 3 ∧ exOrderThird.ID ≠ orderIDOf (5 + 1) := by
  decide

/-- C13 (amended) at an empty collection and at the second example scenario. -/
theorem createOrder_assigns_successor_of_last_witness :
    (CreateOrder exEnv exStoreEmpty exInput = (none, { exStoreEmpty with orders := [exOrderFirst] }) ∧
      exStoreEmpty.orders = [] ∧
      CreateOrder exEnv exStoreFull exInput =
        (none, { exStoreFull with orders := [exOrder, exOrderSecond] }) ∧
      exStoreFull.orders.map (fun order => order.ID) = [1].map orderIDOf ∧
      [1].getLast? = some 1 ∧ 1 + 1 < 2 ^ 63) ∧
    ((∃ stored, [exOrderFirst] = [stored] ∧ stored.ID = "order1") ∧
      ∃ stored, [exOrder, exOrderSecond] = exStoreFull.orders ++ [stored] ∧
        stored.ID = orderIDOf (1 + 1) ∧ ((∀ n ∈ [1], n ≤ 1) → [1].max? = some 1)) :=
  ⟨⟨by decide, by decide, by decide, by decide, by decide, by decide⟩,
    (createOrder_assigns_successor_of_last exEnv exStoreEmpty
      { exStoreEmpty with orders := [exOrderFirst] } exInput (by decide)).1 (by decide),
    (createOrder_assigns_successor_of_last exEnv exStoreFull
      { exStoreFull with orders := [exOrder, exOrderSecond] } exInput (by decide)).2 [1] 1
      (by decide) (by decide) (by decide)⟩

/-- C14, as stated, fails: the second creation is assigned order2, the order is
deleted, and the third creation is assigned order2 again. -/
theorem createOrder_reuses_deleted_number :
    (runCalls exStoreEmpty (exCalls.take 1)).orders.map (fun order => order.ID) = ["order1"] ∧
    (runCalls exStoreEmpty (exCalls.take 2)).orders.map (fun order => order.ID) =
      ["order1", "order2"] ∧
    (runCalls exStoreEmpty (exCalls.take 3)).orders.map (fun order => order.ID) = ["order1"] ∧
    (runCalls exStoreEmpty exCalls).orders.map (fun order => order.ID) =
      ["order1", "order2"] := by
  decide

/-- C14 (amended) after two creations, a deletion and a creation. -/
theorem create_delete_sequence_ids_witness :
    (exCalls.length + 1 < 2 ^ 63 ∧
      CreateOrder exEnv (runCalls exStoreEmpty exCalls) exInput =
        (none, { exStoreEmpty with orders := [exOrderFirst, exOrderSecond, exOrderThird] })) ∧
    ∃ ns : List Nat, ns.Pairwise (· < ·) ∧
      (runCalls exStoreEmpty exCalls).orders.map (fun order => order.ID) = ns.map orderIDOf ∧
      ∃ stored, [exOrderFirst, exOrderSecond, exOrderThird] =
          (runCalls exStoreEmpty exCalls).orders ++ [stored] ∧
        stored.ID = orderIDOf (ns.getLast?.getD 0 + 1) ∧
        ∀ n ∈ ns, n < ns.getLast?.getD 0 + 1 :=
  ⟨⟨by decide, by decide⟩, by
    obtain ⟨_, ns, hsorted, _, hids, hnext⟩ :=
      create_delete_sequence_ids ([] : List (InventoryItem Int)) [] exCalls (by decide)
    exact ⟨ns, hsorted, hids, hnext exEnv exInput
      { exStoreEmpty with orders := [exOrderFirst, exOrderSecond, exOrderThird] } (by decide)⟩⟩

/-- C15, as stated, fails: the stored IDs are order1 and order2, a valid payload
carrying the ID order2 replaces order1, the update succeeds, and two stored
orders carry the ID order2. -/
theorem update_duplicates_an_id :
    exStoreTwo.orders.map (fun order => order.ID) = [1, 2].map orderIDOf ∧
    UpdateOrderByID exEnv exStoreTwo "order1" exOrderSecond =
      (none, { exStoreTwo with orders := [exOrderSecond, exOrderSecond] }) ∧
    ¬ ([exOrderSecond, exOrderSecond].map (fun order => order.ID)).Nodup := by
  decide

/-- C15 (amended) at a collection of two orders: a creation, a deletion, a close
and an update that keeps the ID. -/
theorem order_ids_stay_distinct_witness :
    (exStoreTwo.orders.map (fun order => order.ID) = [1, 2].map orderIDOf ∧
      [1, 2].Pairwise (· < ·) ∧
      CreateOrder exEnv exStoreTwo exInput =
        (none, { exStoreTwo with orders := [exOrder, exOrderSecond, exOrderThird] }) ∧
      DeleteOrderByID exEnv exStoreTwo "order1" =
        (none, { exStoreTwo with orders := [exOrderSecond] }) ∧
      CloseOrder exEnv exStoreTwo "order1" =
        (none, ⟨[exOrderClosed, exOrderSecond], exInventoryAfter, [exLatte]⟩) ∧
      UpdateOrderByID exEnv exStoreTwo "order1" exPayload =
        (none, { exStoreTwo with orders := [exPayload, exOrderSecond] })) ∧
    (([exOrder, exOrderSecond, exOrderThird].map (fun order => order.ID)).Nodup ∧
      ([exOrderSecond].map (fun order => order.ID)).Nodup ∧
      ([exOrderClosed, exOrderSecond].map (fun order => order.ID)).Nodup ∧
      (([exPayload, exOrderSecond].map (fun order => order.ID)).Nodup ↔
        (exPayload.ID = "order1" ∨ ∀ order ∈ exStoreTwo.orders, order.ID ≠ exPayload.ID))) :=
  ⟨⟨by decide, by decide, by decide, by decide, by decide, by decide⟩,
    (order_ids_stay_distinct exEnv exStoreTwo [1, 2] (by decide) (by decide)).1 exInput
      { exStoreTwo with orders := [exOrder, exOrderSecond, exOrderThird] } (by decide),
    (order_ids_stay_distinct exEnv exStoreTwo [1, 2] (by decide) (by decide)).2.1 "order1"
      { exStoreTwo with orders := [exOrderSecond] } (by decide),
    (order_ids_stay_distinct exEnv exStoreTwo [1, 2] (by decide) (by decide)).2.2.1 "order1"
      ⟨[exOrderClosed, exOrderSecond], exInventoryAfter, [exLatte]⟩ (by decide),
    (order_ids_stay_distinct exEnv exStoreTwo [1, 2] (by decide) (by decide)).2.2.2 "order1"
      exPayload { exStoreTwo with orders := [exPayload, exOrderSecond] } (by decide)⟩

/-- C16 at the second example scenario. -/
theorem createOrder_appends_one_order_witness :
    CreateOrder exEnv exStoreFull exInput =
      (none, { exStoreFull with orders := [exOrder, exOrderSecond] }) ∧
    ∃ stored, [exOrder, exOrderSecond] = exStoreFull.orders ++ [stored] ∧
      [exOrder, exOrderSecond].length = exStoreFull.orders.length + 1 ∧
      (∀ j, j < exStoreFull.orders.length →
        [exOrder, exOrderSecond][j]? = exStoreFull.orders[j]?) ∧
      stored.CustomerName = exInput.CustomerName ∧ stored.Items = exInput.Items ∧
      (exInput.Status = "" → stored.Status = "open") ∧
      (exInput.Status ≠ "" → stored.Status = exInput.Status) ∧
      (exInput.CreatedAt ≠ "" → stored.CreatedAt = exInput.CreatedAt) ∧
      (exInput.CreatedAt = "" → stored.CreatedAt = exEnv.almatyNow) ∧
      exStoreFull.inventory = exStoreFull.inventory ∧ exStoreFull.menu = exStoreFull.menu :=
  ⟨by decide, createOrder_appends_one_order exEnv exStoreFull
    { exStoreFull with orders := [exOrder, exOrderSecond] } exInput (by decide)⟩

/-- C17: CreateOrder stores a request without customer name and without items,
and a request whose only item has no product and a quantity of zero; it returns
no error for either. -/
theorem createOrder_accepts_invalid_input :
    CreateOrder exEnv exStoreEmpty exInputBlank =
      (none, { exStoreEmpty with
        orders := [⟨"order1", "", [], "open", "2024-01-01T11:00:00Z"⟩] }) ∧
    CreateOrder exEnv exStoreEmpty exInputBadItem =
      (none, { exStoreEmpty with
        orders := [⟨"order1", "Dana", [⟨"", 0⟩], "open", "2024-01-01T11:00:00Z"⟩] }) ∧
    ValidateUpdatedOrder ⟨"order1", "", [], "open", "2024-01-01T11:00:00Z"⟩ =
      some "customer name cannot be empty" := by
  decide

/-- C18, as stated, fails: the stored order is closed, the payload has no
customer name, and the update is refused with the validation error, not with the
closed-order error. -/
theorem update_of_closed_order_validates_first :
    findOrder "order1" exStoreClosed.orders = some exOrderClosed ∧
    exOrderClosed.Status = "closed" ∧
    (UpdateOrderByID exEnv exStoreClosed "order1" exPayloadNoName).1 =
      some "customer name cannot be empty" ∧
    (UpdateOrderByID exEnv exStoreClosed "order1" exPayloadNoName).1 ≠
      some "order is already closed and cannot be modified" := by
  decide

/-- C18 (amended) at the store left by the second example scenario. -/
theorem update_of_closed_order_rejected_witness :
    (exEnv.readOrders = none ∧ findOrder "order1" exStoreClosed.orders = some exOrderClosed ∧
      exOrderClosed.Status = "closed" ∧ ValidateUpdatedOrder exPayload = none) ∧
    ((UpdateOrderByID exEnv exStoreClosed "order1" exPayload).1 ≠ none ∧
      (UpdateOrderByID exEnv exStoreClosed "order1" exPayload).2 = exStoreClosed ∧
      (UpdateOrderByID exEnv exStoreClosed "order1" exPayload).1 =
        some "order is already closed and cannot be modified") :=
  ⟨⟨by decide, by decide, by decide, by decide⟩,
    (update_of_closed_order_rejected exEnv exStoreClosed "order1" exPayload exOrderClosed
      (by decide) (by decide) (by decide)).1,
    (update_of_closed_order_rejected exEnv exStoreClosed "order1" exPayload exOrderClosed
      (by decide) (by decide) (by decide)).2.1,
    (update_of_closed_order_rejected exEnv exStoreClosed "order1" exPayload exOrderClosed
      (by decide) (by decide) (by decide)).2.2.1 (by decide)⟩

/-- C19 at the second example scenario. -/
theorem update_of_open_order_replaces_record_witness :
    ((exEnv.readOrders = none ∧ exEnv.saveOrders = none) ∧
      (exStoreFull.orders.map (fun order => order.ID)).Nodup ∧
      exOrder ∈ exStoreFull.orders ∧ exOrder.ID = "order1" ∧ exOrder.Status = "open" ∧
      ValidateUpdatedOrder exPayload = none ∧ exPayloadNoName.CustomerName = "") ∧
    ((∃ i, exStoreFull.orders[i]? = some exOrder ∧
        UpdateOrderByID exEnv exStoreFull "order1" exPayload =
          (none, { exStoreFull with orders := exStoreFull.orders.set i exPayload }) ∧
        (UpdateOrderByID exEnv exStoreFull "order1" exPayload).2.orders.length =
          exStoreFull.orders.length ∧
        (UpdateOrderByID exEnv exStoreFull "order1" exPayload).2.orders[i]? = some exPayload ∧
        ∀ j, j ≠ i → (UpdateOrderByID exEnv exStoreFull "order1" exPayload).2.orders[j]? =
          exStoreFull.orders[j]?) ∧
      ((UpdateOrderByID exEnv exStoreFull "order1" exPayloadNoName).1 ≠ none ∧
        (UpdateOrderByID exEnv exStoreFull "order1" exPayloadNoName).2 = exStoreFull)) :=
  ⟨⟨by decide, by decide, by decide, by decide, by decide, by decide, by decide⟩,
    (update_of_open_order_replaces_record exEnv exStoreFull "order1" exPayload exOrder
      (by decide) (by decide) (by decide) (by decide) (by decide) (by decide)).1,
    (update_of_open_order_replaces_record exEnv exStoreFull "order1" exPayload exOrder
      (by decide) (by decide) (by decide) (by decide) (by decide) (by decide)).2
      exPayloadNoName (Or.inl (by decide))⟩

/-- C20, as stated, fails: no stored order carries the ID order9, the payload has
no customer name, and the update is refused with the validation error, not with
"order not found". -/
theorem update_of_absent_order_validates_first :
    (∀ order ∈ exStoreFull.orders, order.ID ≠ "order9") ∧
    (UpdateOrderByID exEnv exStoreFull "order9" exPayloadNoName).1 =
      some "customer name cannot be empty" ∧
    (UpdateOrderByID exEnv exStoreFull "order9" exPayloadNoName).1 ≠
      some "order not found" := by
  decide

/-- C20 (amended) at the second example scenario. -/
theorem update_of_absent_order_rejected_witness :
    (exEnv.readOrders = none ∧ (∀ order ∈ exStoreFull.orders, order.ID ≠ "order9") ∧
      ValidateUpdatedOrder exPayload = none) ∧
    ((UpdateOrderByID exEnv exStoreFull "order9" exPayload).1 ≠ none ∧
      (UpdateOrderByID exEnv exStoreFull "order9" exPayload).2 = exStoreFull ∧
      (UpdateOrderByID exEnv exStoreFull "order9" exPayload).1 = some "order not found") :=
  ⟨⟨by decide, by decide, by decide⟩,
    (update_of_absent_order_rejected exEnv exStoreFull "order9" exPayload (by decide)
      (by decide)).1,
    (update_of_absent_order_rejected exEnv exStoreFull "order9" exPayload (by decide)
      (by decide)).2.1,
    (update_of_absent_order_rejected exEnv exStoreFull "order9" exPayload (by decide)
      (by decide)).2.2.1 (by decide)⟩

/-- C21 on the collection of two open orders: the second is deleted, and the
deletion of an absent ID is refused. -/
theorem deleteOrder_removes_exactly_that_order_witness :
    (exEnv.readOrders = none ∧ (exStoreTwo.orders.map (fun order => order.ID)).Nodup ∧
      exOrderSecond ∈ exStoreTwo.orders ∧ exOrderSecond.ID = "order2" ∧
      exOrderSecond.Status = "open" ∧ exEnv.saveOrders = none ∧
      ∀ order ∈ exStoreTwo.orders, order.ID ≠ "order9") ∧
    (∃ before after, exStoreTwo.orders = before ++ exOrderSecond :: after ∧
        DeleteOrderByID exEnv exStoreTwo "order2" =
          (none, { exStoreTwo with orders := before ++ after }) ∧
        exStoreTwo.orders.erase exOrderSecond = before ++ after ∧
        (∀ o ∈ before ++ after, o.ID ≠ "order2") ∧
        (DeleteOrderByID exEnv exStoreTwo "order2").2.inventory = exStoreTwo.inventory ∧
        (DeleteOrderByID exEnv exStoreTwo "order2").2.menu = exStoreTwo.menu) ∧
    DeleteOrderByID exEnv exStoreTwo "order9" = (some "order not found", exStoreTwo) :=
  ⟨⟨by decide, by decide, by decide, by decide, by decide, by decide, by decide⟩,
    (deleteOrder_removes_exactly_that_order exEnv exStoreTwo "order2" (by decide) (by decide)).1
      exOrderSecond (by decide) (by decide) (by decide) (by decide),
    (deleteOrder_removes_exactly_that_order exEnv exStoreTwo "order9" (by decide) (by decide)).2
      (by decide)⟩

/-- C22 on two closed orders and an open one: 2 lattes at 5, 3 teas at 3 and
1 latte at 5 give 24; the open order adds nothing. With the only order open, the
total is 0. -/
theorem totalSales_is_sum_over_closed_lines_witness :
    ((exEnv.readOrders = none ∧ exEnv.readMenu = none) ∧
      (exStoreReports.menu.map (fun menuItem => menuItem.ID)).Nodup ∧
      (exStoreFull.menu.map (fun menuItem => menuItem.ID)).Nodup ∧
      (∀ order ∈ exStoreFull.orders, order.Status ≠ "closed") ∧
      totalSalesSpec exStoreReports.menu exStoreReports.orders = 24) ∧
    TotalSalesAmount exEnv exStoreReports =
      (totalSalesSpec exStoreReports.menu exStoreReports.orders, none) ∧
    TotalSalesAmount exEnv exStoreFull = (0, none) :=
  ⟨⟨by decide, by decide, by decide, by decide, by decide⟩,
    (totalSales_is_sum_over_closed_lines exEnv exStoreReports (by decide) (by decide)).1,
    (totalSales_is_sum_over_closed_lines exEnv exStoreFull (by decide) (by decide)).2.2
      (by decide)⟩

/-- C23 on two closed orders and an open one: latte is on two closed lines, tea
on one, and the latte comes back although tea is enumerated first. -/
theorem mostPopularItem_has_maximal_count_witness :
    ((exEnv.readOrders = none ∧ exEnv.readMenu = none) ∧
      EnumeratesProducts exStoreReports.orders ["tea", "latte"] ∧
      closedLines exStoreReports.orders ≠ [] ∧
      (∀ line ∈ closedLines exStoreReports.orders,
        line.ProductID ≠ "" ∧ ∃ menuItem ∈ exStoreReports.menu, menuItem.ID = line.ProductID) ∧
      GetMostPopularItem exEnv exStoreReports ["tea", "latte"] = (exLatte, none) ∧
      occurrences exStoreReports.orders "latte" = 2 ∧
      occurrences exStoreReports.orders "tea" = 1) ∧
    ∃ menuItem, GetMostPopularItem exEnv exStoreReports ["tea", "latte"] = (menuItem, none) ∧
      menuItem ∈ exStoreReports.menu ∧ 0 < occurrences exStoreReports.orders menuItem.ID ∧
      ∀ productID, occurrences exStoreReports.orders productID ≤
        occurrences exStoreReports.orders menuItem.ID :=
  ⟨⟨by decide, by unfold EnumeratesProducts; decide, by decide, by decide, by decide, by decide,
      by decide⟩,
    mostPopularItem_has_maximal_count exEnv exStoreReports ["tea", "latte"] (by decide)
      (by unfold EnumeratesProducts; decide) (by decide) (by decide)⟩

/-- C24 on a store whose only order is open, and on a store without orders. -/
theorem mostPopularItem_empty_without_closed_lines_witness :
    (exEnv.readOrders = none ∧
      (∀ order ∈ exStoreFull.orders, order.Status = "closed" → order.Items = []) ∧
      (∀ order ∈ exStoreMenu.orders, order.Status = "closed" → order.Items = [])) ∧
    GetMostPopularItem exEnv exStoreFull ["latte"] = (⟨"", "", "", 0, []⟩, none) ∧
    GetMostPopularItem exEnv exStoreMenu [] = (⟨"", "", "", 0, []⟩, none) :=
  ⟨⟨by decide, by decide, by decide⟩,
    mostPopularItem_empty_without_closed_lines exEnv exStoreFull ["latte"] (by decide)
      (by decide),
    mostPopularItem_empty_without_closed_lines exEnv exStoreMenu [] (by decide) (by decide)⟩

/-- C25, as stated, fails: latte and tea are on one closed line each, and latte
is the first to reach that count in collection order. Both enumeration orders of
the two keys are enumerations of the frequency map; one run returns the tea, the
other the latte. -/
theorem mostPopularItem_depends_on_map_order :
    closedLines exStoreTie.orders = [⟨"latte", 2⟩, ⟨"tea", 4⟩] ∧
    firstToReachMaximum exStoreTie.orders = some "latte" ∧
    EnumeratesProducts exStoreTie.orders ["latte", "tea"] ∧
    EnumeratesProducts exStoreTie.orders ["tea", "latte"] ∧
    GetMostPopularItem exEnv exStoreTie ["latte", "tea"] = (exLatte, none) ∧
    GetMostPopularItem exEnv exStoreTie ["tea", "latte"] = (exTea, none) ∧
    exTea.ID ≠ "latte" := by
  unfold EnumeratesProducts
  decide

/-- C25 as the code has it, on the tie of latte and tea (the first enumerated
key wins) and on the store where latte alone has the maximum. -/
theorem mostPopularItem_tie_goes_to_first_enumerated_witness :
    ((exEnv.readOrders = none ∧ exEnv.readMenu = none) ∧
      EnumeratesProducts exStoreTie.orders ["tea", "latte"] ∧
      closedLines exStoreTie.orders ≠ [] ∧
      EnumeratesProducts exStoreReports.orders ["tea", "latte"] ∧
      EnumeratesProducts exStoreReports.orders ["latte", "tea"] ∧
      closedLines exStoreReports.orders ≠ []) ∧
    (∃ pre b post, ["tea", "latte"] = pre ++ b :: post ∧
      (∀ k ∈ pre, occurrences exStoreTie.orders k < occurrences exStoreTie.orders b) ∧
      (∀ k, occurrences exStoreTie.orders k ≤ occurrences exStoreTie.orders b) ∧
      GetMostPopularItem exEnv exStoreTie ["tea", "latte"] =
        if b ≠ "" then
          ((exStoreTie.menu.find? (fun menuItem => menuItem.ID = b)).getD default, none)
        else (default, none)) ∧
    GetMostPopularItem exEnv exStoreReports ["latte", "tea"] =
      GetMostPopularItem exEnv exStoreReports ["tea", "latte"] :=
  ⟨⟨by decide, by unfold EnumeratesProducts; decide, by decide,
      by unfold EnumeratesProducts; decide, by unfold EnumeratesProducts; decide, by decide⟩,
    (mostPopularItem_tie_goes_to_first_enumerated exEnv exStoreTie ["tea", "latte"] (by decide)
      (by unfold EnumeratesProducts; decide) (by decide)).1,
    (mostPopularItem_tie_goes_to_first_enumerated exEnv exStoreReports ["tea", "latte"]
      (by decide) (by unfold EnumeratesProducts; decide) (by decide)).2 ["latte", "tea"]
      (by unfold EnumeratesProducts; decide)
      ⟨"latte", fun q hq => by
        have h2 : occurrences exStoreReports.orders "latte" = 2 := by decide
        rw [h2]
        by_cases ht : q = "tea"
        · subst ht; decide
        · have h0 : occurrences exStoreReports.orders q = 0 := by
            simp only [occurrences, List.countP_eq_zero]
            intro line hline
            have : line.ProductID = "latte" ∨ line.ProductID = "tea" := by
              revert line; decide
            rcases this with h | h <;> simp [h, Ne.symm hq, Ne.symm ht]
          omega⟩⟩

/-- C26, as stated, fails in its sentence on RandomInt: for the 64-bit bounds
below, `max-min+1` wraps to 0, respectively to a negative number, `rand.Intn`
panics, and RandomInt returns nothing, whatever the random source draws. -/
theorem randomInt_wide_range_panics :
    ((-2 ^ 63 : Int) ≤ 2 ^ 63 - 1 ∧ ∀ r, RandomInt r (-2 ^ 63) (2 ^ 63 - 1) = none) ∧
    ((-1 : Int) ≤ 2 ^ 63 - 1 ∧ ∀ r, RandomInt r (-1) (2 ^ 63 - 1) = none) ∧
    wrapInt64 (wrapInt64 ((2 ^ 63 - 1) - (-2 ^ 63)) + 1) = 0 ∧
    wrapInt64 (wrapInt64 ((2 ^ 63 - 1) - (-1)) + 1) = -2 ^ 63 + 1 :=
  ⟨⟨by decide, fun _ => rfl⟩, ⟨by decide, fun _ => rfl⟩, by decide, by decide⟩

/-- C26 as the code has it, on the menu of latte and tea with the draw 5 (index
1, the tea), on the empty menu, and for RandomInt(3, 7) with the same draw. -/
theorem dailyItem_is_a_menu_item_witness :
    (exEnv.readMenu = none ∧ (exStoreMenu.menu.length : Int) < 2 ^ 63 ∧
      exStoreMenu.menu ≠ [] ∧ exStoreEmpty.menu = [] ∧
      GetDailyItem exEnv exStoreMenu 5 = (exTea, none)) ∧
    (∃ (i : Nat) (menuItem : MenuItem Int),
      RandomInt 5 0 ((exStoreMenu.menu.length : Int) - 1) = some (i : Int) ∧
      i < exStoreMenu.menu.length ∧ exStoreMenu.menu[i]? = some menuItem ∧
      menuItem ∈ exStoreMenu.menu ∧ GetDailyItem exEnv exStoreMenu 5 = (menuItem, none)) ∧
    (GetDailyItem exEnv exStoreEmpty 5).2 = some "no menu items available" ∧
    ∃ v, RandomInt 5 3 7 = some v ∧ 3 ≤ v ∧ v ≤ 7 :=
  ⟨⟨by decide, by decide, by decide, by decide, by decide⟩,
    (dailyItem_is_a_menu_item exEnv exStoreMenu 5 (by decide) (by decide)).2.1 (by decide),
    (dailyItem_is_a_menu_item exEnv exStoreEmpty 5 (by decide) (by decide)).1.mpr (by decide),
    (dailyItem_is_a_menu_item exEnv exStoreMenu 5 (by decide) (by decide)).2.2.1 3 7
      (by decide) (by decide) (by decide) (by decide)⟩

/-- C27: for the request body `exInput` on an empty collection the creation
succeeds and stores the order under the ID order1, with status open and the
clock's timestamp; the body of the 201 response is the request body, whose ID,
status and timestamp are empty. Whenever the handler answers a decoded request
with 201, the body is the request body. -/
theorem postOrder_response_is_request_body :
    handlePostOrder exEnv exStoreEmpty (some exInput) =
      (⟨201, .order exInput⟩, { exStoreEmpty with orders := [exOrderFirst] }) ∧
    (exInput.ID = "" ∧ exInput.Status = "" ∧ exInput.CreatedAt = "") ∧
    (exOrderFirst.ID = "order1" ∧ exOrderFirst.Status = "open" ∧
      exOrderFirst.CreatedAt = "2024-01-01T11:00:00Z") ∧
    ∀ (env : Env) (s : Store Int) (newOrder : Order),
      (handlePostOrder env s (some newOrder)).1 = ⟨201, .order newOrder⟩ ∨
      (handlePostOrder env s (some newOrder)).1 = writeJSONError 500 "Failed to create order" := by
  refine ⟨by decide, by decide, by decide, ?_⟩
  intro env s newOrder
  unfold handlePostOrder
  rcases h : CreateOrder env s newOrder with ⟨_ | e, s'⟩
  · left; simp only [h]
  · right; simp only [h]

/-- C28: the dispatcher answers the path /reports/popular-items with the 404
"Report not found", for every state; the popular-item report is reached only
under the path without the leading slash, while the two other reports are
reached under their paths with the slash. -/
theorem reports_popular_items_not_routed :
    (∀ (env : Env) (s : Store Int) (iteration : List String) (r : Nat),
      handleGetReports env s iteration r "/reports/popular-items" =
        ⟨404, .error "Report not found"⟩) ∧
    handleGetReports exEnv exStoreReports ["tea", "latte"] 1 "reports/popular-items" =
      ⟨200, .menuItem exLatte⟩ ∧
    handleGetReports exEnv exStoreReports ["tea", "latte"] 1 "/reports/total-sales" =
      ⟨200, .totalSales 24⟩ ∧
    handleGetReports exEnv exStoreReports ["tea", "latte"] 1 "/reports/daily-item" =
      ⟨200, .menuItem exTea⟩ := by
  refine ⟨?_, by decide, by decide, by decide⟩
  intro env s iteration r
  unfold handleGetReports
  rw [if_neg (by decide), if_neg (by decide), if_neg (by decide)]
  rfl

/-- C30: the inventory holds espresso_shot and milk. For the id MILK the lookup
fails with "inventory item not found", and the deletion succeeds and removes the
item whose ingredient ID is milk, which differs from the id. -/
theorem inventory_delete_folds_case :
    exStoreFull.inventory.map (fun item => item.IngredientID) = ["espresso_shot", "milk"] ∧
    GetInventoryItemByID exEnv exStoreFull "MILK" =
      (default, some "inventory item not found") ∧
    DeleteInventoryItem exEnv exStoreFull "MILK" =
      (none, { exStoreFull with inventory := [exEspresso] }) ∧
    (∀ item ∈ exStoreFull.inventory, item.IngredientID ≠ "MILK") ∧
    GetInventoryItemByID exEnv exStoreFull "milk" = (⟨"milk", "Milk", 1000, "ml"⟩, none) := by
  decide

end HotCoffee
